import Mathlib

/-!
Reflective request dispatch of `coral/pkg/rpc` and its chaincode adapter.

A shallow embedding of

* `vendor/github.com/snlansky/coral/pkg/rpc/impl.go` (registration, lookup,
  arity check, argument decoding, invocation), and
* `hello/vendor/github.com/snlansky/coral/pkg/contract/impl/fabric_cc.go`
  (`recoverHandler`, the recovery boundary around one dispatch).

Go strings are embedded as Lean strings (valid UTF-8 text).  What the code
obtains from the Go runtime and standard library (`encoding/json`, `unicode`,
`fmt`, `reflect`) is collected in `Env`, so that general statements hold for
every behaviour of those libraries.  A panic is an explicit outcome.
-/

namespace Coral

/-! ## Reflection data: kinds, types, values -/

/-- The `reflect.Kind` of a type, as far as the dispatcher tells kinds apart. -/
inductive Kind where
  | invalid
  | bool
  | int
  | float
  | string
  | struct
  | iface
  | ptr
  | slice
  | array
  | map
  | func
  | chan
  deriving DecidableEq, Repr

/-- The method `reflect.Kind.String`. -/
def Kind.text : Kind → String
  | .invalid => "invalid"
  | .bool => "bool"
  | .int => "int"
  | .float => "float64"
  | .string => "string"
  | .struct => "struct"
  | .iface => "interface"
  | .ptr => "ptr"
  | .slice => "slice"
  | .array => "array"
  | .map => "map"
  | .func => "func"
  | .chan => "chan"

/-- Whether `reflect.Value.IsNil` is defined on values of the kind: chan, func,
interface, map, pointer and slice; on every other kind it panics. -/
def Kind.nillable : Kind → Bool
  | .chan | .func | .iface | .map | .ptr | .slice => true
  | _ => false

/-- A Go type, as seen through `reflect.Type`. -/
inductive GoType where
  /-- A predeclared named type (`int`, `string`, `error`, ...): `PkgPath() == ""`. -/
  | builtin (name : String) (kind : Kind)
  /-- A defined type `pkg.name`, declared in the package with import path
  `pkgPath`, with its underlying type. -/
  | named (pkgPath pkg name : String) (underlying : GoType)
  | ptr (elem : GoType)
  | slice (elem : GoType)
  | array (len : Nat) (elem : GoType)
  | map (key elem : GoType)
  /-- Any other unnamed type literal (`struct{...}`, `func(...)`, `interface{...}`,
  `chan T`), given by its kind and its `String()`. -/
  | lit (kind : Kind) (str : String)
  deriving DecidableEq, Repr

namespace GoType

/-- The method `reflect.Type.Kind`. -/
def kind : GoType → Kind
  | builtin _ k => k
  | named _ _ _ u => u.kind
  | ptr _ => .ptr
  | slice _ => .slice
  | array _ _ => .array
  | map _ _ => .map
  | lit k _ => k

/-- The method `reflect.Type.Name`: the name of a defined or predeclared type, `""` otherwise. -/
def name : GoType → String
  | builtin n _ => n
  | named _ _ n _ => n
  | _ => ""

/-- The method `reflect.Type.PkgPath`: the import path of a defined type, `""` otherwise. -/
def pkgPath : GoType → String
  | named p _ _ _ => p
  | _ => ""

/-- The method `reflect.Type.String`. -/
def string : GoType → String
  | builtin n _ => n
  | named _ pkg n _ => pkg ++ "." ++ n
  | ptr e => "*" ++ e.string
  | slice e => "[]" ++ e.string
  | array n e => "[" ++ toString n ++ "]" ++ e.string
  | map k e => "map[" ++ k.string ++ "]" ++ e.string
  | lit _ s => s

/-- The method `reflect.Type.Elem` on a type of kind `Ptr` (also `Slice`, `Array`, `Map`);
on a type without element type the type itself stands in. -/
def elem : GoType → GoType
  | named _ _ _ u => u.elem
  | ptr e => e
  | slice e => e
  | array _ e => e
  | map _ e => e
  | t => t

/-- The loop `for t.Kind() == reflect.Ptr { t = t.Elem() }`. -/
def stripPtr : GoType → GoType
  | ptr e => e.stripPtr
  | named p k n u => if u.kind = .ptr then u.stripPtr else named p k n u
  | t => t

end GoType

/-- Modelled from the spec: `contract.InternalError`, declared in a file of the
repository that is not among the sources.  It carries an internal diagnostic
message (`Error()`) and a distinct externally-safe message (`External()`). -/
structure InternalError where
  internal : String
  external : String
  deriving DecidableEq, Repr

/-- A non-nil value whose dynamic type implements `error`. -/
inductive GoError where
  /-- A `contract.InternalError` (`byPtr = false`) or a non-nil
  `*contract.InternalError` (`byPtr = true`). -/
  | internal (e : InternalError) (byPtr : Bool)
  /-- A value that also implements `runtime.Error`. -/
  | runtime (typ msg : String)
  /-- Any other error, with its dynamic type and its message. -/
  | plain (typ msg : String)
  deriving DecidableEq, Repr

/-- The method `Error()` of an error value. -/
def GoError.Error : GoError → String
  | .internal e _ => e.internal
  | .runtime _ msg => msg
  | .plain _ msg => msg

/-- The value built by `errors.New(msg)`, and by `fmt.Errorf` once formatted. -/
def errorsNew (msg : String) : GoError := .plain "*errors.errorString" msg

/-- An `interface{}` value by dynamic type.  Pointers are non-nil. -/
inductive Value where
  /-- The nil interface; as a `reflect.Value`, the zero Value. -/
  | nil
  | bool (b : Bool)
  | int (n : Int)
  /-- A value of dynamic type `string`. -/
  | str (s : String)
  | err (e : GoError)
  /-- A non-nil pointer to `v`. -/
  | ptr (v : Value)
  /-- A value of any other dynamic type. -/
  | other (typ repr : String)
  deriving DecidableEq, Repr

/-- The result of running Go code: it returns, or a panic with a value is raised. -/
inductive Outcome (α : Type) where
  | ok (a : α)
  | panic (v : Value)
  deriving DecidableEq, Repr

/-- The Go runtime and libraries the code calls, and the package-level
declaration it reads, that are not part of the sources. -/
structure Env where
  /-- The call `json.Unmarshal(data, p)` where `p` is a fresh pointer `reflect.New(t)`: the
  value `p` points to afterwards, or the error returned. -/
  unmarshal : String → GoType → Except GoError Value
  /-- The predicate `unicode.IsUpper`. -/
  isUpper : Char → Bool
  /-- The test `t.Implements(reflect.TypeOf((*error)(nil)).Elem())`. -/
  implementsError : GoType → Bool
  /-- The verb `%q` of `fmt` on a string. -/
  quote : String → String
  /-- The type `reflect.TypeOf(v)` as rendered by the verb `%v`. -/
  typeOf : Value → String
  /-- The verb `%v` of `fmt` on a value. -/
  format : Value → String
  /-- Modelled from the spec: `contract.ErrRuntime`, the fixed generic
  "runtime error" marker, declared in a file that is not among the sources. -/
  ErrRuntime : GoError

/-- The verb `%v` on an `error`: `<nil>` for nil, the message otherwise. -/
def formatErr : Option GoError → String
  | none => "<nil>"
  | some e => e.Error

/-- The run-time panic of an index expression out of range. -/
def boundsError (i n : Nat) : Value :=
  .err (.runtime "runtime.boundsError"
    ("runtime error: index out of range [" ++ toString i ++ "] with length " ++ toString n))

/-- The run-time panic of dereferencing a nil pointer. -/
def nilDeref : Value :=
  .err (.runtime "runtime.errorString"
    "runtime error: invalid memory address or nil pointer dereference")

/-- The panic of `reflect.Value.IsNil` on a value of a kind that has no nil. -/
def isNilPanic (k : Kind) : Value :=
  .err (.plain "*reflect.ValueError"
    ("reflect: call of reflect.Value.IsNil on " ++ k.text ++ " Value"))

/-- The panic of `reflect.Value.Interface` on the zero Value. -/
def zeroValuePanic : Value :=
  .err (.plain "*reflect.ValueError" "reflect: call of reflect.Value.Interface on zero Value")

/-- The panic of a failed type assertion `x.(error)`. -/
def assertPanic : Value :=
  .err (.runtime "*runtime.TypeAssertionError" "interface conversion: value is not error")

/-! ## `rpc`: data model -/

/-- The signature `reflect.Method.Type` of a method of a concrete type:
`In(0)` is the receiver, `In(i+1)` is `params[i]`. -/
structure FuncType where
  recv : GoType
  params : List GoType
  outs : List GoType

/-- The count `NumIn()`. -/
def FuncType.NumIn (t : FuncType) : Nat := t.params.length + 1

/-- The count `NumOut()`. -/
def FuncType.NumOut (t : FuncType) : Nat := t.outs.length

/-- A `reflect.Method`.  `func args` is `Func.Call(args)`: the values returned, or
the panic raised by the call. -/
structure Method where
  name : String
  pkgPath : String
  typ : FuncType
  func : List Value → Outcome (List Value)

structure methodType where
  method : Method
  argTypes : List GoType
  replyType : Option GoType

structure service where
  name : String
  rcvr : Value
  typ : GoType
  method : List (String × methodType)

/-- The registry: `serviceMap` is the `sync.Map` from names to services. -/
structure rpcImpl where
  serviceMap : List (String × service)

/-- The constructor `New()`: an empty registry. -/
def New : rpcImpl := ⟨[]⟩

/-- A request.  `Params` is `none` for a nil slice; an entry is `none` for a nil
pointer and the raw text of the message otherwise. -/
structure Request where
  ServiceMethod : String
  Params : Option (List (Option String))

/-- What reflection reports about the non-nil object handed to `Register`:
its value, its type, and the method sets `Method(0..NumMethod()-1)` of its type
and of the pointer to its type. -/
structure Receiver where
  value : Value
  typ : GoType
  methods : List Method
  ptrMethods : List Method

/-- Assignment `m[k] = v` on a map kept as an association list. -/
def mapStore {α : Type} (m : List (String × α)) (k : String) (v : α) : List (String × α) :=
  m.filter (fun p => p.1 != k) ++ [(k, v)]

/-- The lookup `serviceMap.Load`. -/
def rpcImpl.Load (rpc : rpcImpl) (key : String) : Option service :=
  rpc.serviceMap.lookup key

/-- The call `serviceMap.LoadOrStore`: the registry afterwards and whether the key was
already present. -/
def rpcImpl.LoadOrStore (rpc : rpcImpl) (key : String) (s : service) : rpcImpl × Bool :=
  match rpc.serviceMap.lookup key with
  | some _ => (rpc, true)
  | none => (⟨rpc.serviceMap ++ [(key, s)]⟩, false)

/-! ## `rpc`: signature validation and registration -/

/-- The function `isExported`: the first rune of the name is upper case.  On the
empty string `utf8.DecodeRuneInString` yields `utf8.RuneError` (U+FFFD). -/
def isExported (env : Env) (name : String) : Bool :=
  match name.data with
  | [] => env.isUpper (Char.ofNat 0xFFFD)
  | ch :: _ => env.isUpper ch

/-- Is this type exported or a builtin? -/
def isExportedOrBuiltinType (env : Env) (t : GoType) : Bool :=
  let t := t.stripPtr
  isExported env t.name || t.pkgPath == ""

/-- The loop of `suitableArgs` over `In(1)`, ..., `In(NumIn()-1)`. -/
def suitableArgsLoop (env : Env) (mname : String) :
    List GoType → List GoType → Except GoError (List GoType)
  | [], argTypes => .ok argTypes
  | argType :: rest, argTypes =>
    if !isExportedOrBuiltinType env argType then
      .error (errorsNew ("rpc.Register: argument type of method " ++ env.quote mname ++
        " is not exported: " ++ env.quote argType.string ++ "\n"))
    else suitableArgsLoop env mname rest (argTypes ++ [argType])

def suitableArgs (env : Env) (mtype : FuncType) (mname : String) :
    Except GoError (List GoType) :=
  suitableArgsLoop env mname mtype.params []

/-- The check of `Out(0)` in `suitableMethods`, made when `NumOut() > 0`. -/
def checkReplyType (env : Env) (mtype : FuncType) (mname : String) : Option GoError :=
  match mtype.outs with
  | [] => none
  | replyType :: _ =>
    if !isExportedOrBuiltinType env replyType then
      some (errorsNew ("rpc.Register: return type of method " ++ env.quote mname ++
        " is not exported: " ++ env.quote replyType.string ++ "\n"))
    else none

/-- The checks of `Out(1)` in `suitableMethods`, made when `NumOut() > 1`. -/
def checkLastReplyType (env : Env) (mtype : FuncType) (mname : String) : Option GoError :=
  match mtype.outs with
  | _ :: lastReplyType :: _ =>
    if !isExportedOrBuiltinType env lastReplyType then
      some (errorsNew ("rpc.Register: return type of method " ++ env.quote mname ++
        " is not exported: " ++ env.quote lastReplyType.string ++ "\n"))
    else if !env.implementsError lastReplyType then
      some (errorsNew ("rpc.Register: return type of method " ++ env.quote mname ++
        " last reply type not is error type\n"))
    else none
  | _ => none

/-- One iteration of the loop of `suitableMethods`: the table after looking at
`method`, or the error that ends the loop. -/
def suitableMethod (env : Env) (methods : List (String × methodType)) (method : Method) :
    Except GoError (List (String × methodType)) :=
  let mtype := method.typ
  let mname := method.name
  -- Method must be exported.
  if method.pkgPath != "" then .ok methods
  else
    match suitableArgs env mtype mname with
    | .error err => .error err
    | .ok argTypes =>
      let replyType : Option GoType := mtype.outs.head?
      match checkReplyType env mtype mname with
      | some err => .error err
      | none =>
        match checkLastReplyType env mtype mname with
        | some err => .error err
        | none =>
          if mtype.NumOut < 1 || mtype.NumOut > 2 then
            .error (errorsNew ("rpc.Register: method " ++ env.quote mname ++ " has " ++
              toString mtype.NumOut ++ " output parameters; needs exactly one or two\n"))
          else
            .ok (mapStore methods mname ⟨method, argTypes, replyType⟩)

/-- The loop of `suitableMethods` over the method set. -/
def suitableMethodsLoop (env : Env) :
    List Method → List (String × methodType) → Except GoError (List (String × methodType))
  | [], methods => .ok methods
  | method :: rest, methods =>
    match suitableMethod env methods method with
    | .error err => .error err
    | .ok methods => suitableMethodsLoop env rest methods

/-- The function `suitableMethods`, on the method set of the type. -/
def suitableMethods (env : Env) (typMethods : List Method) :
    Except GoError (List (String × methodType)) :=
  suitableMethodsLoop env typMethods []

/-- The type of `reflect.Indirect(reflect.ValueOf(rcvr))`. -/
def Receiver.indirectType (rcvr : Receiver) : GoType :=
  if rcvr.typ.kind = .ptr then rcvr.typ.elem else rcvr.typ

/-- The method `register`: the registry afterwards and the error returned. -/
def rpcImpl.register (env : Env) (rpc : rpcImpl) (rcvr : Receiver) (name : String)
    (useName : Bool) : rpcImpl × Option GoError :=
  let sname := if useName then name else rcvr.indirectType.name
  if sname == "" then
    (rpc, some (errorsNew ("rpc.Register: no service name for type " ++ rcvr.typ.string)))
  else if !isExported env sname && !useName then
    (rpc, some (errorsNew ("rpc.Register: type " ++ sname ++ " is not exported")))
  else
    -- Install the methods
    match suitableMethods env rcvr.methods with
    | .error err => (rpc, some err)
    | .ok method =>
      if method.length == 0 then
        -- To help the user, see if a pointer receiver would work.
        let (ptrMethod, err) : List (String × methodType) × Option GoError :=
          match suitableMethods env rcvr.ptrMethods with
          | .ok m => (m, none)
          | .error err => ([], some err)
        let str :=
          if ptrMethod.length != 0 then
            "rpc.Register: type " ++ sname ++
              " has no exported methods of suitable type (hint: pass a pointer to value of that type)"
          else
            "rpc.Register: type " ++ sname ++ " has no exported methods of suitable type"
        (rpc, some (errorsNew (str ++ ", error: " ++ formatErr err)))
      else
        let s : service := ⟨sname, rcvr.value, rcvr.typ, method⟩
        match rpc.LoadOrStore sname s with
        | (rpc, true) => (rpc, some (errorsNew ("rpc: service already defined: " ++ sname)))
        | (rpc, false) => (rpc, none)

/-- The method `Register`. -/
def rpcImpl.Register (env : Env) (rpc : rpcImpl) (rcvr : Receiver) : rpcImpl × Option GoError :=
  rpc.register env rcvr "" false

/-- The method `RegisterName`. -/
def rpcImpl.RegisterName (env : Env) (rpc : rpcImpl) (name : String) (rcvr : Receiver) :
    rpcImpl × Option GoError :=
  rpc.register env rcvr name true

/-! ## `rpc`: dispatch -/

/-- The call `strings.LastIndex(s, ".")` on the characters of `s`; `none` is `-1`. -/
def lastIndexDot : List Char → Option Nat
  | [] => none
  | c :: cs =>
    match lastIndexDot cs with
    | some i => some (i + 1)
    | none => if c = '.' then some 0 else none

def rpcImpl.readRequestServiceMethod (rpc : rpcImpl) (req : Request) :
    Except GoError (service × methodType) :=
  match lastIndexDot req.ServiceMethod.data with
  | none => .error (errorsNew ("rpc: service/method request ill-formed: " ++ req.ServiceMethod))
  | some dot =>
    let serviceName := String.mk (req.ServiceMethod.data.take dot)
    let methodName := String.mk (req.ServiceMethod.data.drop (dot + 1))
    -- Look up the request.
    match rpc.Load serviceName with
    | none => .error (errorsNew ("rpc: can't find service " ++ req.ServiceMethod))
    | some svc =>
      match svc.method.lookup methodName with
      | none => .error (errorsNew ("rpc: can't find method " ++ req.ServiceMethod))
      | some mtype => .ok (svc, mtype)

/-- The function `convert`, with the type of the `reflect.Value` it returns: decode one raw
message against the target type.  `reflect.New(t)` is a pointer of type `*t`, and its `Elem()`
is of type `t`. -/
def convertTyped (env : Env) (msg : Option String) (argType : GoType) :
    Outcome (Except GoError (Value × GoType)) :=
  -- if argType is a pointer, decode into `reflect.New(argType.Elem())`,
  -- otherwise into `reflect.New(argType)` and indirect afterwards
  let argIsValue := !(argType.kind == .ptr)
  let target := if argIsValue then argType else argType.elem
  match msg with
  | none => .panic nilDeref
  | some data =>
    match env.unmarshal data target with
    | .error err => .ok (.error err)
    | .ok v => .ok (.ok (if argIsValue then (v, target) else (.ptr v, .ptr target)))

/-- The function `convert`: the value that `convertTyped` returns, without its type. -/
def convert (env : Env) (msg : Option String) (argType : GoType) :
    Outcome (Except GoError Value) :=
  match convertTyped env msg argType with
  | .panic v => .panic v
  | .ok (.error err) => .ok (.error err)
  | .ok (.ok (v, _)) => .ok (.ok v)

/-- The assignment `argv[i] = v`. -/
def setIndex (argv : List Value) (i : Nat) (v : Value) : Outcome (List Value) :=
  if i < argv.length then .ok (argv.set i v) else .panic (boundsError i argv.length)

/-- The loop `for idx, param := range defaultParams`, from index `idx` on. -/
def storeDefaultParams : List Value → Nat → List Value → Outcome (List Value)
  | [], _, argv => .ok argv
  | param :: rest, idx, argv =>
    match setIndex argv (idx + 1) param with
    | .panic v => .panic v
    | .ok argv => storeDefaultParams rest (idx + 1) argv

/-- The loop `for i := 0; i < lens; i++` of `readRequest`, from index `i` on,
over the params not yet decoded. -/
def decodeParams (env : Env) (argTypes : List GoType) (defaultParamsLen : Nat) :
    List (Option String) → Nat → List Value → Outcome (Except GoError (List Value))
  | [], _, argv => .ok (.ok argv)
  | param :: rest, i, argv =>
    match argTypes.get? (i + defaultParamsLen) with
    | none => .panic (boundsError (i + defaultParamsLen) argTypes.length)
    | some targetType =>
      match convert env param targetType with
      | .panic v => .panic v
      | .ok (.error err) =>
        match param with
        | none => .panic nilDeref
        | some raw =>
          .ok (.error (errorsNew ("rpc: convert param faild. expect " ++ targetType.string ++
            ", found=" ++ raw ++ ", error: " ++ err.Error ++ "\n")))
      | .ok (.ok arg) =>
        match setIndex argv (i + defaultParamsLen + 1) arg with
        | .panic v => .panic v
        | .ok argv => decodeParams env argTypes defaultParamsLen rest (i + 1) argv

/-- The params of a request as a list: a nil slice has length 0. -/
def Request.params (req : Request) : List (Option String) :=
  match req.Params with
  | none => []
  | some ps => ps

def rpcImpl.readRequest (env : Env) (rpc : rpcImpl) (req : Request)
    (defaultParams : List Value) :
    Outcome (Except GoError (service × methodType × List Value)) :=
  match rpc.readRequestServiceMethod req with
  | .error err => .ok (.error err)
  | .ok (service, mtype) =>
    let defaultParamsLen := defaultParams.length
    let lens : Nat :=
      match req.Params with
      | none => 0
      | some ps => ps.length
    let need : Int := (mtype.method.typ.NumIn : Int) - (defaultParamsLen : Int) - 1
    if (lens : Int) ≠ need then
      .ok (.error (errorsNew ("rpc: params not matched. got " ++ toString lens ++
        ", need " ++ toString need)))
    else
      let argv := List.replicate (mtype.argTypes.length + 1) Value.nil
      match setIndex argv 0 service.rcvr with
      | .panic v => .panic v
      | .ok argv =>
        match storeDefaultParams defaultParams 0 argv with
        | .panic v => .panic v
        | .ok argv =>
          match decodeParams env mtype.argTypes defaultParamsLen req.params 0 argv with
          | .panic v => .panic v
          | .ok (.error err) => .ok (.error err)
          | .ok (.ok argv) => .ok (.ok (service, mtype, argv))

/-- The method `call`: the reply value (`none` is the zero `reflect.Value`) and the
error.  `returnValues[1]` has the kind of the declared type `Out(1)`. -/
def service.call (_s : service) (mtype : methodType) (args : List Value) :
    Outcome (Option Value × Option GoError) :=
  -- Invoke the method, providing a new value for the reply.
  match mtype.method.func args with
  | .panic v => .panic v
  | .ok returnValues =>
    let replyv : Option Value := returnValues.get? 0
    match returnValues.get? 1 with
    | none => .ok (replyv, none)
    | some v =>
      let k : Kind := (mtype.method.typ.outs.get? 1).elim .invalid GoType.kind
      if !k.nillable then .panic (isNilPanic k)
      else
        match v with
        | .nil => .ok (replyv, none)
        | .err e => .ok (replyv, some e)
        | _ => .panic assertPanic

/-- The method `Handler`: the pair of the value and the error it returns. -/
def rpcImpl.Handler (env : Env) (rpc : rpcImpl) (req : Request) (baseParam : List Value) :
    Outcome (Value × Option GoError) :=
  match rpc.readRequest env req baseParam with
  | .panic v => .panic v
  | .ok (.error err) => .ok (.nil, some err)
  | .ok (.ok (service, mtype, args)) =>
    match service.call mtype args with
    | .panic v => .panic v
    | .ok (_, some err) => .ok (.nil, some err)
    | .ok (none, none) => .panic zeroValuePanic
    | .ok (some ret, none) => .ok (ret, none)

/-! ## The recovery boundary of the chaincode adapter -/

/-- The type switch of the deferred function of `recoverHandler` on a recovered
value `re`: the error assigned to `err`. -/
def recovered (env : Env) (re : Value) : GoError :=
  match re with
  | .err (.internal v false) => errorsNew v.external
  | .err (.internal v true) => errorsNew v.external
  | .str v => errorsNew v
  | .err (.runtime _ _) => env.ErrRuntime
  | .err v => v
  | v => errorsNew ("ERR: ohter error type:" ++ env.typeOf re ++ ", value:" ++ env.format v)

/-- The method `recoverHandler`.  `recover()` returns the panic value, which is
nil when there is no panic and also when `panic(nil)` was called (the meaning
of `panic(nil)` before Go 1.21, kept by programs whose module does not ask for
a later language version); the named results `ret` and `err` are nil when a
panic interrupts the call of `Handler`. -/
def recoverHandler (env : Env) (rpc : rpcImpl) (stub : Value) (req : Request) :
    Value × Option GoError :=
  match rpc.Handler env req [stub] with
  | .ok (ret, err) => (ret, err)
  | .panic re =>
    if re ≠ .nil then (.nil, some (recovered env re))
    else (.nil, none)

/-! ## A concrete environment

`stdEnv` fixes one behaviour of the libraries, used to evaluate the code on
concrete requests.  Its decoder follows `encoding/json` on the JSON texts that
are a string literal without `\u` escapes, a decimal integer or `null`, decoded
against a target of kind string or int; it says nothing about other inputs. -/

/-- JSON white space. -/
def jsonSpace (c : Char) : Bool :=
  c == ' ' || c == '\t' || c == '\n' || c == '\r'

/-- The text without leading and trailing JSON white space. -/
def jsonTrim (cs : List Char) : List Char :=
  ((cs.dropWhile jsonSpace).reverse.dropWhile jsonSpace).reverse

/-- The character a one-letter JSON escape stands for. -/
def jsonEscape : Char → Option Char
  | '"' => some '"'
  | '\\' => some '\\'
  | '/' => some '/'
  | 'b' => some (Char.ofNat 8)
  | 'f' => some (Char.ofNat 12)
  | 'n' => some '\n'
  | 'r' => some '\r'
  | 't' => some '\t'
  | _ => none

/-- The content of a JSON string literal, read from just after its opening
quote up to the closing quote that ends the text. -/
def jsonUnquote : List Char → Option (List Char)
  | [] => none
  | ['"'] => some []
  | '"' :: _ :: _ => none
  | '\\' :: c :: rest =>
    match jsonEscape c, jsonUnquote rest with
    | some d, some cs => some (d :: cs)
    | _, _ => none
  | c :: rest =>
    if c.toNat < 0x20 then none
    else (jsonUnquote rest).map (fun cs => c :: cs)

/-- The value of a nonempty sequence of decimal digits, most significant first. -/
def jsonDigits : List Char → Nat → Option Nat
  | [], acc => some acc
  | c :: rest, acc => if c.isDigit then jsonDigits rest (10 * acc + (c.toNat - 48)) else none

/-- The value of a JSON integer literal: an optional sign, then `0` or digits
that do not start with `0`. -/
def jsonInteger : List Char → Option Int
  | '-' :: '0' :: [] => some 0
  | '-' :: '0' :: _ :: _ => none
  | '-' :: c :: rest => (jsonDigits (c :: rest) 0).map (fun n => - (n : Int))
  | '0' :: [] => some 0
  | '0' :: _ :: _ => none
  | c :: rest => (jsonDigits (c :: rest) 0).map (fun n => (n : Int))
  | [] => none

/-- The error `*json.UnmarshalTypeError` for a JSON value of the wrong sort. -/
def jsonTypeError (what : String) (t : GoType) : GoError :=
  .plain "*json.UnmarshalTypeError"
    ("json: cannot unmarshal " ++ what ++ " into Go value of type " ++ t.string)

/-- The error for a text outside the fragment; its message is not modelled. -/
def jsonSyntaxError : GoError :=
  .plain "*json.SyntaxError" "invalid character looking for beginning of value"

/-- The decoder of `stdEnv`. -/
def jsonUnmarshal (data : String) (t : GoType) : Except GoError Value :=
  let cs := jsonTrim data.data
  match t.kind with
  | .string =>
    match cs with
    | '"' :: rest =>
      match jsonUnquote rest with
      | some s => .ok (.str (String.mk s))
      | none => .error jsonSyntaxError
    | _ =>
      if cs == "null".data then .ok (.str "")
      else if (jsonInteger cs).isSome then .error (jsonTypeError "number" t)
      else .error jsonSyntaxError
  | .int =>
    match cs with
    | '"' :: rest =>
      match jsonUnquote rest with
      | some _ => .error (jsonTypeError "string" t)
      | none => .error jsonSyntaxError
    | _ =>
      if cs == "null".data then .ok (.int 0)
      else
        match jsonInteger cs with
        | some n =>
          if -9223372036854775808 ≤ n ∧ n ≤ 9223372036854775807 then .ok (.int n)
          else .error (jsonTypeError ("number " ++ String.mk cs) t)
        | none => .error jsonSyntaxError
  | _ => .error jsonSyntaxError

/-- The dynamic type of a value as `stdEnv` prints it. -/
def stdTypeOf : Value → String
  | .nil => "<nil>"
  | .bool _ => "bool"
  | .int _ => "int"
  | .str _ => "string"
  | .err (.internal _ false) => "contract.InternalError"
  | .err (.internal _ true) => "*contract.InternalError"
  | .err (.runtime typ _) => typ
  | .err (.plain typ _) => typ
  | .ptr v => "*" ++ stdTypeOf v
  | .other typ _ => typ

/-- The rendering of a value by `%v` as `stdEnv` prints it; a pointer prints as
an address. -/
def stdFormat : Value → String
  | .nil => "<nil>"
  | .bool b => if b then "true" else "false"
  | .int n => toString n
  | .str s => s
  | .err e => e.Error
  | .ptr _ => "0xc000012345"
  | .other _ repr => repr

/-- The predeclared type `string`. -/
def GoType.tString : GoType := .builtin "string" .string

/-- The predeclared type `int`. -/
def GoType.tInt : GoType := .builtin "int" .int

/-- The predeclared type `error`. -/
def GoType.tError : GoType := .builtin "error" .iface

/-- The struct type `main.StatusError` of the example program, which has the
method `func (e StatusError) Error() string`. -/
def tStatusError : GoType := .named "main" "main" "StatusError" (.lit .struct "struct { Code int }")

/-- The environment of the examples: ASCII upper case, the decoder above, and
as types implementing `error` the predeclared `error` and `main.StatusError`. -/
def stdEnv : Env where
  unmarshal := jsonUnmarshal
  isUpper := Char.isUpper
  implementsError := fun t => t == GoType.tError || t == tStatusError
  quote := fun s => "\"" ++ s ++ "\""
  typeOf := stdTypeOf
  format := stdFormat
  ErrRuntime := errorsNew "runtime error"

/-! ## A running example: the service `Greeter` -/

/-- The struct type `main.Greeter`. -/
def tGreeter : GoType := .named "main" "main" "Greeter" (.lit .struct "struct {}")

/-- The interface type `contract.IContractStub` of the execution context. -/
def tStub : GoType :=
  .named "github.com/snlansky/coral/pkg/contract" "contract" "IContractStub"
    (.lit .iface "interface { ... }")

/-- The method `func (g *Greeter) Hello(ctx contract.IContractStub, name string) string`
with body `return "Hello " + name`.  A call with other arguments is the panic
that `reflect.Value.Call` raises, whose value is a string. -/
def greeterHello : Method where
  name := "Hello"
  pkgPath := ""
  typ := ⟨.ptr tGreeter, [tStub, .tString], [.tString]⟩
  func := fun args =>
    match args with
    | [_, _, .str name] => .ok [.str ("Hello " ++ name)]
    | _ => .panic (.str "reflect: Call with unsuitable arguments")

/-- The object `&Greeter{}`: its type `*Greeter` has the method `Hello`, the
pointer to that type has none. -/
def greeter : Receiver := ⟨.other "*main.Greeter" "&{}", .ptr tGreeter, [greeterHello], []⟩

/-- An execution context handed to `Handler` as base parameter. -/
def ctx : Value := .other "*impl.FabricContractStub" "&{...}"

/-- The table entry of `Hello`. -/
def greeterHelloType : methodType := ⟨greeterHello, [tStub, .tString], some .tString⟩

/-- The service stored by `Register(&Greeter{})`. -/
def greeterService : service :=
  ⟨"Greeter", greeter.value, greeter.typ, [("Hello", greeterHelloType)]⟩

/-- The registry after `Register(&Greeter{})` on a new registry. -/
def greeterRpc : rpcImpl := (New.Register stdEnv greeter).1

/-! ## A second example: the service `Calc`, with two-output methods -/

/-- The struct type `main.Calc`. -/
def tCalc : GoType := .named "main" "main" "Calc" (.lit .struct "struct {}")

/-- The method `func (c *Calc) Sub(ctx contract.IContractStub, a int, b int) (int, error)`
with body
`if b < 0 || a < b { return 0, errors.New("negative balance") }; return a - b, nil`. -/
def calcSub : Method where
  name := "Sub"
  pkgPath := ""
  typ := ⟨.ptr tCalc, [tStub, .tInt, .tInt], [.tInt, .tError]⟩
  func := fun args =>
    match args with
    | [_, _, .int a, .int b] =>
      if b < 0 ∨ a < b then .ok [.int 0, .err (errorsNew "negative balance")]
      else .ok [.int (a - b), .nil]
    | _ => .panic (.str "reflect: Call with unsuitable arguments")

/-- The method `func (c *Calc) Check(ctx contract.IContractStub, code int) (string, StatusError)`
with body `return "checked", StatusError{code}`: its second output is of a struct
type that implements `error`. -/
def calcCheck : Method where
  name := "Check"
  pkgPath := ""
  typ := ⟨.ptr tCalc, [tStub, .tInt], [.tString, tStatusError]⟩
  func := fun args =>
    match args with
    | [_, _, .int code] =>
      .ok [.str "checked", .err (.plain "main.StatusError" ("status " ++ toString code))]
    | _ => .panic (.str "reflect: Call with unsuitable arguments")

/-- The object `&Calc{}`; `reflect` lists the methods of its type by name. -/
def calcObject : Receiver := ⟨.other "*main.Calc" "&{}", .ptr tCalc, [calcCheck, calcSub], []⟩

/-- The table entry of `Sub`. -/
def calcSubType : methodType := ⟨calcSub, [tStub, .tInt, .tInt], some .tInt⟩

/-- The table entry of `Check`. -/
def calcCheckType : methodType := ⟨calcCheck, [tStub, .tInt], some .tString⟩

/-- The service stored by `Register(&Calc{})`. -/
def calcService : service :=
  ⟨"Calc", calcObject.value, calcObject.typ, [("Check", calcCheckType), ("Sub", calcSubType)]⟩

/-- The registry after `Register(&Greeter{})` and `Register(&Calc{})`. -/
def calcRpc : rpcImpl := (greeterRpc.Register stdEnv calcObject).1

/-! ## A third example: the service `Faulty`, whose method panics -/

/-- The struct type `main.Faulty`. -/
def tFaulty : GoType := .named "main" "main" "Faulty" (.lit .struct "struct {}")

/-- The method `func (f *Faulty) Raise(ctx contract.IContractStub, how int) string`
with body
`switch how { case 0: panic(nil); case 1: panic(contract.InternalError{...});
case 2: panic(&contract.InternalError{...}); case 3: panic("no funds");
case 4: var xs []int; _ = xs[1]; case 5: panic(errors.New("boom"));
case 6: panic(42) }; return "fine"`,
the internal error carrying the internal message `db row 17 locked` and the
external message `busy`. -/
def faultyRaise : Method where
  name := "Raise"
  pkgPath := ""
  typ := ⟨.ptr tFaulty, [tStub, .tInt], [.tString]⟩
  func := fun args =>
    match args with
    | [_, _, .int 0] => .panic .nil
    | [_, _, .int 1] => .panic (.err (.internal ⟨"db row 17 locked", "busy"⟩ false))
    | [_, _, .int 2] => .panic (.err (.internal ⟨"db row 17 locked", "busy"⟩ true))
    | [_, _, .int 3] => .panic (.str "no funds")
    | [_, _, .int 4] => .panic (boundsError 1 0)
    | [_, _, .int 5] => .panic (.err (errorsNew "boom"))
    | [_, _, .int 6] => .panic (.int 42)
    | [_, _, .int _] => .ok [.str "fine"]
    | _ => .panic (.str "reflect: Call with unsuitable arguments")

/-- The object `&Faulty{}`. -/
def faulty : Receiver := ⟨.other "*main.Faulty" "&{}", .ptr tFaulty, [faultyRaise], []⟩

/-- The registry after `Register(&Faulty{})` on a new registry. -/
def faultyRpc : rpcImpl := (New.Register stdEnv faulty).1

/-- The request `Faulty.Raise` with the one param `how`. -/
def raise (how : String) : Request := ⟨"Faulty.Raise", some [some how]⟩

/-- An object of the struct type `main.Empty`, which has no methods, neither on
the type nor on the pointer to it. -/
def emptyObject : Receiver :=
  ⟨.other "main.Empty" "{}", .named "main" "main" "Empty" (.lit .struct "struct {}"), [], []⟩

/-! ## Registry states and the invariant of stored methods -/

/-- The registries that `New` followed by calls of `Register` and `RegisterName`
can produce. -/
inductive Reachable (env : Env) : rpcImpl → Prop where
  | new : Reachable env New
  | register {rpc : rpcImpl} (rcvr : Receiver) (name : String) (useName : Bool) :
      Reachable env rpc → Reachable env (rpc.register env rcvr name useName).1

/-- What `suitableMethods` has checked of an entry before storing it. -/
structure Registered (env : Env) (mt : methodType) : Prop where
  argTypes_eq : mt.argTypes = mt.method.typ.params
  replyType_eq : mt.replyType = mt.method.typ.outs.head?
  numOut : mt.method.typ.NumOut = 1 ∨ mt.method.typ.NumOut = 2
  lastIsError : ∀ t, mt.method.typ.outs.get? 1 = some t → env.implementsError t = true
/-- Every method of every service of the registry was stored by `suitableMethods`. -/
def rpcImpl.AllRegistered (env : Env) (rpc : rpcImpl) : Prop :=
  ∀ p ∈ rpc.serviceMap, ∀ e ∈ p.2.method, Registered env e.2

/-- The name under which `register` files the receiver. -/
def resolvedName (rcvr : Receiver) (name : String) (useName : Bool) : String :=
  if useName then name else rcvr.indirectType.name

/-! ## The signature rules, and further example objects -/

/-- The signature rules on an exported method, as the validator is specified: every
declared parameter type and every declared return type is exported or builtin,
and there is exactly one output, or exactly two of which the second implements
`error`. -/
def signatureOK (env : Env) (m : Method) : Bool :=
  m.typ.params.all (isExportedOrBuiltinType env) &&
  m.typ.outs.all (isExportedOrBuiltinType env) &&
  (m.typ.outs.length == 1 ||
    (m.typ.outs.length == 2 && (m.typ.outs.get? 1).all env.implementsError))

/-- The names of the methods in the table of the service stored under `name`. -/
def rpcImpl.methodNames (rpc : rpcImpl) (name : String) : Option (List String) :=
  (rpc.Load name).map (fun svc => svc.method.map Prod.fst)

/-- The struct type `main.Mixed`. -/
def tMixed : GoType := .named "main" "main" "Mixed" (.lit .struct "struct {}")

/-- The method `func (m *Mixed) Good(ctx contract.IContractStub) string`. -/
def mixedGood : Method where
  name := "Good"
  pkgPath := ""
  typ := ⟨.ptr tMixed, [tStub], [.tString]⟩
  func := fun _ => .ok [.str "good"]

/-- The method `func (m *Mixed) Triple(ctx contract.IContractStub) (int, error, int)`,
which has three outputs. -/
def mixedTriple : Method where
  name := "Triple"
  pkgPath := ""
  typ := ⟨.ptr tMixed, [tStub], [.tInt, .tError, .tInt]⟩
  func := fun _ => .ok [.int 1, .nil, .int 2]

/-- The object `&Mixed{}`, with one method that satisfies the rules and one that
does not. -/
def mixedObject : Receiver :=
  ⟨.other "*main.Mixed" "&{}", .ptr tMixed, [mixedGood, mixedTriple], []⟩

/-- The struct type `main.secret`, which is neither exported nor builtin. -/
def tSecret : GoType := .named "main" "main" "secret" (.lit .struct "struct { key string }")

/-- The struct type `main.Vault`. -/
def tVault : GoType := .named "main" "main" "Vault" (.lit .struct "struct {}")

/-- The method `func (v *Vault) Put(ctx contract.IContractStub, items []secret) string`,
whose second parameter is a slice of the unexported type `secret`. -/
def vaultPut : Method where
  name := "Put"
  pkgPath := ""
  typ := ⟨.ptr tVault, [tStub, .slice tSecret], [.tString]⟩
  func := fun _ => .ok [.str "stored"]

/-- The object `&Vault{}`. -/
def vaultObject : Receiver := ⟨.other "*main.Vault" "&{}", .ptr tVault, [vaultPut], []⟩

/-- The unexported struct type `main.helper`. -/
def tHelper : GoType := .named "main" "main" "helper" (.lit .struct "struct {}")

/-- The method `func (h *helper) Ping(ctx contract.IContractStub) string`. -/
def helperPing : Method where
  name := "Ping"
  pkgPath := ""
  typ := ⟨.ptr tHelper, [tStub], [.tString]⟩
  func := fun _ => .ok [.str "pong"]

/-- The value `helper{}` of the unexported struct type `main.helper`: the type
has no methods, the pointer to it has the method `Ping`. -/
def helperObject : Receiver := ⟨.other "main.helper" "{}", tHelper, [], [helperPing]⟩

/-- The value `Greeter{}` (not a pointer): the method `Hello` has a pointer
receiver, so the type `Greeter` has no methods and `*Greeter` has `Hello`. -/
def greeterValue : Receiver := ⟨.other "main.Greeter" "{}", tGreeter, [], [greeterHello]⟩

/-- The defined pointer type `type P *int` of package `main`: its kind is pointer
and its element type is `int`. -/
def tP : GoType := .named "main" "main" "P" (.ptr .tInt)

/-- The struct type `main.Audit`. -/
def tAudit : GoType := .named "main" "main" "Audit" (.lit .struct "struct {}")

/-- The method `func (a *Audit) Last(ctx contract.IContractStub) error` with body
`return errors.New("disk full")`: its single output is of type `error`. -/
def auditLast : Method where
  name := "Last"
  pkgPath := ""
  typ := ⟨.ptr tAudit, [tStub], [.tError]⟩
  func := fun args =>
    match args with
    | [_, _] => .ok [.err (errorsNew "disk full")]
    | _ => .panic (.str "reflect: Call with unsuitable arguments")

/-- The object `&Audit{}`. -/
def auditObject : Receiver := ⟨.other "*main.Audit" "&{}", .ptr tAudit, [auditLast], []⟩

/-- The table entry of `Last`. -/
def auditLastType : methodType := ⟨auditLast, [tStub], some .tError⟩

/-- The service stored by `Register(&Audit{})`. -/
def auditService : service :=
  ⟨"Audit", auditObject.value, auditObject.typ, [("Last", auditLastType)]⟩

/-- The registry after `Register(&Audit{})` on a new registry. -/
def auditRpc : rpcImpl := (New.Register stdEnv auditObject).1

/-! ## Byte-level utilities: addresses, padding, composite keys

Byte slices and Go strings are lists of bytes here, since these functions are
about lengths, single bytes and texts that need not be valid UTF-8. -/

/-- A byte, the Go type `byte`. -/
abbrev Byte := Fin 256

/-- The conversion `byte(n)` of an `int`: the low eight bits. -/
def byteOfInt (n : Int) : Byte := Fin.ofNat (n % 256).toNat

/-- One upper-case hexadecimal digit. -/
def hexDigit (n : Nat) : Char :=
  if n < 10 then Char.ofNat (48 + n) else Char.ofNat (55 + n)

/-- The verb `%X` of `fmt` on a byte slice. -/
def hexUpper : List Byte → String
  | [] => ""
  | b :: bs => String.mk [hexDigit (b.val / 16), hexDigit (b.val % 16)] ++ hexUpper bs

/-! ### `identity`: addresses -/

/-- The constant `Word160Length`. -/
def Word160Length : Nat := 20

/-- The type `Address`, an array of `Word160Length` bytes. -/
structure Address where
  bytes : List Byte
  size : bytes.length = Word160Length
  deriving DecidableEq

/-- The variable `ZeroAddress`, the zero value of `Address`. -/
def ZeroAddress : Address := ⟨List.replicate Word160Length 0, by simp⟩

/-- The builtin `copy(dst, src)`: the contents of `dst` afterwards. -/
def copyBytes (dst src : List Byte) : List Byte :=
  src.take dst.length ++ dst.drop src.length

/-- The function `AddressFromBytes`: the address and the error it returns. -/
def AddressFromBytes (bs : List Byte) : Address × Option GoError :=
  if bs.length == 0 then (ZeroAddress, none)
  else
    let err : Option GoError :=
      if bs.length != Word160Length then
        some (errorsNew ("slice passed as address '" ++ hexUpper bs ++ "' has " ++
          toString bs.length ++ " bytes but should have " ++ toString Word160Length ++ " bytes"))
        -- the error does not end the function: the best-effort address is returned with it
      else none
    (⟨copyBytes ZeroAddress.bytes bs, by
      simp only [copyBytes, List.length_append, List.length_take, List.length_drop,
        ZeroAddress, List.length_replicate]
      omega⟩, err)

/-- The function `MaybeAddressFromBytes`: the pointer (`none` is nil) and the error. -/
def MaybeAddressFromBytes (bs : List Byte) : Option Address × Option GoError :=
  if bs.length == 0 then (none, none)
  else
    match AddressFromBytes bs with
    | (_, some err) => (none, some err)
    | (address, none) => (some address, none)

/-! ### `utils`: PKCS5 padding -/

/-- The run-time panic of an integer division by zero. -/
def divideError : Value :=
  .err (.runtime "runtime.runtimeError" "runtime error: integer divide by zero")

/-- The panic of `bytes.Repeat` on a negative count. -/
def negativeRepeat : Value := .str "bytes: negative Repeat count"

/-- The run-time panic of an index or a slice bound below zero or beyond the length. -/
def rangeError : Value :=
  .err (.runtime "runtime.boundsError" "runtime error: index or slice bounds out of range")

/-- The value of an `int` of 64 bits after an operation whose exact result is `n`. -/
def wrapInt (n : Int) : Int :=
  (n + 9223372036854775808) % 18446744073709551616 - 9223372036854775808

/-- The function `PKCS5Padding`.  The operator `%` of Go truncates towards zero. -/
def PKCS5Padding (ciphertext : List Byte) (blockSize : Int) : Outcome (List Byte) :=
  if blockSize = 0 then .panic divideError
  else
    let padding : Int := wrapInt (blockSize - Int.tmod (ciphertext.length : Int) blockSize)
    if padding < 0 then .panic negativeRepeat
    else
      let padtext := List.replicate padding.toNat (byteOfInt padding)
      .ok (ciphertext ++ padtext)

/-- The function `PKCS5UnPadding`. -/
def PKCS5UnPadding (origData : List Byte) : Outcome (List Byte) :=
  let length := origData.length
  match origData.getLast? with
  | none => .panic rangeError
  | some last =>
    let unpadding : Nat := last.val
    if unpadding ≤ length then .ok (origData.take (length - unpadding))
    else .panic rangeError

/-! ### `contract`: composite keys

A Go string is a list of bytes; it need not be valid UTF-8. -/

/-- One lower-case hexadecimal digit. -/
def hexDigitLower (n : Nat) : Char :=
  if n < 10 then Char.ofNat (48 + n) else Char.ofNat (87 + n)

/-- The verb `%x` of `fmt` on a string. -/
def hexLower : List Byte → String
  | [] => ""
  | b :: bs => String.mk [hexDigitLower (b.val / 16), hexDigitLower (b.val % 16)] ++ hexLower bs

/-- The constant `minUnicodeRuneValue`. -/
def minUnicodeRuneValue : Nat := 0

/-- The constant `maxUnicodeRuneValue`, which is `utf8.MaxRune`. -/
def maxUnicodeRuneValue : Nat := 0x10FFFF

/-- The constant `utf8.RuneError`. -/
def RuneError : Nat := 0xFFFD

/-- The constant `compositeKeyNamespace`, the text `"\x00"`. -/
def compositeKeyNamespace : List Byte := [0]

/-- The number of bytes of an encoding that starts with the byte `b0`; 0 when no encoding
starts with it (table `first` of `unicode/utf8`). -/
def runeWidth (b0 : Nat) : Nat :=
  if b0 < 0x80 then 1
  else if b0 < 0xC2 then 0
  else if b0 < 0xE0 then 2
  else if b0 < 0xF0 then 3
  else if b0 < 0xF5 then 4
  else 0

/-- The bounds of the second byte of an encoding that starts with `b0` (table `acceptRanges`
of `unicode/utf8`). -/
def acceptRange (b0 : Nat) : Nat × Nat :=
  if b0 = 0xE0 then (0xA0, 0xBF)
  else if b0 = 0xED then (0x80, 0x9F)
  else if b0 = 0xF0 then (0x90, 0xBF)
  else if b0 = 0xF4 then (0x80, 0x8F)
  else (0x80, 0xBF)

/-- Whether `b` is a second byte allowed after `b0`. -/
def isSecond (b0 b : Nat) : Bool :=
  decide ((acceptRange b0).1 ≤ b) && decide (b ≤ (acceptRange b0).2)

/-- Whether `b` is a continuation byte. -/
def isCont (b : Nat) : Bool := decide (0x80 ≤ b) && decide (b ≤ 0xBF)

/-- The rune and the width of the valid encoding at the start of the bytes, `none` when the
bytes are empty or do not start with a valid encoding (`utf8.DecodeRuneInString` then gives
`RuneError` with width 0 or 1). -/
def decodeRune : List Byte → Option (Nat × Nat)
  | [] => none
  | b0 :: rest =>
    match runeWidth b0.val, rest with
    | 1, _ => some (b0.val, 1)
    | 2, b1 :: _ =>
      if isSecond b0.val b1.val then some (b0.val % 32 * 64 + b1.val % 64, 2) else none
    | 3, b1 :: b2 :: _ =>
      if isSecond b0.val b1.val && isCont b2.val then
        some (b0.val % 16 * 4096 + b1.val % 64 * 64 + b2.val % 64, 3)
      else none
    | 4, b1 :: b2 :: b3 :: _ =>
      if isSecond b0.val b1.val && isCont b2.val && isCont b3.val then
        some (b0.val % 8 * 262144 + b1.val % 64 * 4096 + b2.val % 64 * 64 + b3.val % 64, 4)
      else none
    | _, _ => none

/-- The loop of `utf8.ValidString`; the first argument bounds the number of runes. -/
def validLoop : Nat → List Byte → Bool
  | _, [] => true
  | 0, _ :: _ => false
  | fuel + 1, b :: bs =>
    match decodeRune (b :: bs) with
    | some (_, w) => validLoop fuel ((b :: bs).drop w)
    | none => false

/-- The function `utf8.ValidString`. -/
def ValidString (str : List Byte) : Bool := validLoop str.length str

/-- The pairs (byte offset, rune) that `for index, runeValue := range str` visits from the
offset `off` on; the first argument bounds the number of runes. -/
def rangeLoop : Nat → Nat → List Byte → List (Nat × Nat)
  | _, _, [] => []
  | 0, _, _ :: _ => []
  | fuel + 1, off, b :: bs =>
    match decodeRune (b :: bs) with
    | some (r, w) => (off, r) :: rangeLoop fuel (off + w) ((b :: bs).drop w)
    | none => (off, RuneError) :: rangeLoop fuel (off + 1) bs

/-- The pairs (byte offset, rune) of `range str`. -/
def rangeRunes (str : List Byte) : List (Nat × Nat) := rangeLoop str.length 0 str

/-- The digits of `n` in upper-case hexadecimal, at least `width` of them. -/
def hexPadded (width n : Nat) : String :=
  let ds := (Nat.toDigits 16 n).map Char.toUpper
  String.mk (List.replicate (width - ds.length) '0' ++ ds)

/-- The verb `%#U` of `fmt` on a rune that is not printable, as U+0000 and U+10FFFF are. -/
def formatU (r : Nat) : String := "U+" ++ hexPadded 4 r

/-- The body of the loop of `validateCompositeKeyAttribute` over the runes of the text. -/
def validateLoop : List (Nat × Nat) → Option GoError
  | [] => none
  | (index, runeValue) :: rest =>
    if runeValue == minUnicodeRuneValue || runeValue == maxUnicodeRuneValue then
      some (errorsNew ("input contain unicode " ++ formatU runeValue ++
        " starting at position [" ++ toString index ++ "]. " ++ formatU minUnicodeRuneValue ++
        " and " ++ formatU maxUnicodeRuneValue ++
        " are not allowed in the input attribute of a composite key"))
    else validateLoop rest

/-- The function `validateCompositeKeyAttribute`; `none` is the nil error. -/
def validateCompositeKeyAttribute (str : List Byte) : Option GoError :=
  if !ValidString str then
    some (errorsNew ("not a valid utf8 string: [" ++ hexLower str ++ "]"))
  else validateLoop (rangeRunes str)

/-- The loop of `CreateCompositeKey` over the attributes, from the key `ck` built so far. -/
def createLoop (ck : List Byte) : List (List Byte) → List Byte × Option GoError
  | [] => (ck, none)
  | att :: rest =>
    match validateCompositeKeyAttribute att with
    | some err => ([], some err)
    | none => createLoop (ck ++ (att ++ [Fin.ofNat minUnicodeRuneValue])) rest

/-- The function `CreateCompositeKey`. -/
def CreateCompositeKey (objectType : List Byte) (attributes : List (List Byte)) :
    List Byte × Option GoError :=
  match validateCompositeKeyAttribute objectType with
  | some err => ([], some err)
  | none =>
    createLoop (compositeKeyNamespace ++ objectType ++ [Fin.ofNat minUnicodeRuneValue]) attributes

/-- One round of the loop of `SplitCompositeKey` at the index `i`, on the pair of
`componentIndex` and `components`. -/
def splitStep (compositeKey : List Byte) (st : Nat × List (List Byte)) (i : Nat) :
    Nat × List (List Byte) :=
  if compositeKey.get? i = some (Fin.ofNat minUnicodeRuneValue) then
    (i + 1, st.2 ++ [(compositeKey.take i).drop st.1])
  else st

/-- The components that the loop of `SplitCompositeKey` collects: `i` runs from 1 to
`len(compositeKey) - 1`. -/
def splitComponents (compositeKey : List Byte) : List (List Byte) :=
  ((List.range' 1 (compositeKey.length - 1)).foldl (splitStep compositeKey) (1, [])).2

/-- The function `SplitCompositeKey`: `components[0]` panics when no component was found. -/
def SplitCompositeKey (compositeKey : List Byte) :
    Outcome (List Byte × List (List Byte) × Option GoError) :=
  match splitComponents compositeKey with
  | [] => .panic rangeError
  | first :: others => .ok (first, others, none)

/-- The components, each followed by the byte of `minUnicodeRuneValue`, in one text. -/
def joinComponents : List (List Byte) → List Byte
  | [] => []
  | c :: cs => c ++ [Fin.ofNat minUnicodeRuneValue] ++ joinComponents cs

/-- The attributes the specification allows: valid UTF-8 without U+0000 and U+10FFFF. -/
def attributeAllowed (str : List Byte) : Prop :=
  ValidString str = true ∧
    ∀ p ∈ rangeRunes str, p.2 ≠ minUnicodeRuneValue ∧ p.2 ≠ maxUnicodeRuneValue

instance (str : List Byte) : Decidable (attributeAllowed str) := by
  unfold attributeAllowed
  infer_instance

/-! ## Lemmas on the loops of `readRequest` and on registration -/

theorem convert_eq (env : Env) (msg : Option String) (argType : GoType) :
    convert env msg argType =
      (match msg with
       | none => .panic nilDeref
       | some data =>
         match env.unmarshal data (if argType.kind = .ptr then argType.elem else argType) with
         | .error err => .ok (.error err)
         | .ok v => .ok (.ok (if argType.kind = .ptr then .ptr v else v))) := by
  cases msg with
  | none => rfl
  | some data =>
    by_cases hk : argType.kind = .ptr
    · simp only [convert, convertTyped, hk, beq_self_eq_true, Bool.not_true, if_true]
      cases h : env.unmarshal data argType.elem <;> simp [h]
    · have hb : (argType.kind == Kind.ptr) = false := by simpa using hk
      simp only [convert, convertTyped, hk, hb, Bool.not_false, if_true, if_false]
      cases h : env.unmarshal data argType <;> simp [h]

theorem setIndex_append (pre post : List Value) (x v : Value) (i : Nat)
    (h : i = pre.length) : setIndex (pre ++ x :: post) i v = .ok (pre ++ v :: post) := by
  subst h
  simp [setIndex]

theorem storeDefaultParams_ok : ∀ (ps : List Value) (idx : Nat) (pre mid post : List Value),
    pre.length = idx + 1 → mid.length = ps.length →
    storeDefaultParams ps idx (pre ++ mid ++ post) = .ok (pre ++ ps ++ post)
  | [], idx, pre, mid, post, _, hm => by
    have : mid = [] := List.length_eq_zero.mp (by simpa using hm)
    simp [storeDefaultParams, this]
  | p :: ps, idx, pre, mid, post, hp, hm => by
    match mid, hm with
    | x :: mid, hm =>
      have h1 : setIndex (pre ++ (x :: mid) ++ post) (idx + 1) p
          = .ok (pre ++ p :: (mid ++ post)) := by
        have := setIndex_append pre (mid ++ post) x p (idx + 1) hp.symm
        simpa using this
      have ih := storeDefaultParams_ok ps (idx + 1) (pre ++ [p]) mid post
        (by simp [hp]) (by simpa using hm)
      simp only [storeDefaultParams, h1]
      simpa using ih

theorem decodeParams_ok (env : Env) (argTypes : List GoType) (k : Nat) :
    ∀ (ps : List (Option String)) (i : Nat) (pre mid post decoded : List Value),
    pre.length = i + k + 1 → mid.length = ps.length → decoded.length = ps.length →
    (∀ j p, ps.get? j = some p → ∃ t v, argTypes.get? (k + (i + j)) = some t ∧
      decoded.get? j = some v ∧ convert env p t = .ok (.ok v)) →
    decodeParams env argTypes k ps i (pre ++ mid ++ post) = .ok (.ok (pre ++ decoded ++ post))
  | [], i, pre, mid, post, decoded, _, hm, hd, _ => by
    have h1 : mid = [] := List.length_eq_zero.mp (by simpa using hm)
    have h2 : decoded = [] := List.length_eq_zero.mp (by simpa using hd)
    simp [decodeParams, h1, h2]
  | p :: ps, i, pre, mid, post, decoded, hp, hm, hd, hdec => by
    match mid, hm, decoded, hd with
    | x :: mid, hm, v :: vs, hd =>
      obtain ⟨t, v', ht, hv, hc⟩ := hdec 0 p rfl
      have hv' : v' = v := by simpa using hv.symm
      subst hv'
      have ht' : argTypes.get? (i + k) = some t := by
        have : k + (i + 0) = i + k := by omega
        rw [← this]; exact ht
      have h1 : setIndex (pre ++ (x :: mid) ++ post) (i + k + 1) v'
          = .ok (pre ++ v' :: (mid ++ post)) := by
        have := setIndex_append pre (mid ++ post) x v' (i + k + 1) hp.symm
        simpa using this
      have ih := decodeParams_ok env argTypes k ps (i + 1) (pre ++ [v']) mid post vs
        (by simp [hp]; omega) (by simpa using hm) (by simpa using hd)
        (by
          intro j q hq
          obtain ⟨t2, v2, h21, h22, h23⟩ := hdec (j + 1) q (by simpa using hq)
          refine ⟨t2, v2, ?_, by simpa using h22, h23⟩
          have : k + (i + 1 + j) = k + (i + (j + 1)) := by omega
          rw [this]; exact h21)
      simp only [decodeParams, ht', hc, h1]
      simpa using ih

theorem suitableArgsLoop_ok (env : Env) (mname : String) :
    ∀ (ps acc r : List GoType), suitableArgsLoop env mname ps acc = .ok r → r = acc ++ ps
  | [], acc, r, h => by
    simp only [suitableArgsLoop, Except.ok.injEq] at h
    simp [h]
  | p :: ps, acc, r, h => by
    simp only [suitableArgsLoop] at h
    split at h
    · cases h
    · have := suitableArgsLoop_ok env mname ps (acc ++ [p]) r h
      simpa using this

theorem lookup_mem {α : Type} : ∀ (m : List (String × α)) (k : String) (v : α),
    m.lookup k = some v → (k, v) ∈ m
  | [], _, _, h => by simp at h
  | (k', v') :: m, k, v, h => by
    simp only [List.lookup] at h
    split at h
    · rename_i heq
      have : k = k' := by simpa using heq
      cases h
      simp [this]
    · exact List.mem_cons_of_mem _ (lookup_mem m k v h)

theorem mem_mapStore {α : Type} (m : List (String × α)) (k : String) (v : α)
    (e : String × α) (h : e ∈ mapStore m k v) : e ∈ m ∨ e = (k, v) := by
  simp only [mapStore, List.mem_append, List.mem_filter, List.mem_singleton] at h
  rcases h with h | h
  · exact Or.inl h.1
  · exact Or.inr h

theorem suitableMethod_registered (env : Env) (methods methods' : List (String × methodType))
    (method : Method) (h : suitableMethod env methods method = .ok methods')
    (hall : ∀ e ∈ methods, Registered env e.2) : ∀ e ∈ methods', Registered env e.2 := by
  unfold suitableMethod at h
  simp only at h
  split at h
  · cases h; exact hall
  · split at h
    · cases h
    · rename_i argTypes hargs
      split at h
      · cases h
      · split at h
        · cases h
        · rename_i hlast
          split at h
          · cases h
          · rename_i hnum
            cases h
            intro e he
            rcases mem_mapStore _ _ _ e he with he | he
            · exact hall e he
            · subst he
              have hargs' := suitableArgsLoop_ok env _ _ _ _ hargs
              refine ⟨by simpa using hargs', rfl, ?_, ?_⟩
              · show method.typ.NumOut = 1 ∨ method.typ.NumOut = 2
                simp only [Bool.or_eq_true, decide_eq_true_eq, not_or, not_lt] at hnum
                omega
              · intro t ht
                unfold checkLastReplyType at hlast
                match houts : method.typ.outs, ht with
                | [_, t'], ht | _ :: t' :: _ :: _, ht =>
                  simp only [houts] at hlast ht
                  have : t' = t := by simpa using ht
                  subst this
                  split at hlast
                  · cases hlast
                  · split at hlast
                    · cases hlast
                    · rename_i h2
                      simpa using h2

theorem suitableMethodsLoop_registered (env : Env) :
    ∀ (ms : List Method) (methods methods' : List (String × methodType)),
    suitableMethodsLoop env ms methods = .ok methods' →
    (∀ e ∈ methods, Registered env e.2) → ∀ e ∈ methods', Registered env e.2
  | [], methods, methods', h, hall => by
    simp only [suitableMethodsLoop, Except.ok.injEq] at h
    subst h; exact hall
  | m :: ms, methods, methods', h, hall => by
    simp only [suitableMethodsLoop] at h
    split at h
    · cases h
    · rename_i mid hmid
      exact suitableMethodsLoop_registered env ms mid methods' h
        (suitableMethod_registered env methods mid m hmid hall)

theorem register_cases (env : Env) (rpc : rpcImpl) (rcvr : Receiver) (name : String)
    (useName : Bool) :
    ((rpc.register env rcvr name useName).1 = rpc ∧
        (rpc.register env rcvr name useName).2 ≠ none) ∨
    ∃ methods, suitableMethods env rcvr.methods = .ok methods ∧ methods ≠ [] ∧
      resolvedName rcvr name useName ≠ "" ∧
      rpc.Load (resolvedName rcvr name useName) = none ∧
      rpc.register env rcvr name useName =
        (⟨rpc.serviceMap ++ [(resolvedName rcvr name useName,
          ⟨resolvedName rcvr name useName, rcvr.value, rcvr.typ, methods⟩)]⟩, none) := by
  unfold rpcImpl.register resolvedName
  simp only
  generalize (if useName = true then name else rcvr.indirectType.name) = sname
  by_cases h1 : (sname == "") = true
  · simp [h1]
  · by_cases h2 : (!isExported env sname && !useName) = true
    · simp [h1, h2]
    · cases hsm : suitableMethods env rcvr.methods with
      | error e => simp [h1, h2]
      | ok methods =>
        by_cases h3 : (methods.length == 0) = true
        · simp [h1, h2, h3]
        · cases hl : rpc.serviceMap.lookup sname with
          | some s => simp [h1, h2, h3, rpcImpl.LoadOrStore, hl]
          | none =>
            refine Or.inr ⟨methods, rfl, ?_, ?_, ?_, ?_⟩
            · intro h; apply h3; simp [h]
            · simpa using h1
            · exact hl
            · simp [h1, h2, h3, rpcImpl.LoadOrStore, hl]

theorem register_allRegistered (env : Env) (rpc : rpcImpl) (rcvr : Receiver) (name : String)
    (useName : Bool) (h : rpc.AllRegistered env) :
    (rpc.register env rcvr name useName).1.AllRegistered env := by
  rcases register_cases env rpc rcvr name useName with ⟨h1, _⟩ | ⟨methods, hm, _, _, _, h1⟩
  · rw [h1]; exact h
  · rw [h1]
    intro p hp e he
    simp only [List.mem_append, List.mem_singleton] at hp
    rcases hp with hp | hp
    · exact h p hp e he
    · subst hp
      exact suitableMethodsLoop_registered env _ _ _ hm (by simp) e he

theorem reachable_allRegistered (env : Env) (rpc : rpcImpl) (h : Reachable env rpc) :
    rpc.AllRegistered env := by
  induction h with
  | new => intro p hp; simp [New] at hp
  | register rcvr name useName _ ih => exact register_allRegistered env _ rcvr name useName ih

theorem readRequestServiceMethod_mem (rpc : rpcImpl) (req : Request) (svc : service)
    (mtype : methodType) (h : rpc.readRequestServiceMethod req = .ok (svc, mtype)) :
    ∃ sname mname, (sname, svc) ∈ rpc.serviceMap ∧ (mname, mtype) ∈ svc.method := by
  unfold rpcImpl.readRequestServiceMethod at h
  split at h
  · cases h
  · simp only at h
    split at h
    · cases h
    · rename_i s hs
      split at h
      · cases h
      · rename_i m hm
        cases h
        exact ⟨_, _, lookup_mem _ _ _ hs, lookup_mem _ _ _ hm⟩

theorem reachable_registered (env : Env) (rpc : rpcImpl) (req : Request) (svc : service)
    (mtype : methodType) (hr : Reachable env rpc)
    (h : rpc.readRequestServiceMethod req = .ok (svc, mtype)) : Registered env mtype := by
  obtain ⟨sname, mname, h1, h2⟩ := readRequestServiceMethod_mem rpc req svc mtype h
  exact reachable_allRegistered env rpc hr _ h1 _ h2

theorem decodeParams_err (env : Env) (argTypes : List GoType) (k : Nat) :
    ∀ (ps : List (Option String)) (i0 : Nat) (pre mid post : List Value) (i : Nat)
      (raw : String) (t : GoType) (e : GoError),
    pre.length = i0 + k + 1 → mid.length = ps.length →
    ps.get? i = some (some raw) → argTypes.get? (k + (i0 + i)) = some t →
    convert env (some raw) t = .ok (.error e) →
    (∀ j p, j < i → ps.get? j = some p → ∃ t' v, argTypes.get? (k + (i0 + j)) = some t' ∧
      convert env p t' = .ok (.ok v)) →
    decodeParams env argTypes k ps i0 (pre ++ mid ++ post) =
      .ok (.error (errorsNew ("rpc: convert param faild. expect " ++ t.string ++
        ", found=" ++ raw ++ ", error: " ++ e.Error ++ "\n")))
  | [], _, _, _, _, i, _, _, _, _, _, hi, _, _, _ => by simp at hi
  | p :: ps, i0, pre, mid, post, 0, raw, t, e, _, _, hi, ht, hc, _ => by
    have hp : p = some raw := by simpa using hi
    subst hp
    have ht' : argTypes.get? (i0 + k) = some t := by
      have : k + (i0 + 0) = i0 + k := by omega
      rw [← this]; exact ht
    simp only [decodeParams, ht', hc]
  | p :: ps, i0, pre, mid, post, i + 1, raw, t, e, hp, hm, hi, ht, hc, hprev => by
    match mid, hm with
    | x :: mid, hm =>
      obtain ⟨t', v, ht', hc'⟩ := hprev 0 p (by omega) rfl
      have ht'' : argTypes.get? (i0 + k) = some t' := by
        have : k + (i0 + 0) = i0 + k := by omega
        rw [← this]; exact ht'
      have h1 : setIndex (pre ++ (x :: mid) ++ post) (i0 + k + 1) v
          = .ok (pre ++ v :: (mid ++ post)) := by
        have := setIndex_append pre (mid ++ post) x v (i0 + k + 1) hp.symm
        simpa using this
      have ih := decodeParams_err env argTypes k ps (i0 + 1) (pre ++ [v]) mid post i raw t e
        (by simp [hp]; omega) (by simpa using hm) (by simpa using hi)
        (by
          have : k + (i0 + 1 + i) = k + (i0 + (i + 1)) := by omega
          rw [this]; exact ht)
        hc
        (by
          intro j q hj hq
          obtain ⟨t2, v2, h21, h22⟩ := hprev (j + 1) q (by omega) (by simpa using hq)
          refine ⟨t2, v2, ?_, h22⟩
          have : k + (i0 + 1 + j) = k + (i0 + (j + 1)) := by omega
          rw [this]; exact h21)
      simp only [decodeParams, ht'', hc', h1]
      simpa using ih

theorem readRequest_arity_fail (env : Env) (rpc : rpcImpl) (req : Request)
    (baseParam : List Value) (svc : service) (mtype : methodType)
    (hlook : rpc.readRequestServiceMethod req = .ok (svc, mtype))
    (hne : (req.params.length : Int) ≠
      (mtype.method.typ.params.length : Int) - (baseParam.length : Int)) :
    rpc.readRequest env req baseParam =
      .ok (.error (errorsNew ("rpc: params not matched. got " ++ toString req.params.length ++
        ", need " ++
        toString ((mtype.method.typ.params.length : Int) - (baseParam.length : Int))))) := by
  have hlens : (match req.Params with | none => 0 | some ps => ps.length) = req.params.length := by
    unfold Request.params; cases req.Params <;> rfl
  have hneed : ((mtype.method.typ.NumIn : Nat) : Int) - (baseParam.length : Int) - 1 =
      (mtype.method.typ.params.length : Int) - (baseParam.length : Int) := by
    simp only [FuncType.NumIn]; push_cast; ring
  unfold rpcImpl.readRequest
  simp only [hlook, hlens, hneed]
  rw [if_pos hne]

theorem readRequest_arity_pass (env : Env) (rpc : rpcImpl) (req : Request)
    (baseParam : List Value) (svc : service) (mtype : methodType)
    (hlook : rpc.readRequestServiceMethod req = .ok (svc, mtype))
    (hargs : mtype.argTypes = mtype.method.typ.params)
    (harity : req.params.length + baseParam.length = mtype.method.typ.params.length) :
    rpc.readRequest env req baseParam =
      match decodeParams env mtype.method.typ.params baseParam.length req.params 0
          ([svc.rcvr] ++ baseParam ++ List.replicate req.params.length Value.nil) with
      | .panic v => .panic v
      | .ok (.error err) => .ok (.error err)
      | .ok (.ok argv) => .ok (.ok (svc, mtype, argv)) := by
  have hlens : (match req.Params with | none => 0 | some ps => ps.length) = req.params.length := by
    unfold Request.params; cases req.Params <;> rfl
  have hneed : ((req.params.length : Nat) : Int) =
      ((mtype.method.typ.NumIn : Nat) : Int) - (baseParam.length : Int) - 1 := by
    simp only [FuncType.NumIn]; push_cast; omega
  have hrep : List.replicate (mtype.method.typ.params.length + 1) Value.nil =
      [] ++ Value.nil :: (List.replicate baseParam.length Value.nil ++
        List.replicate req.params.length Value.nil) := by
    rw [← harity, Nat.add_comm req.params.length, List.nil_append, List.replicate_succ,
      List.replicate_add]
  have h0 := setIndex_append [] (List.replicate baseParam.length Value.nil ++
        List.replicate req.params.length Value.nil) Value.nil svc.rcvr 0 rfl
  have h1 := storeDefaultParams_ok baseParam 0 [svc.rcvr]
    (List.replicate baseParam.length Value.nil) (List.replicate req.params.length Value.nil)
    rfl (by simp)
  unfold rpcImpl.readRequest
  simp only [hlook, hlens, hargs]
  rw [if_neg (by simpa using hneed), hrep, h0]
  simp only [List.nil_append]
  rw [show svc.rcvr :: (List.replicate baseParam.length Value.nil ++
        List.replicate req.params.length Value.nil) =
      [svc.rcvr] ++ List.replicate baseParam.length Value.nil ++
        List.replicate req.params.length Value.nil from by simp, h1]

theorem suitableArgsLoop_all (env : Env) (mname : String) :
    ∀ (ps acc : List GoType), ps.all (isExportedOrBuiltinType env) = true →
      suitableArgsLoop env mname ps acc = .ok (acc ++ ps)
  | [], acc, _ => by simp [suitableArgsLoop]
  | p :: ps, acc, h => by
    simp only [List.all_cons, Bool.and_eq_true] at h
    simp only [suitableArgsLoop, h.1, Bool.not_true, Bool.false_eq_true, if_false]
    rw [suitableArgsLoop_all env mname ps (acc ++ [p]) h.2]
    simp

theorem suitableArgsLoop_not_all (env : Env) (mname : String) :
    ∀ (ps acc : List GoType), ps.all (isExportedOrBuiltinType env) = false →
      ∃ e, suitableArgsLoop env mname ps acc = .error e
  | [], acc, h => by simp at h
  | p :: ps, acc, h => by
    simp only [suitableArgsLoop]
    cases hp : isExportedOrBuiltinType env p with
    | false => simp
    | true =>
      have h' : ps.all (isExportedOrBuiltinType env) = false := by
        simpa [List.all_cons, hp] using h
      simpa using suitableArgsLoop_not_all env mname ps (acc ++ [p]) h'

theorem suitableMethod_skips (env : Env) (tbl : List (String × methodType)) (m : Method)
    (h : m.pkgPath ≠ "") : suitableMethod env tbl m = .ok tbl := by
  simp [suitableMethod, h]

theorem suitableMethod_accepts (env : Env) (tbl : List (String × methodType)) (m : Method)
    (hexp : m.pkgPath = "") (hok : signatureOK env m = true) :
    suitableMethod env tbl m =
      .ok (mapStore tbl m.name ⟨m, m.typ.params, m.typ.outs.head?⟩) := by
  simp only [signatureOK, Bool.and_eq_true, Bool.or_eq_true, beq_iff_eq] at hok
  obtain ⟨⟨hps, houts⟩, hn⟩ := hok
  have hargs : suitableArgs env m.typ m.name = .ok m.typ.params := by
    simpa [suitableArgs] using suitableArgsLoop_all env m.name m.typ.params [] hps
  match hoo : m.typ.outs, houts, hn with
  | [], _, hn => simp at hn
  | [o], houts, _ =>
    simp only [List.all_cons, Bool.and_eq_true] at houts
    simp [suitableMethod, hexp, hargs, checkReplyType, checkLastReplyType, hoo, houts.1,
      FuncType.NumOut]
  | [o, o'], houts, hn =>
    simp only [List.all_cons, Bool.and_eq_true] at houts
    have himp : env.implementsError o' = true := by simpa using hn
    simp [suitableMethod, hexp, hargs, checkReplyType, checkLastReplyType, hoo, houts.1,
      houts.2.1, himp, FuncType.NumOut]
  | _ :: _ :: _ :: _, _, hn => simp at hn

theorem suitableMethod_rejects (env : Env) (tbl : List (String × methodType)) (m : Method)
    (hexp : m.pkgPath = "") (hbad : signatureOK env m = false) :
    ∃ e, suitableMethod env tbl m = .error e := by
  cases hps : m.typ.params.all (isExportedOrBuiltinType env) with
  | false =>
    obtain ⟨e, he⟩ := suitableArgsLoop_not_all env m.name m.typ.params [] hps
    exact ⟨e, by simp [suitableMethod, hexp, suitableArgs, he]⟩
  | true =>
    have hargs : suitableArgs env m.typ m.name = .ok m.typ.params := by
      simpa [suitableArgs] using suitableArgsLoop_all env m.name m.typ.params [] hps
    simp only [signatureOK, hps, Bool.true_and] at hbad
    match hoo : m.typ.outs, hbad with
    | [], _ =>
      exact ⟨_, by simp [suitableMethod, hexp, hargs, checkReplyType, checkLastReplyType, hoo,
        FuncType.NumOut]; rfl⟩
    | [o], hbad =>
      have ho : isExportedOrBuiltinType env o = false := by simpa using hbad
      exact ⟨_, by simp [suitableMethod, hexp, hargs, checkReplyType, hoo, ho]; rfl⟩
    | [o, o'], hbad =>
      cases ho : isExportedOrBuiltinType env o with
      | false => exact ⟨_, by simp [suitableMethod, hexp, hargs, checkReplyType, hoo, ho]; rfl⟩
      | true =>
        cases ho' : isExportedOrBuiltinType env o' with
        | false =>
          exact ⟨_, by simp [suitableMethod, hexp, hargs, checkReplyType, checkLastReplyType,
            hoo, ho, ho']; rfl⟩
        | true =>
          have himp : env.implementsError o' = false := by simpa [ho, ho'] using hbad
          exact ⟨_, by simp [suitableMethod, hexp, hargs, checkReplyType, checkLastReplyType,
            hoo, ho, ho', himp]; rfl⟩
    | o :: o' :: o'' :: rest, _ =>
      cases ho : isExportedOrBuiltinType env o with
      | false => exact ⟨_, by simp [suitableMethod, hexp, hargs, checkReplyType, hoo, ho]; rfl⟩
      | true =>
        cases ho' : isExportedOrBuiltinType env o' with
        | false =>
          exact ⟨_, by simp [suitableMethod, hexp, hargs, checkReplyType, checkLastReplyType,
            hoo, ho, ho']; rfl⟩
        | true =>
          cases himp : env.implementsError o' with
          | false =>
            exact ⟨_, by simp [suitableMethod, hexp, hargs, checkReplyType, checkLastReplyType,
              hoo, ho, ho', himp]; rfl⟩
          | true =>
            exact ⟨_, by simp [suitableMethod, hexp, hargs, checkReplyType, checkLastReplyType,
              hoo, ho, ho', himp, FuncType.NumOut]; rfl⟩

theorem suitableMethodsLoop_rejects (env : Env) (m : Method) (hexp : m.pkgPath = "")
    (hbad : signatureOK env m = false) :
    ∀ (ms : List Method) (tbl : List (String × methodType)), m ∈ ms →
      ∃ e, suitableMethodsLoop env ms tbl = .error e
  | [], _, h => by simp at h
  | m' :: ms, tbl, h => by
    simp only [suitableMethodsLoop]
    cases hm' : suitableMethod env tbl m' with
    | error e => exact ⟨e, rfl⟩
    | ok tbl' =>
      rcases List.mem_cons.mp h with h | h
      · subst h
        obtain ⟨e, he⟩ := suitableMethod_rejects env tbl m hexp hbad
        rw [he] at hm'; cases hm'
      · exact suitableMethodsLoop_rejects env m hexp hbad ms tbl' h

theorem lastIndexDot_none (cs : List Char) (h : '.' ∉ cs) : lastIndexDot cs = none := by
  induction cs with
  | nil => rfl
  | cons c cs ih =>
    have hc : c ≠ '.' := fun e => h (by simp [e])
    have hcs : '.' ∉ cs := fun e => h (List.mem_cons_of_mem _ e)
    simp [lastIndexDot, ih hcs, hc]

theorem lastIndexDot_append (s m : List Char) (hm : '.' ∉ m) :
    lastIndexDot (s ++ '.' :: m) = some s.length := by
  induction s with
  | nil => simp [lastIndexDot, lastIndexDot_none m hm]
  | cons c s ih => simp [lastIndexDot, ih]

theorem lastIndexDot_none_not_mem : ∀ (cs : List Char), lastIndexDot cs = none → '.' ∉ cs
  | [], _, h => by simp at h
  | c :: cs, hn, h => by
    simp only [lastIndexDot] at hn
    cases hcs : lastIndexDot cs with
    | some i => rw [hcs] at hn; cases hn
    | none =>
      rw [hcs] at hn
      simp only at hn
      split at hn
      · cases hn
      · rename_i hc
        rcases List.mem_cons.mp h with h | h
        · exact hc h.symm
        · exact lastIndexDot_none_not_mem cs hcs h

theorem lastIndexDot_some : ∀ (cs : List Char) (d : Nat), lastIndexDot cs = some d →
    cs = cs.take d ++ '.' :: cs.drop (d + 1) ∧ '.' ∉ cs.drop (d + 1) ∧ (cs.take d).length = d
  | [], d, h => by simp [lastIndexDot] at h
  | c :: cs, d, h => by
    simp only [lastIndexDot] at h
    cases hcs : lastIndexDot cs with
    | some i =>
      rw [hcs] at h
      simp only [Option.some.injEq] at h
      subst h
      obtain ⟨h1, h2, h3⟩ := lastIndexDot_some cs i hcs
      refine ⟨?_, by simpa using h2, by simpa using h3⟩
      simp only [List.take_succ_cons, List.drop_succ_cons, List.cons_append]
      exact congrArg (c :: ·) h1
    | none =>
      rw [hcs] at h
      simp only at h
      split at h
      · rename_i hc
        simp only [Option.some.injEq] at h
        subst h
        subst hc
        refine ⟨by simp, ?_, by simp⟩
        intro hmem
        exact lastIndexDot_none_not_mem cs hcs (by simpa using hmem)
      · cases h

theorem lastIndexDot_of_mem (cs : List Char) (h : '.' ∈ cs) : ∃ d, lastIndexDot cs = some d := by
  cases hd : lastIndexDot cs with
  | some d => exact ⟨d, rfl⟩
  | none => exact (lastIndexDot_none_not_mem cs hd h).elim

theorem lookup_append_new {α : Type} : ∀ (m : List (String × α)) (k : String) (v : α),
    m.lookup k = none → (m ++ [(k, v)]).lookup k = some v
  | [], k, v, _ => by simp [List.lookup]
  | (k', v') :: m, k, v, h => by
    cases hk : (k == k') with
    | true => simp [List.lookup, hk] at h
    | false =>
      simp only [List.lookup, hk, List.cons_append] at h ⊢
      exact lookup_append_new m k v h

/-- The lookup of `readRequestServiceMethod` once the string is split into the
service name `S` and the method name `M`. -/
theorem readRequestServiceMethod_split (rpc : rpcImpl) (S M : String)
    (ps : Option (List (Option String))) (hM : '.' ∉ M.data) :
    rpc.readRequestServiceMethod ⟨S ++ "." ++ M, ps⟩ =
      (match rpc.Load S with
       | none => .error (errorsNew ("rpc: can't find service " ++ (S ++ "." ++ M)))
       | some svc =>
         match svc.method.lookup M with
         | none => .error (errorsNew ("rpc: can't find method " ++ (S ++ "." ++ M)))
         | some mtype => .ok (svc, mtype)) := by
  have hdata : (S ++ "." ++ M).data = S.data ++ '.' :: M.data := by
    simp [String.data_append]
  have hidx := lastIndexDot_append S.data M.data hM
  unfold rpcImpl.readRequestServiceMethod
  simp only [hdata, hidx]
  have h1 : String.mk (List.take S.data.length (S.data ++ '.' :: M.data)) = S := by
    simp
  have h2 : String.mk (List.drop (S.data.length + 1) (S.data ++ '.' :: M.data)) = M := by
    have : List.drop (S.data.length + 1) (S.data ++ '.' :: M.data) = M.data := by
      rw [List.drop_append_eq_append_drop]
      simp
    rw [this]
  rw [h1, h2]

theorem convert_some_returns (env : Env) (data : String) (T : GoType) :
    ∃ r, convert env (some data) T = .ok r := by
  simp only [convert_eq]
  split <;> simp

theorem lookup_append_other {α : Type} : ∀ (m : List (String × α)) (k k' : String) (v : α),
    k ≠ k' → (m ++ [(k', v)]).lookup k = m.lookup k
  | [], k, k', v, h => by
    have : (k == k') = false := by simpa using h
    simp [List.lookup, this]
  | (k₀, v₀) :: m, k, k', v, h => by
    cases hk : (k == k₀) with
    | true => simp [List.lookup, hk]
    | false =>
      simp only [List.lookup, hk, List.cons_append]
      exact lookup_append_other m k k' v h

/-- The three ways in which the loop of `readRequest` over the params ends when
the indices fit: a nil entry is dereferenced, a param does not decode, or every
slot of the params is filled. -/
theorem decodeParams_in_bounds (env : Env) (argTypes : List GoType) (k : Nat) :
    ∀ (ps : List (Option String)) (i : Nat) (pre mid post : List Value),
    pre.length = i + k + 1 → mid.length = ps.length → i + k + ps.length ≤ argTypes.length →
    decodeParams env argTypes k ps i (pre ++ mid ++ post) = .panic nilDeref ∨
    (∃ e, decodeParams env argTypes k ps i (pre ++ mid ++ post) = .ok (.error e)) ∨
    (∃ decoded : List Value, decoded.length = ps.length ∧
      decodeParams env argTypes k ps i (pre ++ mid ++ post) = .ok (.ok (pre ++ decoded ++ post)))
  | [], i, pre, mid, post, _, hm, _ => by
    have h1 : mid = [] := List.length_eq_zero.mp (by simpa using hm)
    exact Or.inr (Or.inr ⟨[], rfl, by simp [decodeParams, h1]⟩)
  | p :: ps, i, pre, mid, post, hp, hm, hle => by
    match mid, hm with
    | x :: mid, hm =>
      have hlt : i + k < argTypes.length := by
        simp only [List.length_cons] at hle; omega
      obtain ⟨t, ht⟩ : ∃ t, argTypes.get? (i + k) = some t :=
        ⟨argTypes.get ⟨i + k, hlt⟩, List.get?_eq_get hlt⟩
      cases p with
      | none =>
        left
        simp only [decodeParams, ht, convert_eq]
      | some raw =>
        obtain ⟨r, hr⟩ := convert_some_returns env raw t
        cases r with
        | error e =>
          right; left
          refine ⟨errorsNew ("rpc: convert param faild. expect " ++ t.string ++
            ", found=" ++ raw ++ ", error: " ++ e.Error ++ "\n"), ?_⟩
          simp only [decodeParams, ht, hr]
        | ok v =>
          have h1 : setIndex (pre ++ (x :: mid) ++ post) (i + k + 1) v
              = .ok (pre ++ v :: (mid ++ post)) := by
            have := setIndex_append pre (mid ++ post) x v (i + k + 1) hp.symm
            simpa using this
          have ih := decodeParams_in_bounds env argTypes k ps (i + 1) (pre ++ [v]) mid post
            (by simp [hp]; omega) (by simpa using hm)
            (by simp only [List.length_cons] at hle; omega)
          have hstep : decodeParams env argTypes k (some raw :: ps) i
              (pre ++ (x :: mid) ++ post) =
              decodeParams env argTypes k ps (i + 1) (pre ++ [v] ++ mid ++ post) := by
            simp only [decodeParams, ht, hr, h1]
            simp
          rw [hstep]
          rcases ih with ih | ⟨e, ih⟩ | ⟨decoded, hd, ih⟩
          · exact Or.inl ih
          · exact Or.inr (Or.inl ⟨e, ih⟩)
          · exact Or.inr (Or.inr ⟨v :: decoded, by simp [hd], by rw [ih]; simp⟩)

theorem AddressFromBytes_bytes (bs : List Byte) :
    (AddressFromBytes bs).1.bytes =
      bs.take Word160Length ++ List.replicate (Word160Length - bs.length) 0 := by
  unfold AddressFromBytes
  split
  · rename_i h
    have h0 : bs = [] := List.length_eq_zero.mp (by simpa using h)
    subst h0
    simp [ZeroAddress]
  · simp [copyBytes, ZeroAddress, List.drop_replicate]

theorem AddressFromBytes_error (bs : List Byte) (hne : bs ≠ []) :
    ((AddressFromBytes bs).2 = none ↔ bs.length = Word160Length) := by
  have hlen : ¬ bs.length = 0 := fun h => hne (List.length_eq_zero.mp h)
  unfold AddressFromBytes
  simp only [beq_iff_eq, hlen, if_false, bne_iff_ne, ne_eq]
  by_cases h : bs.length = Word160Length
  · simp [h]
  · simp [h]

theorem MaybeAddressFromBytes_full (bs : List Byte) (h : bs.length = Word160Length) :
    MaybeAddressFromBytes bs = (some (AddressFromBytes bs).1, none) := by
  have hne : bs ≠ [] := by
    intro h0
    subst h0
    simp [Word160Length] at h
  have herr := (AddressFromBytes_error bs hne).mpr h
  have hlen : ¬ bs.length = 0 := fun h0 => hne (List.length_eq_zero.mp h0)
  unfold MaybeAddressFromBytes
  simp only [beq_iff_eq, hlen, if_false]
  cases hx : AddressFromBytes bs with
  | mk a e =>
    rw [hx] at herr
    simp only at herr
    subst herr
    rfl

theorem MaybeAddressFromBytes_short (bs : List Byte) (h : bs.length ≠ Word160Length) :
    (MaybeAddressFromBytes bs).1 = none := by
  unfold MaybeAddressFromBytes
  split
  · rfl
  · rename_i hlen
    have hne : bs ≠ [] := by
      intro h0
      subst h0
      simp at hlen
    have herr := AddressFromBytes_error bs hne
    cases hx : AddressFromBytes bs with
    | mk a e =>
      rw [hx] at herr
      cases e with
      | none => exact absurd (herr.mp rfl) h
      | some err => rfl

theorem wrapInt_small (n : Int) (h0 : 0 ≤ n) (h1 : n ≤ 255) : wrapInt n = n := by
  unfold wrapInt
  omega

theorem byteOfInt_val (n : Int) (h0 : 0 ≤ n) (h1 : n ≤ 255) : (byteOfInt n).val = n.toNat := by
  unfold byteOfInt
  have : (n % 256).toNat = n.toNat := by omega
  rw [this]
  simp only [Fin.ofNat, Fin.val_mk]
  omega

theorem padding_bounds (n : Nat) (b : Int) (h1 : 1 ≤ b) :
    1 ≤ b - Int.tmod (n : Int) b ∧ b - Int.tmod (n : Int) b ≤ b ∧
      b ∣ (n : Int) + (b - Int.tmod (n : Int) b) := by
  have hb : 0 ≤ b := by omega
  have hn : (0 : Int) ≤ (n : Int) := Int.ofNat_nonneg n
  rw [Int.tmod_eq_emod hn hb]
  have hlt := Int.emod_lt_of_pos (n : Int) (show 0 < b by omega)
  have hge := Int.emod_nonneg (n : Int) (show b ≠ 0 by omega)
  refine ⟨by omega, by omega, ?_⟩
  have hdiv := Int.emod_add_ediv (n : Int) b
  refine ⟨(n : Int) / b + 1, ?_⟩
  rw [Int.mul_add, Int.mul_one]
  omega

theorem PKCS5UnPadding_append (d : List Byte) (m : Nat) (x : Byte) (hm : 1 ≤ m)
    (hx : x.val = m) : PKCS5UnPadding (d ++ List.replicate m x) = .ok d := by
  obtain ⟨m', rfl⟩ : ∃ m', m = m' + 1 := ⟨m - 1, by omega⟩
  have hlast : (d ++ List.replicate (m' + 1) x).getLast? = some x := by
    rw [List.replicate_succ', ← List.append_assoc, List.getLast?_append]
    simp
  unfold PKCS5UnPadding
  simp only [hlast, hx, List.length_append, List.length_replicate]
  rw [if_pos (by omega)]
  have : d.length + (m' + 1) - (m' + 1) = d.length := by omega
  rw [this, List.take_left]

theorem PKCS5Padding_eq (d : List Byte) (b : Int) (h1 : 1 ≤ b) (h2 : b ≤ 255) :
    PKCS5Padding d b = .ok (d ++ List.replicate (b - Int.tmod (d.length : Int) b).toNat
      (byteOfInt (b - Int.tmod (d.length : Int) b))) := by
  obtain ⟨hp1, hp2, _⟩ := padding_bounds d.length b h1
  have hw := wrapInt_small (b - Int.tmod (d.length : Int) b) (by omega) (by omega)
  unfold PKCS5Padding
  rw [if_neg (by omega)]
  simp only [hw]
  rw [if_neg (by omega)]

theorem runeWidth_high (n : Nat) (h : 2 ≤ runeWidth n) : 0x80 ≤ n := by
  unfold runeWidth at h
  split at h
  · omega
  · omega

theorem isSecond_high (b0 b : Nat) (h : isSecond b0 b = true) : 0x80 ≤ b := by
  unfold isSecond acceptRange at h
  simp only [Bool.and_eq_true, decide_eq_true_eq] at h
  split at h
  · omega
  · split at h
    · omega
    · split at h
      · omega
      · split at h
        · omega
        · omega

theorem isCont_high (b : Nat) (h : isCont b = true) : 0x80 ≤ b := by
  unfold isCont at h
  simp only [Bool.and_eq_true, decide_eq_true_eq] at h
  omega

theorem byte_zero_val (b : Byte) (h : (0 : Byte) = b) : b.val = 0 := by
  rw [← h]
  rfl

theorem decodeRune_zero (bs : List Byte) (r w : Nat) (h : decodeRune bs = some (r, w))
    (hz : (0 : Byte) ∈ bs.take w) : r = 0 := by
  cases bs with
  | nil => simp [decodeRune] at h
  | cons b0 rest =>
    simp only [decodeRune] at h
    split at h
    · simp only [Option.some.injEq, Prod.mk.injEq] at h
      obtain ⟨hr, hw⟩ := h
      subst hw
      simp only [List.take_succ_cons, List.take_zero, List.mem_singleton] at hz
      rw [← hr]
      exact byte_zero_val b0 hz
    · rename_i b1 tl hw
      have h0 := runeWidth_high b0.val (by omega)
      split at h
      · rename_i hs
        have h1 := isSecond_high _ _ hs
        simp only [Option.some.injEq, Prod.mk.injEq] at h
        obtain ⟨_, hw2⟩ := h
        subst hw2
        simp only [List.take_succ_cons, List.take_zero, List.mem_cons, List.mem_nil_iff,
          or_false] at hz
        rcases hz with hz | hz
        · have := byte_zero_val b0 hz
          omega
        · have := byte_zero_val b1 hz
          omega
      · simp at h
    · rename_i b1 b2 tl hw
      have h0 := runeWidth_high b0.val (by omega)
      split at h
      · rename_i hs
        simp only [Bool.and_eq_true] at hs
        have h1 := isSecond_high _ _ hs.1
        have h2 := isCont_high _ hs.2
        simp only [Option.some.injEq, Prod.mk.injEq] at h
        obtain ⟨_, hw2⟩ := h
        subst hw2
        simp only [List.take_succ_cons, List.take_zero, List.mem_cons, List.mem_nil_iff,
          or_false] at hz
        rcases hz with hz | hz | hz
        · have := byte_zero_val b0 hz
          omega
        · have := byte_zero_val b1 hz
          omega
        · have := byte_zero_val b2 hz
          omega
      · simp at h
    · rename_i b1 b2 b3 tl hw
      have h0 := runeWidth_high b0.val (by omega)
      split at h
      · rename_i hs
        simp only [Bool.and_eq_true] at hs
        have h1 := isSecond_high _ _ hs.1.1
        have h2 := isCont_high _ hs.1.2
        have h3 := isCont_high _ hs.2
        simp only [Option.some.injEq, Prod.mk.injEq] at h
        obtain ⟨_, hw2⟩ := h
        subst hw2
        simp only [List.take_succ_cons, List.take_zero, List.mem_cons, List.mem_nil_iff,
          or_false] at hz
        rcases hz with hz | hz | hz | hz
        · have := byte_zero_val b0 hz
          omega
        · have := byte_zero_val b1 hz
          omega
        · have := byte_zero_val b2 hz
          omega
        · have := byte_zero_val b3 hz
          omega
      · simp at h
    · simp at h

theorem valid_zero_free : ∀ (fuel off : Nat) (bs : List Byte), validLoop fuel bs = true →
    (∀ p ∈ rangeLoop fuel off bs, p.2 ≠ minUnicodeRuneValue) → (0 : Byte) ∉ bs := by
  intro fuel
  induction fuel with
  | zero =>
    intro off bs hv _
    cases bs with
    | nil => simp
    | cons b bs => simp [validLoop] at hv
  | succ fuel ih =>
    intro off bs hv hr
    cases bs with
    | nil => simp
    | cons b bs =>
      simp only [validLoop] at hv
      simp only [rangeLoop] at hr
      cases hd : decodeRune (b :: bs) with
      | none => simp [hd] at hv
      | some rw =>
        obtain ⟨r, w⟩ := rw
        simp only [hd] at hv hr
        intro hz
        rw [← List.take_append_drop w (b :: bs), List.mem_append] at hz
        rcases hz with hz | hz
        · have := decodeRune_zero _ _ _ hd hz
          exact (hr (off, r) (List.mem_cons_self _ _)) this
        · exact ih (off + w) _ hv (fun p hp => hr p (List.mem_cons_of_mem _ hp)) hz

theorem validateLoop_none (l : List (Nat × Nat)) :
    validateLoop l = none ↔ ∀ p ∈ l, p.2 ≠ minUnicodeRuneValue ∧ p.2 ≠ maxUnicodeRuneValue := by
  induction l with
  | nil => simp [validateLoop]
  | cons p l ih =>
    obtain ⟨index, runeValue⟩ := p
    simp only [validateLoop, List.mem_cons, forall_eq_or_imp]
    by_cases h : (runeValue == minUnicodeRuneValue || runeValue == maxUnicodeRuneValue) = true
    · rw [if_pos h]
      simp only [Bool.or_eq_true, beq_iff_eq] at h
      constructor
      · intro hc
        simp at hc
      · intro hc
        rcases h with h | h
        · exact absurd h hc.1.1
        · exact absurd h hc.1.2
    · rw [if_neg h, ih]
      simp only [Bool.or_eq_true, beq_iff_eq, not_or] at h
      constructor
      · intro hc
        exact ⟨h, hc⟩
      · intro hc
        exact hc.2

theorem validate_none_iff (str : List Byte) :
    validateCompositeKeyAttribute str = none ↔ attributeAllowed str := by
  unfold validateCompositeKeyAttribute attributeAllowed
  cases hv : ValidString str with
  | false => simp
  | true => simp [validateLoop_none]

theorem allowed_zero_free (str : List Byte) (h : attributeAllowed str) : (0 : Byte) ∉ str :=
  valid_zero_free str.length 0 str h.1 (fun p hp => (h.2 p hp).1)

theorem decodeRune_width (bs : List Byte) (r w : Nat) (h : decodeRune bs = some (r, w)) :
    1 ≤ w ∧ w ≤ bs.length := by
  cases bs with
  | nil => simp [decodeRune] at h
  | cons b0 rest =>
    simp only [decodeRune] at h
    split at h
    · simp only [Option.some.injEq, Prod.mk.injEq] at h
      obtain ⟨_, hw⟩ := h
      subst hw
      simp
    · split at h
      · simp only [Option.some.injEq, Prod.mk.injEq] at h
        obtain ⟨_, hw⟩ := h
        subst hw
        simp
      · simp at h
    · split at h
      · simp only [Option.some.injEq, Prod.mk.injEq] at h
        obtain ⟨_, hw⟩ := h
        subst hw
        simp
      · simp at h
    · split at h
      · simp only [Option.some.injEq, Prod.mk.injEq] at h
        obtain ⟨_, hw⟩ := h
        subst hw
        simp
      · simp at h
    · simp at h

theorem validLoop_fuel : ∀ (fuel fuel' : Nat) (bs : List Byte), bs.length ≤ fuel →
    bs.length ≤ fuel' → validLoop fuel bs = validLoop fuel' bs := by
  intro fuel
  induction fuel with
  | zero =>
    intro fuel' bs h _
    have : bs = [] := List.length_eq_zero.mp (by omega)
    subst this
    simp [validLoop]
  | succ fuel ih =>
    intro fuel' bs h h'
    cases bs with
    | nil => simp [validLoop]
    | cons b bs =>
      cases fuel' with
      | zero => simp at h'
      | succ fuel' =>
        simp only [validLoop]
        cases hd : decodeRune (b :: bs) with
        | none => rfl
        | some rw =>
          obtain ⟨r, w⟩ := rw
          have hw := decodeRune_width _ _ _ hd
          simp only
          apply ih
          · simp only [List.length_drop]
            omega
          · simp only [List.length_drop]
            omega

theorem rangeLoop_fuel : ∀ (fuel fuel' off : Nat) (bs : List Byte), bs.length ≤ fuel →
    bs.length ≤ fuel' → rangeLoop fuel off bs = rangeLoop fuel' off bs := by
  intro fuel
  induction fuel with
  | zero =>
    intro fuel' off bs h _
    have : bs = [] := List.length_eq_zero.mp (by omega)
    subst this
    simp [rangeLoop]
  | succ fuel ih =>
    intro fuel' off bs h h'
    cases bs with
    | nil => simp [rangeLoop]
    | cons b bs =>
      cases fuel' with
      | zero => simp at h'
      | succ fuel' =>
        simp only [rangeLoop]
        cases hd : decodeRune (b :: bs) with
        | none =>
          simp only [List.length_cons] at h h'
          simp only
          rw [ih fuel' (off + 1) bs (by omega) (by omega)]
        | some rw =>
          obtain ⟨r, w⟩ := rw
          have hw := decodeRune_width _ _ _ hd
          simp only
          rw [ih fuel' (off + w) _ (by simp only [List.length_drop]; omega)
            (by simp only [List.length_drop]; omega)]

theorem zeroByte : (Fin.ofNat minUnicodeRuneValue : Byte) = 0 := rfl

theorem createLoop_ok : ∀ (atts : List (List Byte)) (ck : List Byte),
    (∀ a ∈ atts, attributeAllowed a) →
      createLoop ck atts = (ck ++ joinComponents atts, none) := by
  intro atts
  induction atts with
  | nil =>
    intro ck _
    simp [createLoop, joinComponents]
  | cons a atts ih =>
    intro ck h
    have ha := (validate_none_iff a).mpr (h a (List.mem_cons_self _ _))
    simp only [createLoop, ha]
    rw [ih _ (fun x hx => h x (List.mem_cons_of_mem _ hx))]
    simp [joinComponents]

theorem createLoop_fail : ∀ (atts : List (List Byte)) (ck : List Byte),
    (∃ a ∈ atts, ¬ attributeAllowed a) → ∃ e, createLoop ck atts = ([], some e) := by
  intro atts
  induction atts with
  | nil =>
    intro ck h
    obtain ⟨a, ha, _⟩ := h
    simp at ha
  | cons a atts ih =>
    intro ck h
    simp only [createLoop]
    cases hv : validateCompositeKeyAttribute a with
    | some err => exact ⟨err, rfl⟩
    | none =>
      have hall := (validate_none_iff a).mp hv
      obtain ⟨x, hx, hnot⟩ := h
      rcases List.mem_cons.mp hx with rfl | hx
      · exact absurd hall hnot
      · exact ih _ ⟨x, hx, hnot⟩

theorem splitFold_skip (ck : List Byte) : ∀ (l : List Nat) (st : Nat × List (List Byte)),
    (∀ i ∈ l, ck.get? i ≠ some 0) → l.foldl (splitStep ck) st = st := by
  intro l
  induction l with
  | nil => intro st _; rfl
  | cons i l ih =>
    intro st h
    have hi := h i (List.mem_cons_self _ _)
    simp only [List.foldl_cons, splitStep, zeroByte, hi, if_false]
    exact ih st (fun j hj => h j (List.mem_cons_of_mem _ hj))

theorem splitFold_component (pre c rest : List Byte) (acc : List (List Byte))
    (hc : (0 : Byte) ∉ c) :
    (List.range' pre.length (c.length + 1)).foldl (splitStep (pre ++ c ++ 0 :: rest))
      (pre.length, acc) = (pre.length + c.length + 1, acc ++ [c]) := by
  have hskip := splitFold_skip (pre ++ c ++ 0 :: rest) (List.range' pre.length c.length)
    (pre.length, acc) (by
      intro i hi
      rw [List.mem_range'_1] at hi
      rw [List.get?_eq_getElem?, List.append_assoc, List.getElem?_append_right hi.1,
        List.getElem?_append_left (by omega)]
      intro hz
      exact hc (List.mem_iff_getElem?.mpr ⟨_, hz⟩))
  have hget : (pre ++ c ++ 0 :: rest).get? (pre.length + c.length) = some 0 := by
    rw [List.get?_eq_getElem?, List.getElem?_append_right (by simp)]
    simp
  have htake : (pre ++ c ++ 0 :: rest).take (pre.length + c.length) = pre ++ c := by
    rw [List.take_append_eq_append_take]
    simp
  rw [List.range'_1_concat, List.foldl_append, hskip]
  simp only [List.foldl_cons, List.foldl_nil, splitStep, zeroByte, hget, if_true, htake,
    List.drop_left]

theorem splitFold_all : ∀ (comps : List (List Byte)) (pre : List Byte)
    (acc : List (List Byte)), (∀ c ∈ comps, (0 : Byte) ∉ c) →
      (List.range' pre.length (joinComponents comps).length).foldl
        (splitStep (pre ++ joinComponents comps)) (pre.length, acc) =
        (pre.length + (joinComponents comps).length, acc ++ comps) := by
  intro comps
  induction comps with
  | nil =>
    intro pre acc _
    simp [joinComponents]
  | cons c cs ih =>
    intro pre acc h
    have hlen : (joinComponents (c :: cs)).length =
        (joinComponents cs).length + (c.length + 1) := by
      simp only [joinComponents, List.length_append, List.length_singleton]
      omega
    have hck : pre ++ joinComponents (c :: cs) = pre ++ c ++ 0 :: joinComponents cs := by
      simp [joinComponents, zeroByte]
    have hck2 : pre ++ c ++ 0 :: joinComponents cs = (pre ++ c ++ [0]) ++ joinComponents cs := by
      simp
    have hpre : (pre ++ c ++ [0]).length = pre.length + (c.length + 1) := by
      simp only [List.length_append, List.length_singleton]
      omega
    have hih := ih (pre ++ c ++ [0]) (acc ++ [c]) (fun x hx => h x (List.mem_cons_of_mem _ hx))
    rw [hpre, ← hck2] at hih
    have hcomp := splitFold_component pre c (joinComponents cs) acc (h c (List.mem_cons_self _ _))
    have hs : pre.length + c.length + 1 = pre.length + (c.length + 1) := by omega
    rw [hs] at hcomp
    rw [hlen, ← List.range'_append_1, List.foldl_append, hck, hcomp, hih]
    simp only [List.append_assoc, List.singleton_append, Prod.mk.injEq, and_true]
    omega

theorem splitComponents_join (comps : List (List Byte)) (h : ∀ c ∈ comps, (0 : Byte) ∉ c) :
    splitComponents (compositeKeyNamespace ++ joinComponents comps) = comps := by
  unfold splitComponents
  have hl : (compositeKeyNamespace ++ joinComponents comps).length - 1 =
      (joinComponents comps).length := by
    simp [compositeKeyNamespace]
  have h1 : (1 : Nat) = compositeKeyNamespace.length := rfl
  rw [hl]
  have := splitFold_all comps compositeKeyNamespace [] h
  rw [← h1] at this
  rw [this]
  simp

/-- The second output of a two-output method, when its declared type is of a
kind that has a nil (an interface such as `error`, or a pointer): a non-nil
error `e` makes `Handler` return exactly `e` with a nil value, and nil makes it
return the first output with a nil error. -/
theorem Handler_two_outputs (env : Env) (rpc : rpcImpl) (req : Request)
    (baseParam args : List Value) (svc : service) (mtype : methodType) (out0 out1 : Value)
    (t : GoType)
    (hread : rpc.readRequest env req baseParam = .ok (.ok (svc, mtype, args)))
    (hcall : mtype.method.func args = .ok [out0, out1])
    (ht : mtype.method.typ.outs.get? 1 = some t) (hk : t.kind.nillable = true) :
    (∀ e, out1 = .err e → rpc.Handler env req baseParam = .ok (.nil, some e)) ∧
    (out1 = .nil → rpc.Handler env req baseParam = .ok (out0, none)) := by
  have ht' : mtype.method.typ.outs[1]? = some t := by simpa using ht
  constructor
  · intro e he
    subst he
    simp [rpcImpl.Handler, hread, service.call, hcall, ht', hk]
  · intro he
    subst he
    simp [rpcImpl.Handler, hread, service.call, hcall, ht', hk]

/-- When an exported method of the receiver breaks a signature rule, `Register`
and `RegisterName` fail: they return an error and leave the registry as it was,
so that no method of the receiver is stored, the valid ones included.  The
error is that of `suitableMethods` when the name checks pass. -/
theorem register_rejects_invalid_method (env : Env) (rpc : rpcImpl) (rcvr : Receiver)
    (name : String) (useName : Bool) (m : Method) (hm : m ∈ rcvr.methods)
    (hexp : m.pkgPath = "") (hbad : signatureOK env m = false) :
    (rpc.register env rcvr name useName).2 ≠ none ∧
    (rpc.register env rcvr name useName).1 = rpc ∧
    (∃ e, suitableMethods env rcvr.methods = .error e ∧
      (resolvedName rcvr name useName ≠ "" →
        (useName = true ∨ isExported env (resolvedName rcvr name useName) = true) →
        (rpc.register env rcvr name useName).2 = some e)) := by
  obtain ⟨e, he⟩ := suitableMethodsLoop_rejects env m hexp hbad rcvr.methods [] hm
  have he' : suitableMethods env rcvr.methods = .error e := he
  refine ⟨?_, ?_, e, he', ?_⟩
  · rcases register_cases env rpc rcvr name useName with h | ⟨ms, hms, _⟩
    · exact h.2
    · rw [he'] at hms; cases hms
  · rcases register_cases env rpc rcvr name useName with h | ⟨ms, hms, _⟩
    · exact h.1
    · rw [he'] at hms; cases hms
  · intro hne hexp'
    have h1 : ¬ ((resolvedName rcvr name useName == "") = true) := by simpa using hne
    have h2 : ¬ ((!isExported env (resolvedName rcvr name useName) && !useName) = true) := by
      rcases hexp' with h | h <;> simp [h]
    unfold rpcImpl.register
    unfold resolvedName at h1 h2
    simp only
    generalize (if useName = true then name else rcvr.indirectType.name) = sname at h1 h2
    simp [h1, h2, he']

/-- The registration of `&Mixed{}` fails because of `Triple` and stores nothing. -/
theorem register_rejects_invalid_method_at_mixed :
    (mixedTriple ∈ mixedObject.methods ∧ mixedTriple.pkgPath = "" ∧
      signatureOK stdEnv mixedTriple = false) ∧
    (New.Register stdEnv mixedObject).2 ≠ none ∧
    (New.Register stdEnv mixedObject).1 = New :=
  have h := register_rejects_invalid_method stdEnv New mixedObject "" false mixedTriple
    (by simp [mixedObject]) rfl (by decide)
  ⟨⟨by simp [mixedObject], rfl, by decide⟩, h.1, h.2.1⟩

/-! ## The claims -/

/-- C1 (as stated, refuted): with the encoded value exactly as the wire example
writes it, the JSON text `"\"World\""` of eleven characters, the registration of
`Greeter` succeeds and `Handler` returns the success value `Hello "World"`, which
keeps the inner quotes and is not `Hello World`. -/
theorem C1_wire_example_keeps_quotes :
    (New.Register stdEnv greeter).2 = none ∧
    greeterRpc.Handler stdEnv ⟨"Greeter.Hello", some [some "\"\\\"World\\\"\""]⟩ [ctx]
      = .ok (.str "Hello \"World\"", none) ∧
    greeterRpc.Handler stdEnv ⟨"Greeter.Hello", some [some "\"\\\"World\\\"\""]⟩ [ctx]
      ≠ .ok (.str "Hello World", none) := by
  decide

/-- C1 (amended): after `Register` of the service `Greeter` whose method
`Hello(ctx, name string)` returns `"Hello " + name`, `Handler` called with the
request `Greeter.Hello` whose one param is the JSON text `"World"` (the seven
characters, quotes included) and with one base parameter returns a nil error and
the success value `Hello World`, for every decoder that decodes that text to the
string `World`. -/
theorem C1_greeter_end_to_end (env : Env) (stub : Value)
    (hG : env.isUpper 'G' = true) (hI : env.isUpper 'I' = true)
    (hdec : env.unmarshal "\"World\"" GoType.tString = .ok (.str "World")) :
    (New.Register env greeter).2 = none ∧
    (New.Register env greeter).1.Handler env ⟨"Greeter.Hello", some [some "\"World\""]⟩ [stub]
      = .ok (.str "Hello World", none) := by
  have hname : isExported env "Greeter" = true := by simpa [isExported] using hG
  have hstub : isExportedOrBuiltinType env tStub = true := by
    simp [isExportedOrBuiltinType, tStub, GoType.stripPtr, GoType.kind, GoType.name, isExported, hI]
  have hstr : isExportedOrBuiltinType env GoType.tString = true := by
    simp [isExportedOrBuiltinType, GoType.tString, GoType.stripPtr, GoType.pkgPath]
  have hsm : suitableMethods env greeter.methods = .ok [("Hello", greeterHelloType)] := by
    simp [suitableMethods, suitableMethodsLoop, suitableMethod, suitableArgs, suitableArgsLoop,
      greeter, greeterHello, hstub, hstr, checkReplyType, checkLastReplyType, FuncType.NumOut,
      mapStore, greeterHelloType]
  have hreg : New.Register env greeter = (⟨[("Greeter", greeterService)]⟩, none) := by
    have hn : greeter.indirectType.name = "Greeter" := by decide
    simp [rpcImpl.Register, rpcImpl.register, hn, hname, hsm, rpcImpl.LoadOrStore, New,
      greeterService]
  have hlook : rpcImpl.readRequestServiceMethod ⟨[("Greeter", greeterService)]⟩
      ⟨"Greeter.Hello", some [some "\"World\""]⟩ = .ok (greeterService, greeterHelloType) := by
    rfl
  have hconv : convert env (some "\"World\"") GoType.tString = .ok (.ok (.str "World")) := by
    have hdec' : env.unmarshal "\"World\"" (GoType.builtin "string" Kind.string) =
        .ok (.str "World") := hdec
    simp [convert_eq, hdec', GoType.tString, GoType.kind]
  rw [hreg]
  refine ⟨rfl, ?_⟩
  simp only [rpcImpl.Handler]
  rw [readRequest_arity_pass env _ _ [stub] _ _ hlook rfl rfl]
  simp [decodeParams, Request.params, greeterHello, hconv, setIndex, service.call, greeter,
    greeterHelloType, greeterService]

/-- C1 (amended), at the concrete environment. -/
theorem C1_greeter_end_to_end_witness :
    (stdEnv.isUpper 'G' = true ∧ stdEnv.isUpper 'I' = true ∧
      stdEnv.unmarshal "\"World\"" GoType.tString = .ok (.str "World")) ∧
    (New.Register stdEnv greeter).2 = none ∧
    (New.Register stdEnv greeter).1.Handler stdEnv
      ⟨"Greeter.Hello", some [some "\"World\""]⟩ [ctx] = .ok (.str "Hello World", none) :=
  ⟨⟨by decide, by decide, rfl⟩, C1_greeter_end_to_end stdEnv ctx (by decide) (by decide) rfl⟩

/-- C2: for a request that resolves to a method, with any base parameters, the
number of params required is the number of declared parameters (receiver
excluded) minus the number of base parameters; a request with absent params has
0 params; and when the request's number of params differs from the required
one, `Handler` returns the error `rpc: params not matched. got <n>, need <r>`
with a nil value.  The result is the same for every decoder and every method
body, so no param is decoded and the method is not invoked. -/
theorem C2_arity_mismatch (env : Env) (rpc : rpcImpl) (req : Request)
    (baseParam : List Value) (svc : service) (mtype : methodType)
    (hlook : rpc.readRequestServiceMethod req = .ok (svc, mtype))
    (hne : (req.params.length : Int) ≠
      (mtype.method.typ.params.length : Int) - (baseParam.length : Int)) :
    (req.Params = none → req.params.length = 0) ∧
    ((mtype.method.typ.NumIn : Int) - (baseParam.length : Int) - 1 =
      (mtype.method.typ.params.length : Int) - (baseParam.length : Int)) ∧
    rpc.Handler env req baseParam =
      .ok (.nil, some (errorsNew ("rpc: params not matched. got " ++
        toString req.params.length ++ ", need " ++
        toString ((mtype.method.typ.params.length : Int) - (baseParam.length : Int))))) := by
  refine ⟨?_, ?_, ?_⟩
  · intro h; simp [Request.params, h]
  · simp only [FuncType.NumIn]; push_cast; ring
  · simp only [rpcImpl.Handler, readRequest_arity_fail env rpc req baseParam svc mtype hlook hne]

/-- C2, at the service `Greeter` with a request of two nil entries where one
param is needed: decoding either entry would panic, and the answer is the arity
error. -/
theorem C2_arity_mismatch_witness :
    (greeterRpc.readRequestServiceMethod ⟨"Greeter.Hello", some [none, none]⟩ =
        .ok (greeterService, greeterHelloType) ∧
      ((Request.params ⟨"Greeter.Hello", some [none, none]⟩).length : Int) ≠
        (greeterHelloType.method.typ.params.length : Int) - (([ctx] : List Value).length : Int)) ∧
    greeterRpc.Handler stdEnv ⟨"Greeter.Hello", some [none, none]⟩ [ctx] =
      .ok (.nil, some (errorsNew "rpc: params not matched. got 2, need 1")) :=
  ⟨⟨rfl, by decide⟩,
    (C2_arity_mismatch stdEnv greeterRpc ⟨"Greeter.Hello", some [none, none]⟩ [ctx]
      greeterService greeterHelloType rfl (by decide)).2.2⟩

/-- C3: for a request that resolves to a registered method, passes the arity
check and whose params all decode, `readRequest` returns the argument vector
`[receiver, base_1, ..., base_k, decoded_1, ..., decoded_n]`, where `decoded_i`
is param `i` decoded against declared parameter type number `k + i`, and the
method is invoked on exactly that vector: what `Handler` returns is decided by
what `Func.Call` of the method returns on it.  A panic of the method on the
vector is the panic of `Handler`; a single output is the value returned; of two
outputs (the second declared of a kind that has a nil) a non-nil error is the
error returned, and with a nil second output the first is the value returned. -/
theorem C3_argument_vector (env : Env) (rpc : rpcImpl) (req : Request)
    (baseParam decoded : List Value) (svc : service) (mtype : methodType)
    (hreach : Reachable env rpc)
    (hlook : rpc.readRequestServiceMethod req = .ok (svc, mtype))
    (harity : req.params.length + baseParam.length = mtype.method.typ.params.length)
    (hlen : decoded.length = req.params.length)
    (hdec : ∀ i p, req.params.get? i = some p →
      ∃ t v, mtype.method.typ.params.get? (baseParam.length + i) = some t ∧
        decoded.get? i = some v ∧ convert env p t = .ok (.ok v)) :
    rpc.readRequest env req baseParam =
      .ok (.ok (svc, mtype, [svc.rcvr] ++ baseParam ++ decoded)) ∧
    (∀ v, mtype.method.func ([svc.rcvr] ++ baseParam ++ decoded) = .panic v →
      rpc.Handler env req baseParam = .panic v) ∧
    (∀ out, mtype.method.func ([svc.rcvr] ++ baseParam ++ decoded) = .ok [out] →
      rpc.Handler env req baseParam = .ok (out, none)) ∧
    (∀ out0 out1 t, mtype.method.func ([svc.rcvr] ++ baseParam ++ decoded) = .ok [out0, out1] →
      mtype.method.typ.outs.get? 1 = some t → t.kind.nillable = true →
      (∀ e, out1 = .err e → rpc.Handler env req baseParam = .ok (.nil, some e)) ∧
      (out1 = .nil → rpc.Handler env req baseParam = .ok (out0, none))) := by
  have hr := reachable_registered env rpc req svc mtype hreach hlook
  have h1 := readRequest_arity_pass env rpc req baseParam svc mtype hlook hr.argTypes_eq harity
  have h2 := decodeParams_ok env mtype.method.typ.params baseParam.length req.params 0
    ([svc.rcvr] ++ baseParam) (List.replicate req.params.length Value.nil) [] decoded
    (by simp) (by simp) hlen
    (by
      intro j p hp
      obtain ⟨t, v, ht, hv, hc⟩ := hdec j p hp
      exact ⟨t, v, by simpa using ht, hv, hc⟩)
  simp only [List.append_nil] at h2
  rw [h2] at h1
  generalize [svc.rcvr] ++ baseParam ++ decoded = args at h1 ⊢
  refine ⟨h1, ?_, ?_, ?_⟩
  · intro v hv
    simp [rpcImpl.Handler, h1, service.call, hv]
  · intro out hout
    simp [rpcImpl.Handler, h1, service.call, hout]
  · intro out0 out1 t hcall ht hk
    have ht' : mtype.method.typ.outs[1]? = some t := by simpa using ht
    constructor
    · intro e he
      subst he
      simp [rpcImpl.Handler, h1, service.call, hcall, ht', hk]
    · intro he
      subst he
      simp [rpcImpl.Handler, h1, service.call, hcall, ht', hk]

/-- C3, at the method `Sub` of the service `Calc` with the params `7` and `5`:
the vector is the receiver, the context, 7 and 5 in that order, the method
returns `(2, nil)` on it, and `Handler` returns 2. -/
theorem C3_argument_vector_witness :
    calcRpc.readRequest stdEnv ⟨"Calc.Sub", some [some "7", some "5"]⟩ [ctx] =
      .ok (.ok (calcService, calcSubType, [calcObject.value, ctx, .int 7, .int 5])) ∧
    calcSub.func [calcObject.value, ctx, .int 7, .int 5] = .ok [.int 2, .nil] ∧
    calcRpc.Handler stdEnv ⟨"Calc.Sub", some [some "7", some "5"]⟩ [ctx] = .ok (.int 2, none) :=
  have h := C3_argument_vector stdEnv calcRpc ⟨"Calc.Sub", some [some "7", some "5"]⟩ [ctx]
    [.int 7, .int 5] calcService calcSubType
    (Reachable.register calcObject "" false (Reachable.register greeter "" false .new))
    rfl rfl rfl
    (by
      intro i p hp
      match i, hp with
      | 0, hp =>
        have : p = some "7" := by simpa [Request.params] using hp.symm
        subst this
        exact ⟨GoType.tInt, .int 7, rfl, rfl, rfl⟩
      | 1, hp =>
        have : p = some "5" := by simpa [Request.params] using hp.symm
        subst this
        exact ⟨GoType.tInt, .int 5, rfl, rfl, rfl⟩
      | i + 2, hp => simp [Request.params] at hp)
  ⟨h.1, by decide,
    (h.2.2.2 (.int 2) .nil GoType.tError (by decide) rfl rfl).2 rfl⟩

/-- C4: for a request that resolves to a registered method and passes the arity
check, if param `i` holds the raw text `raw`, decoding it against its target
type `t` (declared parameter type number `k + i`) fails with the error `e`, and
every earlier param decodes, then `Handler` returns a nil value and the error
`rpc: convert param faild. expect <t>, found=<raw>, error: <e>`, which names the
target type and echoes the raw text.  The result is the same for every method
body, so the method is not invoked. -/
theorem C4_first_decode_failure (env : Env) (rpc : rpcImpl) (req : Request)
    (baseParam : List Value) (svc : service) (mtype : methodType)
    (i : Nat) (raw : String) (t : GoType) (e : GoError)
    (hreach : Reachable env rpc)
    (hlook : rpc.readRequestServiceMethod req = .ok (svc, mtype))
    (harity : req.params.length + baseParam.length = mtype.method.typ.params.length)
    (hi : req.params.get? i = some (some raw))
    (ht : mtype.method.typ.params.get? (baseParam.length + i) = some t)
    (hfail : convert env (some raw) t = .ok (.error e))
    (hprev : ∀ j p, j < i → req.params.get? j = some p →
      ∃ t' v, mtype.method.typ.params.get? (baseParam.length + j) = some t' ∧
        convert env p t' = .ok (.ok v)) :
    rpc.Handler env req baseParam =
      .ok (.nil, some (errorsNew ("rpc: convert param faild. expect " ++ t.string ++
        ", found=" ++ raw ++ ", error: " ++ e.Error ++ "\n"))) := by
  have hr := reachable_registered env rpc req svc mtype hreach hlook
  have h1 := readRequest_arity_pass env rpc req baseParam svc mtype hlook hr.argTypes_eq harity
  have h2 := decodeParams_err env mtype.method.typ.params baseParam.length req.params 0
    ([svc.rcvr] ++ baseParam) (List.replicate req.params.length Value.nil) [] i raw t e
    (by simp) (by simp) hi (by simpa using ht) hfail
    (by
      intro j p hj hp
      obtain ⟨t', v, ht', hc⟩ := hprev j p hj hp
      exact ⟨t', v, by simpa using ht', hc⟩)
  simp only [List.append_nil] at h2
  rw [h2] at h1
  simp only [rpcImpl.Handler, h1]

/-- C4, at the service `Calc`: the text `"x"` sent for the second `int`
parameter of `Sub`, after a first param that decodes. -/
theorem C4_first_decode_failure_witness :
    calcRpc.Handler stdEnv ⟨"Calc.Sub", some [some "5", some "\"x\""]⟩ [ctx] =
      .ok (.nil, some (errorsNew ("rpc: convert param faild. expect int, found=\"x\", " ++
        "error: json: cannot unmarshal string into Go value of type int\n"))) :=
  C4_first_decode_failure stdEnv calcRpc ⟨"Calc.Sub", some [some "5", some "\"x\""]⟩ [ctx]
    calcService calcSubType 1 "\"x\"" GoType.tInt (jsonTypeError "string" GoType.tInt)
    (Reachable.register calcObject "" false (Reachable.register greeter "" false .new))
    rfl rfl rfl rfl rfl
    (by
      intro j p hj hp
      have hj0 : j = 0 := by omega
      subst hj0
      have : p = some "5" := by simpa [Request.params] using hp.symm
      subst this
      exact ⟨GoType.tInt, .int 5, rfl, rfl⟩)

/-- C5 (failing input): `Calc.Check` has the outputs `(string, StatusError)`,
where the struct type `StatusError` implements `error`, so `Register` accepts
it.  The method returns `("checked", StatusError{7})`, a non-nil error as second
output, but `Handler` does not return that error: `IsNil` panics on the struct
value, and the caller of `recoverHandler` sees the message of that panic. -/
theorem C5_struct_error_output_panics :
    (greeterRpc.Register stdEnv calcObject).2 = none ∧
    calcCheck.func [calcObject.value, ctx, .int 7] =
      .ok [.str "checked", .err (.plain "main.StatusError" "status 7")] ∧
    calcRpc.Handler stdEnv ⟨"Calc.Check", some [some "7"]⟩ [ctx] =
      .panic (isNilPanic .struct) ∧
    recoverHandler stdEnv calcRpc ctx ⟨"Calc.Check", some [some "7"]⟩ =
      (.nil, some (.plain "*reflect.ValueError"
        "reflect: call of reflect.Value.IsNil on struct Value")) := by
  decide

/-- C6 (as stated, refuted): `Faulty.Raise` called with `how = 0` raises
`panic(nil)`; `recover()` then returns nil, the deferred function assigns
nothing, and `recoverHandler` returns a nil result with a nil error. -/
theorem C6_panic_nil_is_success :
    faultyRpc.Handler stdEnv (raise "0") [ctx] = .panic .nil ∧
    recoverHandler stdEnv faultyRpc ctx (raise "0") = (.nil, none) := by
  decide

/-- C6 (amended): whenever `Handler` panics with a non-nil value (raised during
lookup, decoding or by the invoked method), `recoverHandler` returns normally
with a nil result and a non-nil error, the one the type switch assigns. -/
theorem C6_panic_recovered (env : Env) (rpc : rpcImpl) (stub : Value) (req : Request)
    (re : Value) (hpanic : rpc.Handler env req [stub] = .panic re) (hre : re ≠ .nil) :
    recoverHandler env rpc stub req = (.nil, some (recovered env re)) ∧
    (recoverHandler env rpc stub req).1 = .nil ∧
    (recoverHandler env rpc stub req).2 ≠ none := by
  have h : recoverHandler env rpc stub req = (.nil, some (recovered env re)) := by
    simp only [recoverHandler, hpanic]
    rw [if_pos hre]
  exact ⟨h, by rw [h], by rw [h]; simp⟩

/-- C6 (amended), at the panic `panic(42)` of `Faulty.Raise`. -/
theorem C6_panic_recovered_witness :
    (faultyRpc.Handler stdEnv (raise "6") [ctx] = .panic (.int 42) ∧ Value.int 42 ≠ .nil) ∧
    recoverHandler stdEnv faultyRpc ctx (raise "6") =
      (.nil, some (errorsNew "ERR: ohter error type:int, value:42")) :=
  ⟨⟨by decide, by decide⟩,
    (C6_panic_recovered stdEnv faultyRpc ctx (raise "6") (.int 42) (by decide) (by decide)).1⟩

/-- C7: whenever `Handler` panics with a value that is a `runtime.Error`,
`recoverHandler` returns a nil result and the fixed error `contract.ErrRuntime`,
whatever the type and the text of the fault. -/
theorem C7_runtime_fault_fixed_error (env : Env) (rpc : rpcImpl) (stub : Value)
    (req : Request) (typ msg : String)
    (hpanic : rpc.Handler env req [stub] = .panic (.err (.runtime typ msg))) :
    recoverHandler env rpc stub req = (.nil, some env.ErrRuntime) := by
  simp [recoverHandler, hpanic, recovered]

/-- C7, at the index out of range of `Faulty.Raise`. -/
theorem C7_runtime_fault_fixed_error_witness :
    faultyRpc.Handler stdEnv (raise "4") [ctx] = .panic (boundsError 1 0) ∧
    recoverHandler stdEnv faultyRpc ctx (raise "4") = (.nil, some (errorsNew "runtime error")) :=
  ⟨by decide,
    C7_runtime_fault_fixed_error stdEnv faultyRpc ctx (raise "4") "runtime.boundsError"
      "runtime error: index out of range [1] with length 0" (by decide)⟩

/-- C8: two panics with internal errors (by value or by pointer) that have the
same external message give the same result of `recoverHandler`: a nil value and
an error whose message is exactly the external message, whatever the internal
messages are. -/
theorem C8_internal_message_hidden (env : Env) (rpc₁ rpc₂ : rpcImpl) (stub₁ stub₂ : Value)
    (req₁ req₂ : Request) (e₁ e₂ : InternalError) (b₁ b₂ : Bool)
    (h₁ : rpc₁.Handler env req₁ [stub₁] = .panic (.err (.internal e₁ b₁)))
    (h₂ : rpc₂.Handler env req₂ [stub₂] = .panic (.err (.internal e₂ b₂)))
    (hext : e₁.external = e₂.external) :
    recoverHandler env rpc₁ stub₁ req₁ = recoverHandler env rpc₂ stub₂ req₂ ∧
    recoverHandler env rpc₁ stub₁ req₁ = (.nil, some (errorsNew e₁.external)) ∧
    (errorsNew e₁.external).Error = e₁.external := by
  have k₁ : recoverHandler env rpc₁ stub₁ req₁ = (.nil, some (errorsNew e₁.external)) := by
    cases b₁ <;> simp [recoverHandler, h₁, recovered]
  have k₂ : recoverHandler env rpc₂ stub₂ req₂ = (.nil, some (errorsNew e₂.external)) := by
    cases b₂ <;> simp [recoverHandler, h₂, recovered]
  exact ⟨by rw [k₁, k₂, hext], k₁, rfl⟩

/-- C8, at the internal errors raised by value and by pointer by `Faulty.Raise`. -/
theorem C8_internal_message_hidden_witness :
    recoverHandler stdEnv faultyRpc ctx (raise "1") =
      recoverHandler stdEnv faultyRpc ctx (raise "2") ∧
    recoverHandler stdEnv faultyRpc ctx (raise "1") = (.nil, some (errorsNew "busy")) :=
  have h := C8_internal_message_hidden stdEnv faultyRpc faultyRpc ctx ctx (raise "1") (raise "2")
    ⟨"db row 17 locked", "busy"⟩ ⟨"db row 17 locked", "busy"⟩ false true
    (by decide) (by decide) rfl
  ⟨h.1, h.2.1⟩

/-- C9: the type switch of `recoverHandler` on a recovered value takes the first
case that matches, in the order internal error, string, `runtime.Error`, other
error, anything else.  An internal error gives its external message; a string
`s` gives an error with message exactly `s`; a `runtime.Error` gives
`ErrRuntime`; any other error is returned itself; a value of any other dynamic
type gives the error `ERR: ohter error type:<type>, value:<value>`. -/
theorem C9_panic_classification (env : Env) (rpc : rpcImpl) (stub : Value) (req : Request)
    (re : Value) (hpanic : rpc.Handler env req [stub] = .panic re) :
    (∀ v b, re = .err (.internal v b) →
      recoverHandler env rpc stub req = (.nil, some (errorsNew v.external))) ∧
    (∀ s, re = .str s →
      recoverHandler env rpc stub req = (.nil, some (errorsNew s)) ∧ (errorsNew s).Error = s) ∧
    (∀ typ msg, re = .err (.runtime typ msg) →
      recoverHandler env rpc stub req = (.nil, some env.ErrRuntime)) ∧
    (∀ typ msg, re = .err (.plain typ msg) →
      recoverHandler env rpc stub req = (.nil, some (.plain typ msg)) ∧
      (GoError.plain typ msg).Error = msg) ∧
    (re ≠ .nil → (∀ s, re ≠ .str s) → (∀ e, re ≠ .err e) →
      recoverHandler env rpc stub req = (.nil, some (errorsNew
        ("ERR: ohter error type:" ++ env.typeOf re ++ ", value:" ++ env.format re)))) := by
  refine ⟨?_, ?_, ?_, ?_, ?_⟩
  · intro v b h
    subst h
    cases b <;> simp [recoverHandler, hpanic, recovered]
  · intro s h
    subst h
    exact ⟨by simp [recoverHandler, hpanic, recovered], rfl⟩
  · intro typ msg h
    subst h
    simp [recoverHandler, hpanic, recovered]
  · intro typ msg h
    subst h
    exact ⟨by simp [recoverHandler, hpanic, recovered], rfl⟩
  · intro h0 hs he
    cases re with
    | nil => exact absurd rfl h0
    | str s => exact absurd rfl (hs s)
    | err e => exact absurd rfl (he e)
    | bool b => simp [recoverHandler, hpanic, recovered]
    | int n => simp [recoverHandler, hpanic, recovered]
    | ptr v => simp [recoverHandler, hpanic, recovered]
    | other typ repr => simp [recoverHandler, hpanic, recovered]

/-- C9, at the string panic of `Faulty.Raise`. -/
theorem C9_panic_classification_witness :
    faultyRpc.Handler stdEnv (raise "3") [ctx] = .panic (.str "no funds") ∧
    recoverHandler stdEnv faultyRpc ctx (raise "3") = (.nil, some (errorsNew "no funds")) :=
  ⟨by decide,
    ((C9_panic_classification stdEnv faultyRpc ctx (raise "3") (.str "no funds")
      (by decide)).2.1 "no funds" rfl).1⟩

/-- C10 (as stated, refuted): in the registry that holds `Greeter`, the call
`RegisterName("Greeter", Empty{})` resolves to the registered name but returns
the error of the method check, not the duplicate-service error. -/
theorem C10_duplicate_name_other_error :
    (greeterRpc.Load "Greeter").isSome = true ∧
    resolvedName emptyObject "Greeter" true = "Greeter" ∧
    (greeterRpc.RegisterName stdEnv "Greeter" emptyObject).2 =
      some (errorsNew
        "rpc.Register: type Greeter has no exported methods of suitable type, error: <nil>") ∧
    (greeterRpc.RegisterName stdEnv "Greeter" emptyObject).2 ≠
      some (errorsNew "rpc: service already defined: Greeter") := by
  decide

/-- C10 (amended): when the name a registration resolves to is already
registered, `register` returns an error and the registry it leaves is the one
it was given: the name still maps to the service of the first registration and
`Handler` behaves on every request as before.  The error is the
duplicate-service error whenever the receiver passes the checks that come
first: the name is not empty, it is exported unless given by `RegisterName`, and
`suitableMethods` accepts the method set with at least one method. -/
theorem C10_duplicate_registration (env : Env) (rpc : rpcImpl) (rcvr : Receiver)
    (name : String) (useName : Bool) (svc : service)
    (hdup : rpc.Load (resolvedName rcvr name useName) = some svc) :
    (rpc.register env rcvr name useName).2 ≠ none ∧
    (rpc.register env rcvr name useName).1 = rpc ∧
    (rpc.register env rcvr name useName).1.Load (resolvedName rcvr name useName) = some svc ∧
    (∀ req baseParam, (rpc.register env rcvr name useName).1.Handler env req baseParam =
      rpc.Handler env req baseParam) ∧
    (∀ methods, resolvedName rcvr name useName ≠ "" →
      (useName = true ∨ isExported env (resolvedName rcvr name useName) = true) →
      suitableMethods env rcvr.methods = .ok methods → methods ≠ [] →
      (rpc.register env rcvr name useName).2 =
        some (errorsNew ("rpc: service already defined: " ++ resolvedName rcvr name useName))) := by
  have hcase : (rpc.register env rcvr name useName).1 = rpc ∧
      (rpc.register env rcvr name useName).2 ≠ none := by
    rcases register_cases env rpc rcvr name useName with h | ⟨methods, _, _, _, hnone, _⟩
    · exact h
    · rw [hdup] at hnone; cases hnone
  refine ⟨hcase.2, hcase.1, by rw [hcase.1]; exact hdup, by intro req b; rw [hcase.1], ?_⟩
  intro methods hne hexp hsm hnonempty
  have hl : rpc.serviceMap.lookup (resolvedName rcvr name useName) = some svc := hdup
  have h1 : ¬ ((resolvedName rcvr name useName == "") = true) := by simpa using hne
  have h2 : ¬ ((!isExported env (resolvedName rcvr name useName) && !useName) = true) := by
    rcases hexp with h | h <;> simp [h]
  have h3 : ¬ ((methods.length == 0) = true) := by
    cases methods with
    | nil => exact absurd rfl hnonempty
    | cons m ms => simp
  unfold rpcImpl.register
  unfold resolvedName at hl h1 h2 ⊢
  simp only
  generalize (if useName = true then name else rcvr.indirectType.name) = sname at hl h1 h2 ⊢
  simp [h1, h2, hsm, h3, rpcImpl.LoadOrStore, hl]

/-- C10 (amended), at a second registration under the name `Greeter`. -/
theorem C10_duplicate_registration_witness :
    greeterRpc.Load (resolvedName calcObject "Greeter" true) = some greeterService ∧
    (greeterRpc.RegisterName stdEnv "Greeter" calcObject).2 =
      some (errorsNew "rpc: service already defined: Greeter") ∧
    (greeterRpc.RegisterName stdEnv "Greeter" calcObject).1 = greeterRpc :=
  have h := C10_duplicate_registration stdEnv greeterRpc calcObject "Greeter" true
    greeterService rfl
  ⟨rfl, h.2.2.2.2 [("Check", calcCheckType), ("Sub", calcSubType)] (by decide)
    (Or.inl rfl) rfl (by simp), h.2.1⟩

/-- C11: in every registry that `New` followed by calls of `Register` and
`RegisterName` can produce, every method in the table of every stored service
has exactly one output, or exactly two outputs of which the second implements
`error`; so no table holds a method with zero outputs, with three or more, or
with two outputs whose second does not implement `error`. -/
theorem C11_registered_output_shape (env : Env) (rpc : rpcImpl) (hreach : Reachable env rpc)
    (name : String) (svc : service) (hsvc : (name, svc) ∈ rpc.serviceMap)
    (mname : String) (mt : methodType) (hmt : (mname, mt) ∈ svc.method) :
    (mt.method.typ.outs.length = 1 ∨
      (mt.method.typ.outs.length = 2 ∧
        ∃ t, mt.method.typ.outs.get? 1 = some t ∧ env.implementsError t = true)) ∧
    mt.method.typ.outs.length ≠ 0 ∧ ¬ 3 ≤ mt.method.typ.outs.length ∧
    ¬ (mt.method.typ.outs.length = 2 ∧
        ∃ t, mt.method.typ.outs.get? 1 = some t ∧ env.implementsError t = false) := by
  have hr := reachable_allRegistered env rpc hreach (name, svc) hsvc (mname, mt) hmt
  have hnum : mt.method.typ.outs.length = 1 ∨ mt.method.typ.outs.length = 2 := hr.numOut
  refine ⟨?_, by omega, by omega, ?_⟩
  · rcases hnum with h | h
    · exact Or.inl h
    · refine Or.inr ⟨h, ?_⟩
      match hoo : mt.method.typ.outs, h with
      | [o, o'], _ => exact ⟨o', rfl, hr.lastIsError o' (by simp [hoo])⟩
  · rintro ⟨_, t, ht, hf⟩
    have := hr.lastIsError t ht
    rw [this] at hf
    cases hf

/-- C11, at the method `Sub` of the service `Calc`, which has the outputs
`(int, error)`. -/
theorem C11_registered_output_shape_witness :
    calcSubType.method.typ.outs.length = 2 ∧
    ∃ t, calcSubType.method.typ.outs.get? 1 = some t ∧ stdEnv.implementsError t = true :=
  ((C11_registered_output_shape stdEnv calcRpc
    (Reachable.register calcObject "" false (Reachable.register greeter "" false .new))
    "Calc" calcService
    (by
      have h : calcRpc.serviceMap = [("Greeter", greeterService), ("Calc", calcService)] := rfl
      rw [h]
      exact List.mem_cons_of_mem _ (List.mem_singleton.mpr rfl))
    "Sub" calcSubType (List.mem_cons_of_mem _ (List.mem_singleton.mpr rfl))).1).resolve_left
    (by decide)

/-- C12 (failing input): `&Mixed{}` has a fresh, exported name, the method
`Good` that satisfies every rule and the method `Triple` with three outputs.
`Register` does not store the service with `Good` and without `Triple`: it
returns the error about `Triple` and stores no service, so `Good` is not
callable either, although the same object without `Triple` is registered with
`Good` in its table. -/
theorem C12_invalid_method_fails_registration :
    signatureOK stdEnv mixedGood = true ∧ signatureOK stdEnv mixedTriple = false ∧
    New.Load "Mixed" = none ∧
    (New.Register stdEnv mixedObject).2 = some (errorsNew
      "rpc.Register: method \"Triple\" has 3 output parameters; needs exactly one or two\n") ∧
    (New.Register stdEnv mixedObject).1.methodNames "Mixed" = none ∧
    (New.Register stdEnv mixedObject).1.Handler stdEnv ⟨"Mixed.Good", none⟩ [ctx] =
      .ok (.nil, some (errorsNew "rpc: can't find service Mixed.Good")) ∧
    (New.Register stdEnv ⟨mixedObject.value, mixedObject.typ, [mixedGood], []⟩).2 = none ∧
    (New.Register stdEnv ⟨mixedObject.value, mixedObject.typ, [mixedGood], []⟩).1.methodNames
      "Mixed" = some ["Good"] := by
  refine ⟨by decide, by decide, rfl, by decide, by decide, by decide, by decide, by decide⟩

/-- C13 (as stated, refuted): `[]secret` is a slice whose element type `secret`
is a named type that is neither exported nor builtin, yet
`isExportedOrBuiltinType` accepts it, and `Register` stores the method `Put`
that takes a parameter of that type. -/
theorem C13_slice_of_unexported_accepted :
    isExported stdEnv tSecret.name = false ∧ tSecret.pkgPath ≠ "" ∧
    isExportedOrBuiltinType stdEnv tSecret = false ∧
    isExportedOrBuiltinType stdEnv (.slice tSecret) = true ∧
    GoType.slice tSecret ∈ vaultPut.typ.params ∧
    (New.Register stdEnv vaultObject).2 = none ∧
    (New.Register stdEnv vaultObject).1.methodNames "Vault" = some ["Put"] := by
  refine ⟨by decide, by decide, by decide, by decide, by simp [vaultPut], by decide, by decide⟩

/-- C13 (amended): `isExportedOrBuiltinType` follows element types only through
types of pointer kind and then judges the type it has reached by its own name
and package path.  The answer for `*t`, at any depth, is the answer for `t`; the
answer for a defined type whose underlying type is a pointer is the answer for
that pointer type, whatever the name of the defined type; a defined type that
is not of pointer kind is accepted exactly when its name is exported or its
package path is empty, whatever its underlying type, so a pointer at any depth
to such a type that is neither exported nor builtin is rejected; an unnamed
slice, array or map type is accepted whatever its element type.  A method with
a parameter type or a return type that the check rejects is never stored in the
table: the method is skipped (when unexported) or `suitableMethods` stops with
an error. -/
theorem C13_check_looks_through_pointers_only (env : Env) (t : GoType) :
    isExportedOrBuiltinType env (.ptr t) = isExportedOrBuiltinType env t ∧
    (∀ d, isExportedOrBuiltinType env (Nat.iterate GoType.ptr d t) =
      isExportedOrBuiltinType env t) ∧
    isExportedOrBuiltinType env (.slice t) = true ∧
    (∀ n, isExportedOrBuiltinType env (.array n t) = true) ∧
    (∀ k, isExportedOrBuiltinType env (.map k t) = true) ∧
    (∀ p pkg n, t.kind = .ptr →
      isExportedOrBuiltinType env (.named p pkg n t) = isExportedOrBuiltinType env t) ∧
    (∀ p pkg n, t.kind ≠ .ptr →
      isExportedOrBuiltinType env (.named p pkg n t) = (isExported env n || p == "")) ∧
    (∀ p pkg n u, t = .named p pkg n u → u.kind ≠ .ptr → p ≠ "" → isExported env n = false →
      ∀ d, isExportedOrBuiltinType env (Nat.iterate GoType.ptr d t) = false) ∧
    (∀ (m : Method) (tbl : List (String × methodType)),
      (t ∈ m.typ.params ∨ t ∈ m.typ.outs) → isExportedOrBuiltinType env t = false →
      suitableMethod env tbl m = .ok tbl ∨ ∃ e, suitableMethod env tbl m = .error e) := by
  have hiter : ∀ d, isExportedOrBuiltinType env (Nat.iterate GoType.ptr d t) =
      isExportedOrBuiltinType env t := by
    intro d
    induction d with
    | zero => rfl
    | succ d ih =>
      rw [Function.iterate_succ_apply']
      exact ih
  refine ⟨rfl, hiter, ?_, ?_, ?_, ?_, ?_, ?_, ?_⟩
  · simp [isExportedOrBuiltinType, GoType.stripPtr, GoType.pkgPath]
  · intro n; simp [isExportedOrBuiltinType, GoType.stripPtr, GoType.pkgPath]
  · intro k; simp [isExportedOrBuiltinType, GoType.stripPtr, GoType.pkgPath]
  · intro p pkg n hk
    simp [isExportedOrBuiltinType, GoType.stripPtr, hk]
  · intro p pkg n hk
    simp [isExportedOrBuiltinType, GoType.stripPtr, hk, GoType.name, GoType.pkgPath]
  · intro p pkg n u ht hu hp hn d
    rw [hiter d]
    subst ht
    simp [isExportedOrBuiltinType, GoType.stripPtr, hu, GoType.name, GoType.pkgPath, hn, hp]
  · intro m tbl hmem hrej
    by_cases hexp : m.pkgPath = ""
    · right
      apply suitableMethod_rejects env tbl m hexp
      simp only [signatureOK, Bool.and_eq_false_iff]
      rcases hmem with hmem | hmem
      · left; left
        rw [List.all_eq_false]
        exact ⟨t, hmem, by simp [hrej]⟩
      · left; right
        rw [List.all_eq_false]
        exact ⟨t, hmem, by simp [hrej]⟩
    · left
      exact suitableMethod_skips env tbl m hexp

/-- C13 (amended), at the types `*secret`, `**secret` and `[]secret`, at the
defined slice type `type secrets []int`, which is rejected, and at the defined
pointer type `type hidden *Greeter`, which is accepted with every pointer to
it. -/
theorem C13_check_looks_through_pointers_only_witness :
    isExportedOrBuiltinType stdEnv (.ptr tSecret) = false ∧
    isExportedOrBuiltinType stdEnv (.ptr (.ptr tSecret)) = false ∧
    isExportedOrBuiltinType stdEnv (.slice tSecret) = true ∧
    isExportedOrBuiltinType stdEnv (.named "main" "main" "secrets" (.slice GoType.tInt)) =
      false ∧
    isExportedOrBuiltinType stdEnv (.named "main" "main" "hidden" (.ptr tGreeter)) = true ∧
    isExportedOrBuiltinType stdEnv (.ptr (.named "main" "main" "hidden" (.ptr tGreeter))) =
      true :=
  have h := C13_check_looks_through_pointers_only stdEnv tSecret
  have h' := h.2.2.2.2.2.2.2.1 "main" "main" "secret" (.lit .struct "struct { key string }") rfl
    (by decide) (by decide) (by decide)
  have hs := (C13_check_looks_through_pointers_only stdEnv (.slice GoType.tInt)).2.2.2.2.2.2.1
    "main" "main" "secrets" (by decide)
  have hp := (C13_check_looks_through_pointers_only stdEnv (.ptr tGreeter)).2.2.2.2.2.1
    "main" "main" "hidden" rfl
  ⟨h' 1, h' 2, h.2.2.1, hs.trans (by decide), hp.trans (by decide),
    ((C13_check_looks_through_pointers_only stdEnv
      (.named "main" "main" "hidden" (.ptr tGreeter))).1).trans (hp.trans (by decide))⟩

/-- C14: `Register` files the receiver under the name of its type, after one
dereference of a pointer, and fails with the error `type <name> is not
exported` when that name is not empty and does not start with an upper-case
letter; `RegisterName` files it under the name given and makes no such check,
so that any non-empty fresh name is accepted when the methods are; both fail
with the error `no service name for type <type>` when the name is empty; and
when a registration succeeds the service is stored under exactly that name. -/
theorem C14_service_name (env : Env) (rpc : rpcImpl) (rcvr : Receiver) (name : String) :
    resolvedName rcvr name false = rcvr.indirectType.name ∧
    (∀ t, rcvr.typ = .ptr t → resolvedName rcvr name false = t.name) ∧
    resolvedName rcvr name true = name ∧
    (rcvr.indirectType.name ≠ "" → isExported env rcvr.indirectType.name = false →
      rpc.Register env rcvr = (rpc, some (errorsNew
        ("rpc.Register: type " ++ rcvr.indirectType.name ++ " is not exported")))) ∧
    (∀ methods, name ≠ "" → suitableMethods env rcvr.methods = .ok methods → methods ≠ [] →
      rpc.Load name = none →
      rpc.RegisterName env name rcvr =
        (⟨rpc.serviceMap ++ [(name, ⟨name, rcvr.value, rcvr.typ, methods⟩)]⟩, none)) ∧
    (∀ useName, resolvedName rcvr name useName = "" →
      rpc.register env rcvr name useName = (rpc, some (errorsNew
        ("rpc.Register: no service name for type " ++ rcvr.typ.string)))) ∧
    (∀ useName, (rpc.register env rcvr name useName).2 = none →
      ∃ methods,
        (rpc.register env rcvr name useName).1.serviceMap = rpc.serviceMap ++
          [(resolvedName rcvr name useName,
            ⟨resolvedName rcvr name useName, rcvr.value, rcvr.typ, methods⟩)] ∧
        (rpc.register env rcvr name useName).1.Load (resolvedName rcvr name useName) =
          some ⟨resolvedName rcvr name useName, rcvr.value, rcvr.typ, methods⟩) := by
  refine ⟨rfl, ?_, rfl, ?_, ?_, ?_, ?_⟩
  · intro t ht
    simp [resolvedName, Receiver.indirectType, ht, GoType.kind, GoType.elem]
  · intro hne hexp
    have h1 : ¬ ((rcvr.indirectType.name == "") = true) := by simpa using hne
    simp [rpcImpl.Register, rpcImpl.register, h1, hexp]
  · intro methods hne hsm hnonempty hfresh
    have h1 : ¬ ((name == "") = true) := by simpa using hne
    have h3 : ¬ ((methods.length == 0) = true) := by
      cases methods with
      | nil => exact absurd rfl hnonempty
      | cons m ms => simp
    have hl : rpc.serviceMap.lookup name = none := hfresh
    simp [rpcImpl.RegisterName, rpcImpl.register, h1, hsm, h3, rpcImpl.LoadOrStore, hl]
  · intro useName hempty
    unfold rpcImpl.register
    unfold resolvedName at hempty
    simp only
    generalize (if useName = true then name else rcvr.indirectType.name) = sname at hempty
    subst hempty
    simp
  · intro useName hok
    rcases register_cases env rpc rcvr name useName with h | ⟨methods, _, _, _, hfresh, heq⟩
    · exact absurd hok h.2
    · refine ⟨methods, by rw [heq], ?_⟩
      rw [heq]
      exact lookup_append_new rpc.serviceMap _ _ hfresh

/-- C14, at `RegisterName("greeter", &Greeter{})` on a new registry: the name
starts with a lower-case letter and the service is stored under it. -/
theorem C14_service_name_witness :
    (New.RegisterName stdEnv "greeter" greeter).2 = none ∧
    (New.RegisterName stdEnv "greeter" greeter).1.methodNames "greeter" = some ["Hello"] ∧
    New.RegisterName stdEnv "greeter" greeter =
      (⟨New.serviceMap ++ [("greeter", ⟨"greeter", greeter.value, greeter.typ,
        [("Hello", greeterHelloType)]⟩)]⟩, none) :=
  ⟨by decide, by decide,
    (C14_service_name stdEnv New greeter "greeter").2.2.2.2.1 [("Hello", greeterHelloType)]
      (by decide) rfl (by simp) rfl⟩

/-- C15 (as stated, refuted): the type of the value `helper{}` has no methods
and the pointer to it has the registrable method `Ping`, but the error of
`Register` is the naming error: it carries neither the hint nor the plain
no-suitable-methods diagnostic. -/
theorem C15_unexported_type_naming_error :
    helperObject.methods = [] ∧
    (match suitableMethods stdEnv helperObject.ptrMethods with
      | .ok pm => pm.map Prod.fst
      | .error _ => []) = ["Ping"] ∧
    (New.Register stdEnv helperObject).1.methodNames "helper" = none ∧
    (New.Register stdEnv helperObject).2 =
      some (errorsNew "rpc.Register: type helper is not exported") ∧
    (New.Register stdEnv helperObject).2 ≠
      some (errorsNew ("rpc.Register: type helper has no exported methods of suitable type " ++
        "(hint: pass a pointer to value of that type), error: <nil>")) ∧
    (New.Register stdEnv helperObject).2 ≠
      some (errorsNew
        "rpc.Register: type helper has no exported methods of suitable type, error: <nil>") := by
  refine ⟨rfl, by decide, by decide, by decide, by decide, by decide⟩

/-- C15 (amended): for a receiver whose resolved name passes the name checks
(not empty, and exported unless given by `RegisterName`) and for which
`suitableMethods` yields an empty table, `register` returns an error and
leaves the registry as it was.  The message carries the hint to pass a pointer
when `suitableMethods` yields a non-empty table for the pointer to the type,
and is the plain diagnostic when that table is empty or `suitableMethods`
fails on the pointer type; either is followed by `, error: ` and the error of
that second call (`<nil>` when there is none). -/
theorem C15_no_suitable_methods (env : Env) (rpc : rpcImpl) (rcvr : Receiver)
    (name : String) (useName : Bool)
    (hne : resolvedName rcvr name useName ≠ "")
    (hexp : useName = true ∨ isExported env (resolvedName rcvr name useName) = true)
    (hzero : suitableMethods env rcvr.methods = .ok []) :
    (rpc.register env rcvr name useName).1 = rpc ∧
    (rpc.register env rcvr name useName).2 ≠ none ∧
    (∀ pm, suitableMethods env rcvr.ptrMethods = .ok pm → pm ≠ [] →
      (rpc.register env rcvr name useName).2 = some (errorsNew
        ("rpc.Register: type " ++ resolvedName rcvr name useName ++
          " has no exported methods of suitable type (hint: pass a pointer to value of that type)"
          ++ ", error: " ++ formatErr none))) ∧
    (suitableMethods env rcvr.ptrMethods = .ok [] →
      (rpc.register env rcvr name useName).2 = some (errorsNew
        ("rpc.Register: type " ++ resolvedName rcvr name useName ++
          " has no exported methods of suitable type" ++ ", error: " ++ formatErr none))) ∧
    (∀ e, suitableMethods env rcvr.ptrMethods = .error e →
      (rpc.register env rcvr name useName).2 = some (errorsNew
        ("rpc.Register: type " ++ resolvedName rcvr name useName ++
          " has no exported methods of suitable type" ++ ", error: " ++
          formatErr (some e)))) := by
  have h1 : ¬ ((resolvedName rcvr name useName == "") = true) := by simpa using hne
  have h2 : ¬ ((!isExported env (resolvedName rcvr name useName) && !useName) = true) := by
    rcases hexp with h | h <;> simp [h]
  have hcase : (rpc.register env rcvr name useName).1 = rpc ∧
      (rpc.register env rcvr name useName).2 ≠ none := by
    rcases register_cases env rpc rcvr name useName with h | ⟨ms, hms, hnil, _⟩
    · exact h
    · rw [hzero] at hms
      cases hms
      exact absurd rfl hnil
  refine ⟨hcase.1, hcase.2, ?_, ?_, ?_⟩
  · intro pm hpm hpmne
    have h3 : ¬ (pm.length = 0) := by
      cases pm with
      | nil => exact absurd rfl hpmne
      | cons m ms => simp
    unfold rpcImpl.register
    unfold resolvedName at h1 h2 ⊢
    simp only
    generalize (if useName = true then name else rcvr.indirectType.name) = sname at h1 h2 ⊢
    simp [h1, h2, hzero, hpm, h3]
  · intro hpm
    unfold rpcImpl.register
    unfold resolvedName at h1 h2 ⊢
    simp only
    generalize (if useName = true then name else rcvr.indirectType.name) = sname at h1 h2 ⊢
    simp [h1, h2, hzero, hpm]
  · intro e hpm
    unfold rpcImpl.register
    unfold resolvedName at h1 h2 ⊢
    simp only
    generalize (if useName = true then name else rcvr.indirectType.name) = sname at h1 h2 ⊢
    simp [h1, h2, hzero, hpm]

/-- C15 (amended), at the value `Greeter{}`, whose pointer type has the method
`Hello`, and at the object `Empty{}`, whose pointer type has none. -/
theorem C15_no_suitable_methods_witness :
    (New.Register stdEnv greeterValue).2 = some (errorsNew
      ("rpc.Register: type Greeter has no exported methods of suitable type " ++
        "(hint: pass a pointer to value of that type), error: <nil>")) ∧
    (New.Register stdEnv emptyObject).2 = some (errorsNew
      "rpc.Register: type Empty has no exported methods of suitable type, error: <nil>") :=
  ⟨(C15_no_suitable_methods stdEnv New greeterValue "" false (by decide) (Or.inr (by decide))
      rfl).2.2.1 [("Hello", greeterHelloType)] rfl (by simp),
    (C15_no_suitable_methods stdEnv New emptyObject "" false (by decide) (Or.inr (by decide))
      rfl).2.2.2.1 rfl⟩

/-- C16: for a request whose `ServiceMethod` contains no `.`, `Handler` returns
a nil value and the error `rpc: service/method request ill-formed: <string>`,
whatever the registry holds; that message differs from every message
`rpc: can't find service <string>`, which is what `Handler` returns for a
string with a separator whose service name is not registered. -/
theorem C16_malformed_path (env : Env) (rpc : rpcImpl) (req : Request)
    (baseParam : List Value) (hno : '.' ∉ req.ServiceMethod.data) :
    rpc.Handler env req baseParam =
      .ok (.nil, some (errorsNew
        ("rpc: service/method request ill-formed: " ++ req.ServiceMethod))) ∧
    (∀ rpc' : rpcImpl, rpc'.Handler env req baseParam = rpc.Handler env req baseParam) ∧
    (∀ s, "rpc: service/method request ill-formed: " ++ req.ServiceMethod ≠
      "rpc: can't find service " ++ s) ∧
    (∀ (rpc' : rpcImpl) (S M : String) ps, '.' ∉ M.data → rpc'.Load S = none →
      rpc'.Handler env ⟨S ++ "." ++ M, ps⟩ baseParam =
        .ok (.nil, some (errorsNew ("rpc: can't find service " ++ (S ++ "." ++ M))))) := by
  have hidx := lastIndexDot_none req.ServiceMethod.data hno
  have hall : ∀ r : rpcImpl, r.Handler env req baseParam =
      .ok (.nil, some (errorsNew
        ("rpc: service/method request ill-formed: " ++ req.ServiceMethod))) := by
    intro r
    simp [rpcImpl.Handler, rpcImpl.readRequest, rpcImpl.readRequestServiceMethod, hidx]
  refine ⟨hall rpc, fun r => by rw [hall r, hall rpc], ?_, ?_⟩
  · intro s h
    have := congrArg String.data h
    simp [String.data_append] at this
  · intro r S M ps hM hS
    simp [rpcImpl.Handler, rpcImpl.readRequest, readRequestServiceMethod_split r S M ps hM, hS]

/-- C16, at the request `Greeter` on the registry that holds the service
`Greeter`. -/
theorem C16_malformed_path_witness :
    '.' ∉ (Request.mk "Greeter" none).ServiceMethod.data ∧
    greeterRpc.Handler stdEnv ⟨"Greeter", none⟩ [ctx] =
      .ok (.nil, some (errorsNew "rpc: service/method request ill-formed: Greeter")) :=
  ⟨by decide, (C16_malformed_path stdEnv greeterRpc ⟨"Greeter", none⟩ [ctx] (by decide)).1⟩

/-- C17 (as stated, refuted): `Greeter` is a registered service name and `x.y`
is not a key of its method table, yet for the request `Greeter.x.y` `Handler`
returns the unknown-service error and not the unknown-method error: the string
is split at its last `.`, so the service looked up is `Greeter.x`. -/
theorem C17_method_name_with_separator :
    greeterRpc.Load "Greeter" = some greeterService ∧
    (greeterService.method.lookup "x.y").isNone = true ∧
    greeterRpc.Handler stdEnv ⟨"Greeter" ++ "." ++ "x.y", none⟩ [ctx] =
      .ok (.nil, some (errorsNew "rpc: can't find service Greeter.x.y")) ∧
    greeterRpc.Handler stdEnv ⟨"Greeter" ++ "." ++ "x.y", none⟩ [ctx] ≠
      .ok (.nil, some (errorsNew "rpc: can't find method Greeter.x.y")) :=
  ⟨rfl, rfl, by decide, by decide⟩

/-- C17 (amended): for a request `S.M` where `M` contains no `.` (so that `M` is
what follows the last `.` of the string), `S` is a registered service name and
`M` is not a key of the method table of `S`, `Handler` returns a nil value and
the error `rpc: can't find method S.M`.  The message holds both names, it
differs from every message `rpc: can't find service <string>`, and it is the
same whatever the methods of the registry do, so no method is invoked. -/
theorem C17_unknown_method (env : Env) (rpc : rpcImpl) (S M : String)
    (ps : Option (List (Option String))) (baseParam : List Value) (svc : service)
    (hM : '.' ∉ M.data) (hS : rpc.Load S = some svc) (hno : svc.method.lookup M = none) :
    rpc.Handler env ⟨S ++ "." ++ M, ps⟩ baseParam =
      .ok (.nil, some (errorsNew ("rpc: can't find method " ++ (S ++ "." ++ M)))) ∧
    (errorsNew ("rpc: can't find method " ++ (S ++ "." ++ M))).Error =
      "rpc: can't find method " ++ S ++ "." ++ M ∧
    (∀ s, "rpc: can't find method " ++ (S ++ "." ++ M) ≠ "rpc: can't find service " ++ s) := by
  refine ⟨?_, ?_, ?_⟩
  · simp [rpcImpl.Handler, rpcImpl.readRequest, readRequestServiceMethod_split rpc S M ps hM,
      hS, hno]
  · simp [GoError.Error, errorsNew, String.append_assoc]
  · intro s h
    have := congrArg String.data h
    simp [String.data_append] at this

/-- C17 (amended), at the request `Greeter.Bye`. -/
theorem C17_unknown_method_witness :
    greeterRpc.Handler stdEnv ⟨"Greeter.Bye", none⟩ [ctx] =
      .ok (.nil, some (errorsNew "rpc: can't find method Greeter.Bye")) :=
  (C17_unknown_method stdEnv greeterRpc "Greeter" "Bye" none [ctx] greeterService (by decide)
    rfl rfl).1

/-- C18: a `ServiceMethod` string that contains a `.` splits in exactly one way
as `S.M` with no `.` in `M`: `S` is everything before the last `.` and `M`
everything after it.  The lookup uses `S` as service name and `M` as method
name, and the request resolves if and only if `S` is registered and `M` is a
key of its method table. -/
theorem C18_split_on_last_separator (rpc : rpcImpl) (req : Request)
    (hdot : '.' ∈ req.ServiceMethod.data) :
    ∃ S M : String, req.ServiceMethod = S ++ "." ++ M ∧ '.' ∉ M.data ∧
      (∀ S' M' : String, req.ServiceMethod = S' ++ "." ++ M' → '.' ∉ M'.data →
        S' = S ∧ M' = M) ∧
      rpc.readRequestServiceMethod req =
        (match rpc.Load S with
         | none => .error (errorsNew ("rpc: can't find service " ++ req.ServiceMethod))
         | some svc =>
           match svc.method.lookup M with
           | none => .error (errorsNew ("rpc: can't find method " ++ req.ServiceMethod))
           | some mtype => .ok (svc, mtype)) ∧
      ((∃ svc mtype, rpc.readRequestServiceMethod req = .ok (svc, mtype)) ↔
        ∃ svc mtype, rpc.Load S = some svc ∧ svc.method.lookup M = some mtype) := by
  obtain ⟨d, hd⟩ := lastIndexDot_of_mem _ hdot
  obtain ⟨h1, h2, h3⟩ := lastIndexDot_some _ d hd
  have hsm : req.ServiceMethod = String.mk (req.ServiceMethod.data.take d) ++ "." ++
      String.mk (req.ServiceMethod.data.drop (d + 1)) := by
    apply String.ext
    simp only [String.data_append]
    simpa using h1
  have hres : rpc.readRequestServiceMethod req =
      (match rpc.Load (String.mk (req.ServiceMethod.data.take d)) with
       | none => .error (errorsNew ("rpc: can't find service " ++ req.ServiceMethod))
       | some svc =>
         match svc.method.lookup (String.mk (req.ServiceMethod.data.drop (d + 1))) with
         | none => .error (errorsNew ("rpc: can't find method " ++ req.ServiceMethod))
         | some mtype => .ok (svc, mtype)) := by
    simp only [rpcImpl.readRequestServiceMethod, hd]
  refine ⟨String.mk (req.ServiceMethod.data.take d),
    String.mk (req.ServiceMethod.data.drop (d + 1)), hsm, h2, ?_, hres, ?_⟩
  · intro S' M' heq hM'
    have hdata : req.ServiceMethod.data = S'.data ++ '.' :: M'.data := by
      rw [heq]; simp [String.data_append]
    have hidx := lastIndexDot_append S'.data M'.data hM'
    rw [← hdata, hd] at hidx
    have hlen : d = S'.data.length := by simpa using hidx
    constructor
    · apply String.ext
      simp [hdata, hlen]
    · apply String.ext
      simp only [hdata, hlen]
      rw [List.drop_append_eq_append_drop]
      simp
  · rw [hres]
    constructor
    · rintro ⟨svc, mtype, h⟩
      cases hS : rpc.Load (String.mk (req.ServiceMethod.data.take d)) with
      | none => rw [hS] at h; cases h
      | some svc' =>
        rw [hS] at h
        simp only at h
        cases hm : svc'.method.lookup (String.mk (req.ServiceMethod.data.drop (d + 1))) with
        | none => rw [hm] at h; cases h
        | some mt => exact ⟨svc', mt, rfl, hm⟩
    · rintro ⟨svc, mtype, hS, hm⟩
      exact ⟨svc, mtype, by simp [hS, hm]⟩

/-- The registry after `RegisterName("Main.Greeter", &Greeter{})` on a new
registry. -/
theorem mainGreeter_registered :
    (New.RegisterName stdEnv "Main.Greeter" greeter).1.Load "Main.Greeter" =
      some ⟨"Main.Greeter", greeter.value, greeter.typ, [("Hello", greeterHelloType)]⟩ := rfl

/-- C18, at the request `Main.Greeter.Hello` on a registry that holds the
service `Main.Greeter` with the method `Hello`: the request resolves. -/
theorem C18_split_on_last_separator_witness :
    '.' ∈ (Request.mk "Main.Greeter.Hello" none).ServiceMethod.data ∧
    ∃ svc mtype, (New.RegisterName stdEnv "Main.Greeter" greeter).1.readRequestServiceMethod
      ⟨"Main.Greeter.Hello", none⟩ = .ok (svc, mtype) := by
  refine ⟨by decide, ?_⟩
  obtain ⟨S, M, _, _, huniq, _, hiff⟩ := C18_split_on_last_separator
    (New.RegisterName stdEnv "Main.Greeter" greeter).1 ⟨"Main.Greeter.Hello", none⟩ (by decide)
  obtain ⟨hS, hM⟩ := huniq "Main.Greeter" "Hello" rfl (by decide)
  subst hS
  subst hM
  exact hiff.mpr ⟨_, _, mainGreeter_registered, rfl⟩

/-- C19 (as stated, refuted): `Calc.Sub` declares one leading base parameter and
two request parameters.  Called with one base parameter and a request of one
param, or of three, `Handler` reports `need 2`, not `need 1`; and called with a
request of two params of which the first does not decode, it passes the arity
check but returns the conversion error instead of invoking the method. -/
theorem C19_message_reports_need_two :
    calcSubType.method.typ.params.length = 3 ∧
    calcRpc.Handler stdEnv ⟨"Calc.Sub", some [some "5"]⟩ [ctx] =
      .ok (.nil, some (errorsNew "rpc: params not matched. got 1, need 2")) ∧
    calcRpc.Handler stdEnv ⟨"Calc.Sub", some [some "5"]⟩ [ctx] ≠
      .ok (.nil, some (errorsNew "rpc: params not matched. got 1, need 1")) ∧
    calcRpc.Handler stdEnv ⟨"Calc.Sub", some [some "5", some "1", some "2"]⟩ [ctx] =
      .ok (.nil, some (errorsNew "rpc: params not matched. got 3, need 2")) ∧
    calcRpc.Handler stdEnv ⟨"Calc.Sub", some [some "5", some "1", some "2"]⟩ [ctx] ≠
      .ok (.nil, some (errorsNew "rpc: params not matched. got 3, need 1")) ∧
    calcRpc.Handler stdEnv ⟨"Calc.Sub", some [some "\"x\"", some "1"]⟩ [ctx] =
      .ok (.nil, some (errorsNew ("rpc: convert param faild. expect int, found=\"x\", " ++
        "error: json: cannot unmarshal string into Go value of type int\n"))) := by
  decide

/-- C19 (amended): for a registered method that declares three parameters, one
leading base parameter and two request parameters, `Handler` called with one
base parameter and a request of two params passes the arity check and, when
both params decode, invokes the method on the vector of the receiver, the base
parameter and the two decoded values: a panic of the method on that vector is
the panic of `Handler`, a single output is the value returned, and of two
outputs (the second declared of a kind that has a nil) a non-nil error is the
error returned and a nil one lets the first output be the value returned.
Called with a request of one param or of three it returns the errors
`rpc: params not matched. got 1, need 2` and
`rpc: params not matched. got 3, need 2`. -/
theorem C19_arity_one_base_two_params (env : Env) (rpc : rpcImpl) (req : Request)
    (base : Value) (svc : service) (mtype : methodType)
    (hreach : Reachable env rpc)
    (hlook : rpc.readRequestServiceMethod req = .ok (svc, mtype))
    (hthree : mtype.method.typ.params.length = 3) :
    (req.params.length = 1 → rpc.Handler env req [base] =
      .ok (.nil, some (errorsNew "rpc: params not matched. got 1, need 2"))) ∧
    (req.params.length = 3 → rpc.Handler env req [base] =
      .ok (.nil, some (errorsNew "rpc: params not matched. got 3, need 2"))) ∧
    (req.params.length = 2 →
      (∀ e, rpc.readRequest env req [base] ≠ .ok (.error (errorsNew
        ("rpc: params not matched. got 2, need " ++ e)))) ∧
      ∀ d₁ d₂ : Value,
        (∀ i p, req.params.get? i = some p →
          ∃ t v, mtype.method.typ.params.get? (1 + i) = some t ∧
            [d₁, d₂].get? i = some v ∧ convert env p t = .ok (.ok v)) →
        rpc.readRequest env req [base] = .ok (.ok (svc, mtype, [svc.rcvr, base, d₁, d₂])) ∧
        (∀ v, mtype.method.func [svc.rcvr, base, d₁, d₂] = .panic v →
          rpc.Handler env req [base] = .panic v) ∧
        (∀ out, mtype.method.func [svc.rcvr, base, d₁, d₂] = .ok [out] →
          rpc.Handler env req [base] = .ok (out, none)) ∧
        (∀ out0 out1 t, mtype.method.func [svc.rcvr, base, d₁, d₂] = .ok [out0, out1] →
          mtype.method.typ.outs.get? 1 = some t → t.kind.nillable = true →
          (∀ e, out1 = .err e → rpc.Handler env req [base] = .ok (.nil, some e)) ∧
          (out1 = .nil → rpc.Handler env req [base] = .ok (out0, none)))) := by
  have hr := reachable_registered env rpc req svc mtype hreach hlook
  refine ⟨?_, ?_, ?_⟩
  · intro h1
    have := readRequest_arity_fail env rpc req [base] svc mtype hlook
      (by rw [h1, hthree]; simp)
    simp only [rpcImpl.Handler, this, h1, hthree]
    rfl
  · intro h3
    have := readRequest_arity_fail env rpc req [base] svc mtype hlook
      (by rw [h3, hthree]; simp)
    simp only [rpcImpl.Handler, this, h3, hthree]
    rfl
  · intro h2
    have hpass := readRequest_arity_pass env rpc req [base] svc mtype hlook hr.argTypes_eq
      (by rw [h2, hthree]; rfl)
    constructor
    · intro e hcontra
      rw [hpass] at hcontra
      match hps : req.params, h2 with
      | [p, q], _ =>
        rw [hps] at hcontra
        match hargs : mtype.method.typ.params, hthree with
        | [t0, t1, t2], _ =>
          rw [hargs] at hcontra
          simp only [decodeParams, List.length_cons, List.length_nil, List.get?_cons_succ,
            List.get?_cons_zero, Nat.zero_add] at hcontra
          cases hc : convert env p t1 with
          | panic v => rw [hc] at hcontra; cases hcontra
          | ok r =>
            cases r with
            | error err =>
              rw [hc] at hcontra
              cases p with
              | none => cases hcontra
              | some raw =>
                simp only [Outcome.ok.injEq, Except.error.injEq, errorsNew,
                  GoError.plain.injEq, true_and] at hcontra
                have := congrArg String.data hcontra
                simp [String.data_append] at this
            | ok v =>
              rw [hc] at hcontra
              simp only [setIndex, List.length_cons, List.length_nil, List.length_append,
                List.length_replicate] at hcontra
              simp only [show (0 + 1 + 1 < 0 + 1 + 1 + (0 + 1 + 1)) from by decide, if_true,
                Nat.add_zero, List.get?_cons_succ, List.get?_cons_zero] at hcontra
              cases hc2 : convert env q t2 with
              | panic v => rw [hc2] at hcontra; cases hcontra
              | ok r2 =>
                cases r2 with
                | error err =>
                  rw [hc2] at hcontra
                  cases q with
                  | none => cases hcontra
                  | some raw =>
                    simp only [Outcome.ok.injEq, Except.error.injEq, errorsNew,
                      GoError.plain.injEq, true_and] at hcontra
                    have := congrArg String.data hcontra
                    simp [String.data_append] at this
                | ok v2 =>
                  rw [hc2] at hcontra
                  simp [setIndex, decodeParams] at hcontra
    · intro d₁ d₂ hdec
      have h2' := decodeParams_ok env mtype.method.typ.params 1 req.params 0
        ([svc.rcvr] ++ [base]) (List.replicate req.params.length Value.nil) [] [d₁, d₂]
        (by simp) (by simp) (by simp [h2])
        (by
          intro j p hp
          obtain ⟨t, v, ht, hv, hc⟩ := hdec j p hp
          exact ⟨t, v, by simpa using ht, hv, hc⟩)
      simp only [List.append_nil] at h2'
      have hlen1 : ([base] : List Value).length = 1 := rfl
      rw [hlen1, h2'] at hpass
      have hread : rpc.readRequest env req [base] =
          .ok (.ok (svc, mtype, [svc.rcvr, base, d₁, d₂])) := by simpa using hpass
      refine ⟨hread, ?_, ?_, ?_⟩
      · intro v hv
        simp [rpcImpl.Handler, hread, service.call, hv]
      · intro out hout
        simp [rpcImpl.Handler, hread, service.call, hout]
      · intro out0 out1 t hcall ht hk
        have ht' : mtype.method.typ.outs[1]? = some t := by simpa using ht
        constructor
        · intro e he
          subst he
          simp [rpcImpl.Handler, hread, service.call, hcall, ht', hk]
        · intro he
          subst he
          simp [rpcImpl.Handler, hread, service.call, hcall, ht', hk]

/-- C19 (amended), at `Calc.Sub` with one param, and with the params `5` and
`1`, on which the method returns `(4, nil)` and `Handler` returns 4. -/
theorem C19_arity_one_base_two_params_witness :
    calcRpc.Handler stdEnv ⟨"Calc.Sub", some [some "5"]⟩ [ctx] =
      .ok (.nil, some (errorsNew "rpc: params not matched. got 1, need 2")) ∧
    calcRpc.readRequest stdEnv ⟨"Calc.Sub", some [some "5", some "1"]⟩ [ctx] =
      .ok (.ok (calcService, calcSubType, [calcObject.value, ctx, .int 5, .int 1])) ∧
    calcRpc.Handler stdEnv ⟨"Calc.Sub", some [some "5", some "1"]⟩ [ctx] =
      .ok (.int 4, none) := by
  have h := fun req => C19_arity_one_base_two_params stdEnv calcRpc req ctx calcService
    calcSubType (Reachable.register calcObject "" false (Reachable.register greeter "" false .new))
  have h2 := ((h ⟨"Calc.Sub", some [some "5", some "1"]⟩ rfl rfl).2.2 rfl).2 (.int 5) (.int 1)
    (by
      intro i p hp
      match i, hp with
      | 0, hp =>
        have : p = some "5" := by simpa [Request.params] using hp.symm
        subst this
        exact ⟨GoType.tInt, .int 5, rfl, rfl, rfl⟩
      | 1, hp =>
        have : p = some "1" := by simpa [Request.params] using hp.symm
        subst this
        exact ⟨GoType.tInt, .int 1, rfl, rfl, rfl⟩
      | i + 2, hp => simp [Request.params] at hp)
  exact ⟨(h ⟨"Calc.Sub", some [some "5"]⟩ rfl rfl).1 rfl, h2.1,
    (h2.2.2.2 (.int 4) .nil GoType.tError (by decide) rfl rfl).2 rfl⟩

/-- C20 (as stated, refuted): for the defined pointer type `type P *int`, which
the signature check accepts as a parameter type, `convert` decodes the raw
message `5` into `reflect.New(P.Elem())` and returns that value, whose type is
`*int` and not `P`. -/
theorem C20_defined_pointer_type_not_exact :
    tP.kind = .ptr ∧ tP.elem = GoType.tInt ∧ isExportedOrBuiltinType stdEnv tP = true ∧
    convertTyped stdEnv (some "5") tP = .ok (.ok (.ptr (.int 5), .ptr GoType.tInt)) ∧
    convert stdEnv (some "5") tP = .ok (.ok (.ptr (.int 5))) ∧
    GoType.ptr GoType.tInt ≠ tP :=
  ⟨rfl, rfl, by decide, rfl, rfl, by decide⟩

/-- C20 (amended): for every target type `T` and every raw message that decodes,
`convert` returns the decoded value itself, of type exactly `T`, when `T` is
not of pointer kind, and a non-nil pointer to the value decoded for the element
type `E` of `T`, of the unnamed pointer type `*E`, when `T` is of pointer kind.
That type is exactly `T` when `T` is the pointer type `*U`; when `T` is a
defined type whose underlying type is `*U` it is that underlying type and not
`T`.  When the decoding fails `convert` returns the error and no value, and the
loop of the caller stops at once with the conversion error, without an argument
vector.  The value `convert` hands to `readRequest` is the value part of
`convertTyped`. -/
theorem C20_convert_value_or_pointer (env : Env) (data : String) (T : GoType) :
    (∀ msg : Option String, convert env msg T =
      match convertTyped env msg T with
      | .panic v => .panic v
      | .ok (.error err) => .ok (.error err)
      | .ok (.ok (v, _)) => .ok (.ok v)) ∧
    (T.kind ≠ .ptr → ∀ v, env.unmarshal data T = .ok v →
      convertTyped env (some data) T = .ok (.ok (v, T)) ∧
      convert env (some data) T = .ok (.ok v)) ∧
    (∀ U, T = .ptr U → ∀ v, env.unmarshal data U = .ok v →
      convertTyped env (some data) T = .ok (.ok (.ptr v, T)) ∧
      convert env (some data) T = .ok (.ok (.ptr v)) ∧ Value.ptr v ≠ .nil) ∧
    (∀ p pkg n U, T = .named p pkg n (.ptr U) → ∀ v, env.unmarshal data U = .ok v →
      convertTyped env (some data) T = .ok (.ok (.ptr v, .ptr U)) ∧
      convert env (some data) T = .ok (.ok (.ptr v)) ∧ GoType.ptr U ≠ T) ∧
    (T.kind = .ptr → ∀ v, env.unmarshal data T.elem = .ok v →
      convertTyped env (some data) T = .ok (.ok (.ptr v, .ptr T.elem)) ∧
      convert env (some data) T = .ok (.ok (.ptr v)) ∧ Value.ptr v ≠ .nil ∧
      (GoType.ptr T.elem = T ↔ ∃ U, T = .ptr U)) ∧
    (∀ e, env.unmarshal data (if T.kind = .ptr then T.elem else T) = .error e →
      convertTyped env (some data) T = .ok (.error e) ∧
      convert env (some data) T = .ok (.error e) ∧
      ∀ (argTypes : List GoType) (k i : Nat) (rest : List (Option String)) (argv : List Value),
        argTypes.get? (i + k) = some T →
        decodeParams env argTypes k (some data :: rest) i argv =
          .ok (.error (errorsNew ("rpc: convert param faild. expect " ++ T.string ++
            ", found=" ++ data ++ ", error: " ++ e.Error ++ "\n")))) := by
  have hptr : T.kind = .ptr → ∀ v, env.unmarshal data T.elem = .ok v →
      convertTyped env (some data) T = .ok (.ok (.ptr v, .ptr T.elem)) ∧
      convert env (some data) T = .ok (.ok (.ptr v)) := by
    intro hk v hv
    exact ⟨by simp [convertTyped, hk, hv], by simp [convert_eq, hk, hv]⟩
  refine ⟨fun _ => rfl, ?_, ?_, ?_, ?_, ?_⟩
  · intro hk v hv
    have hb : (T.kind == Kind.ptr) = false := by simpa using hk
    exact ⟨by simp [convertTyped, hb, hv], by simp [convert_eq, hk, hv]⟩
  · intro U hT v hv
    subst hT
    have h := hptr rfl v hv
    exact ⟨h.1, h.2, by simp⟩
  · intro p pkg n U hT v hv
    subst hT
    have h := hptr rfl v hv
    exact ⟨h.1, h.2, by simp⟩
  · intro hk v hv
    have h := hptr hk v hv
    refine ⟨h.1, h.2, by simp, ?_⟩
    constructor
    · intro h
      exact ⟨T.elem, h.symm⟩
    · rintro ⟨U, rfl⟩
      rfl
  · intro e he
    have hc : convert env (some data) T = .ok (.error e) := by
      by_cases hk : T.kind = .ptr
      · rw [if_pos hk] at he
        simp [convert_eq, hk, he]
      · rw [if_neg hk] at he
        simp [convert_eq, hk, he]
    have hct : convertTyped env (some data) T = .ok (.error e) := by
      by_cases hk : T.kind = .ptr
      · rw [if_pos hk] at he
        simp [convertTyped, hk, he]
      · rw [if_neg hk] at he
        have hb : (T.kind == Kind.ptr) = false := by simpa using hk
        simp [convertTyped, hb, he]
    refine ⟨hct, hc, ?_⟩
    intro argTypes k i rest argv hT
    simp only [decodeParams, hT, hc]

/-- C20 (amended), at the raw message `7` decoded against `int` and against
`*int`, where the type returned is the target type, at the raw message `7`
decoded against `type P *int`, where it is `*int`, and at the raw message `"x"`,
which does not decode against `int`. -/
theorem C20_convert_value_or_pointer_witness :
    convertTyped stdEnv (some "7") GoType.tInt = .ok (.ok (.int 7, GoType.tInt)) ∧
    convertTyped stdEnv (some "7") (.ptr GoType.tInt) =
      .ok (.ok (.ptr (.int 7), .ptr GoType.tInt)) ∧
    convertTyped stdEnv (some "7") tP = .ok (.ok (.ptr (.int 7), .ptr GoType.tInt)) ∧
    convert stdEnv (some "\"x\"") GoType.tInt =
      .ok (.error (jsonTypeError "string" GoType.tInt)) :=
  ⟨((C20_convert_value_or_pointer stdEnv "7" GoType.tInt).2.1 (by decide) (.int 7) rfl).1,
    ((C20_convert_value_or_pointer stdEnv "7" (.ptr GoType.tInt)).2.2.1 GoType.tInt rfl
      (.int 7) rfl).1,
    ((C20_convert_value_or_pointer stdEnv "7" tP).2.2.2.1 "main" "main" "P" GoType.tInt rfl
      (.int 7) rfl).1,
    ((C20_convert_value_or_pointer stdEnv "\"x\"" GoType.tInt).2.2.2.2.2
      (jsonTypeError "string" GoType.tInt) rfl).2.1⟩

/-- C21 (failing input): for a nil entry of `Params`, `convert` dereferences the
nil pointer and panics, against every target type.  The request `Greeter.Hello`
with the one entry nil passes the lookup and the arity check, and `Handler`
reaches neither the invocation nor a conversion error: it panics, and
`recoverHandler` answers with the runtime-error marker. -/
theorem C21_nil_entry_panics (env : Env) (T : GoType) :
    convert env none T = .panic nilDeref ∧
    greeterRpc.readRequestServiceMethod ⟨"Greeter.Hello", some [none]⟩ =
      .ok (greeterService, greeterHelloType) ∧
    greeterRpc.Handler stdEnv ⟨"Greeter.Hello", some [none]⟩ [ctx] = .panic nilDeref ∧
    recoverHandler stdEnv greeterRpc ctx ⟨"Greeter.Hello", some [none]⟩ =
      (.nil, some stdEnv.ErrRuntime) :=
  ⟨rfl, rfl, by decide, by decide⟩

/-- C24: when `register` returns an error the registry is the one it was given;
when it returns nil the resolved name was not registered before, the registry
has exactly one more entry, the new service under the resolved name, and every
other name maps to what it mapped to before. -/
theorem C24_registration_atomic (env : Env) (rpc : rpcImpl) (rcvr : Receiver) (name : String)
    (useName : Bool) :
    ((rpc.register env rcvr name useName).2 ≠ none →
      (rpc.register env rcvr name useName).1 = rpc) ∧
    ((rpc.register env rcvr name useName).2 = none →
      rpc.Load (resolvedName rcvr name useName) = none ∧
      ∃ svc : service, svc.name = resolvedName rcvr name useName ∧
        (rpc.register env rcvr name useName).1.serviceMap =
          rpc.serviceMap ++ [(resolvedName rcvr name useName, svc)] ∧
        (rpc.register env rcvr name useName).1.Load (resolvedName rcvr name useName) =
          some svc ∧
        ∀ k, k ≠ resolvedName rcvr name useName →
          (rpc.register env rcvr name useName).1.Load k = rpc.Load k) := by
  rcases register_cases env rpc rcvr name useName with h | ⟨methods, _, _, _, hfresh, heq⟩
  · exact ⟨fun _ => h.1, fun hnone => absurd hnone h.2⟩
  · refine ⟨fun herr => absurd (by rw [heq]) herr, fun _ => ⟨hfresh, _, rfl, by rw [heq], ?_, ?_⟩⟩
    · rw [heq]
      exact lookup_append_new rpc.serviceMap _ _ hfresh
    · intro k hk
      rw [heq]
      exact lookup_append_other rpc.serviceMap k _ _ hk

/-- C24, at the registration of `Calc` after `Greeter` (success) and at a second
registration of `Greeter` (failure). -/
theorem C24_registration_atomic_witness :
    (greeterRpc.Register stdEnv calcObject).1.Load "Greeter" = greeterRpc.Load "Greeter" ∧
    (greeterRpc.Register stdEnv greeter).1 = greeterRpc :=
  ⟨(((C24_registration_atomic stdEnv greeterRpc calcObject "" false).2 (by decide)).2.elim
      fun _ h => h.2.2.2 "Greeter" (by decide)),
    (C24_registration_atomic stdEnv greeterRpc greeter "" false).1 (by decide)⟩

/-- C25: for a registered method, every request and every number `k` of base
parameters, `readRequest` makes no access out of range.  If `k` exceeds the
number of declared parameters the arity check fails; if the arity check passes,
`k` plus the number of params is the number of declared parameters; the only
panic `readRequest` can raise is the dereference of a nil entry, never an index
out of range; and when it returns an argument vector, that vector has one slot
per declared parameter and one for the receiver, filled in order by the
receiver, the `k` base parameters and one decoded value per param. -/
theorem C25_no_out_of_range (env : Env) (rpc : rpcImpl) (req : Request)
    (baseParam : List Value) (svc : service) (mtype : methodType)
    (hreach : Reachable env rpc)
    (hlook : rpc.readRequestServiceMethod req = .ok (svc, mtype)) :
    (mtype.method.typ.params.length < baseParam.length →
      rpc.readRequest env req baseParam =
        .ok (.error (errorsNew ("rpc: params not matched. got " ++ toString req.params.length ++
          ", need " ++
          toString ((mtype.method.typ.params.length : Int) - (baseParam.length : Int)))))) ∧
    ((req.params.length : Int) =
        (mtype.method.typ.params.length : Int) - (baseParam.length : Int) →
      baseParam.length + req.params.length = mtype.argTypes.length) ∧
    (∀ i n, rpc.readRequest env req baseParam ≠ .panic (boundsError i n)) ∧
    (∀ v, rpc.readRequest env req baseParam = .panic v → v = nilDeref) ∧
    (∀ s m argv, rpc.readRequest env req baseParam = .ok (.ok (s, m, argv)) →
      argv.length = mtype.argTypes.length + 1 ∧
      ∃ decoded : List Value, decoded.length = req.params.length ∧
        argv = [svc.rcvr] ++ baseParam ++ decoded) := by
  have hr := reachable_registered env rpc req svc mtype hreach hlook
  have hargs := hr.argTypes_eq
  have hpanic : ∀ v, rpc.readRequest env req baseParam = .panic v → v = nilDeref := by
    intro v hv
    by_cases harity : (req.params.length : Int) =
        (mtype.method.typ.params.length : Int) - (baseParam.length : Int)
    · have hsum : req.params.length + baseParam.length = mtype.method.typ.params.length := by
        omega
      have hpass := readRequest_arity_pass env rpc req baseParam svc mtype hlook hargs hsum
      have hb := decodeParams_in_bounds env mtype.method.typ.params baseParam.length req.params
        0 ([svc.rcvr] ++ baseParam) (List.replicate req.params.length Value.nil) []
        (by simp) (by simp) (by omega)
      simp only [List.append_nil] at hb
      rw [hpass] at hv
      rcases hb with hb | ⟨e, hb⟩ | ⟨decoded, _, hb⟩
      · rw [hb] at hv
        simp only [Outcome.panic.injEq] at hv
        exact hv.symm
      · rw [hb] at hv; cases hv
      · rw [hb] at hv; cases hv
    · rw [readRequest_arity_fail env rpc req baseParam svc mtype hlook harity] at hv
      cases hv
  refine ⟨?_, ?_, ?_, hpanic, ?_⟩
  · intro hk
    exact readRequest_arity_fail env rpc req baseParam svc mtype hlook (by omega)
  · intro harity
    rw [hargs]
    omega
  · intro i n h
    have := hpanic _ h
    simp [boundsError, nilDeref] at this
  · intro s m argv hok
    by_cases harity : (req.params.length : Int) =
        (mtype.method.typ.params.length : Int) - (baseParam.length : Int)
    · have hsum : req.params.length + baseParam.length = mtype.method.typ.params.length := by
        omega
      have hpass := readRequest_arity_pass env rpc req baseParam svc mtype hlook hargs hsum
      have hb := decodeParams_in_bounds env mtype.method.typ.params baseParam.length req.params
        0 ([svc.rcvr] ++ baseParam) (List.replicate req.params.length Value.nil) []
        (by simp) (by simp) (by omega)
      simp only [List.append_nil] at hb
      rw [hpass] at hok
      rcases hb with hb | ⟨e, hb⟩ | ⟨decoded, hd, hb⟩
      · rw [hb] at hok; cases hok
      · rw [hb] at hok; cases hok
      · rw [hb] at hok
        simp only [Outcome.ok.injEq, Except.ok.injEq, Prod.mk.injEq] at hok
        obtain ⟨_, _, hargv⟩ := hok
        subst hargv
        refine ⟨?_, decoded, hd, rfl⟩
        rw [hargs]
        simp [hd]
        omega
    · rw [readRequest_arity_fail env rpc req baseParam svc mtype hlook harity] at hok
      cases hok

/-- C25, at `Greeter.Hello` called with three base parameters where the method
declares two parameters: the arity check fails and nothing is indexed. -/
theorem C25_no_out_of_range_witness :
    greeterHelloType.method.typ.params.length < ([ctx, ctx, ctx] : List Value).length ∧
    greeterRpc.readRequest stdEnv ⟨"Greeter.Hello", none⟩ [ctx, ctx, ctx] =
      .ok (.error (errorsNew "rpc: params not matched. got 0, need -1")) :=
  ⟨by decide,
    (C25_no_out_of_range stdEnv greeterRpc ⟨"Greeter.Hello", none⟩ [ctx, ctx, ctx]
      greeterService greeterHelloType (Reachable.register greeter "" false .new) rfl).1
      (by decide)⟩

/-- C26: when a request resolves and decodes, and the method returns exactly
one output, `Handler` returns that output as the value together with a nil
error, whatever the output is, a non-nil error value included. -/
theorem C26_single_output_is_value (env : Env) (rpc : rpcImpl) (req : Request)
    (baseParam args : List Value) (svc : service) (mtype : methodType) (out : Value)
    (hread : rpc.readRequest env req baseParam = .ok (.ok (svc, mtype, args)))
    (hcall : mtype.method.func args = .ok [out]) :
    rpc.Handler env req baseParam = .ok (out, none) ∧
    (∀ e, out = .err e → rpc.Handler env req baseParam = .ok (.err e, none)) := by
  have h : rpc.Handler env req baseParam = .ok (out, none) := by
    simp [rpcImpl.Handler, hread, service.call, hcall]
  exact ⟨h, fun e he => by rw [h, he]⟩

/-- C26, at `Audit.Last`, whose single output of type `error` holds the error
`disk full`: `Handler` returns it as the value, with a nil error. -/
theorem C26_single_output_is_value_witness :
    (New.Register stdEnv auditObject).2 = none ∧
    auditRpc.Handler stdEnv ⟨"Audit.Last", none⟩ [ctx] =
      .ok (.err (errorsNew "disk full"), none) :=
  ⟨by decide,
    (C26_single_output_is_value stdEnv auditRpc ⟨"Audit.Last", none⟩ [ctx]
      [auditObject.value, ctx] auditService auditLastType (.err (errorsNew "disk full"))
      rfl rfl).1⟩

/-- Claim C22, evaluated on the code: `AddressFromBytes` on the empty slice returns the zero
address with a nil error, although the slice does not have 20 bytes.  Everything else of the
claim holds: the address is always the first 20 bytes of `bs`, padded on the right with zero
bytes, and on a slice that is not empty the error is nil exactly when `bs` has 20 bytes. -/
theorem C22_empty_slice_no_error :
    AddressFromBytes [] = (ZeroAddress, none) ∧
      ([] : List Byte).length ≠ Word160Length ∧
      (∀ bs : List Byte, (AddressFromBytes bs).1.bytes =
        bs.take Word160Length ++ List.replicate (Word160Length - bs.length) 0) ∧
      (∀ bs : List Byte, bs ≠ [] →
        ((AddressFromBytes bs).2 = none ↔ bs.length = Word160Length)) :=
  ⟨rfl, by decide, AddressFromBytes_bytes, AddressFromBytes_error⟩

/-- Witness for C22: a slice of three bytes gets an error and the padded address, a slice of
twenty bytes gets no error. -/
theorem C22_empty_slice_no_error_witness :
    (AddressFromBytes [1, 2, 255]).2 ≠ none ∧
      (AddressFromBytes [1, 2, 255]).1.bytes = [1, 2, 255] ++ List.replicate 17 0 ∧
      (AddressFromBytes (List.replicate 20 7)).2 = none :=
  ⟨fun h => absurd ((C22_empty_slice_no_error.2.2.2 [1, 2, 255] (by decide)).mp h) (by decide),
    C22_empty_slice_no_error.2.2.1 [1, 2, 255],
    (C22_empty_slice_no_error.2.2.2 (List.replicate 20 7) (by decide)).mpr (by decide)⟩

/-- Claim C23, evaluated on the code: on a slice of three bytes `MaybeAddressFromBytes` returns
the nil pointer with the error, where `AddressFromBytes` returns the padded address with that
error.  The pointer is nil exactly when `bs` does not have 20 bytes, and on a slice of 20 bytes
the function returns the address of `AddressFromBytes` and a nil error. -/
theorem C23_nil_pointer_on_error :
    (MaybeAddressFromBytes [1, 2, 3]).1 = none ∧
      (MaybeAddressFromBytes [1, 2, 3]).2 = (AddressFromBytes [1, 2, 3]).2 ∧
      (AddressFromBytes [1, 2, 3]).2 ≠ none ∧
      (AddressFromBytes [1, 2, 3]).1.bytes = [1, 2, 3] ++ List.replicate 17 0 ∧
      (∀ bs : List Byte, (MaybeAddressFromBytes bs).1 = none ↔ bs.length ≠ Word160Length) ∧
      (∀ bs : List Byte, bs.length = Word160Length →
        MaybeAddressFromBytes bs = (some (AddressFromBytes bs).1, none)) := by
  refine ⟨by decide, rfl, by decide, by decide, ?_, MaybeAddressFromBytes_full⟩
  intro bs
  constructor
  · intro h hlen
    rw [MaybeAddressFromBytes_full bs hlen] at h
    exact absurd h (by simp)
  · exact MaybeAddressFromBytes_short bs

/-- Witness for C23: a slice of twenty bytes gives a pointer to the address made of them. -/
theorem C23_nil_pointer_on_error_witness :
    MaybeAddressFromBytes (List.replicate 20 7) =
      (some (AddressFromBytes (List.replicate 20 7)).1, none) :=
  C23_nil_pointer_on_error.2.2.2.2.2 (List.replicate 20 7) (by decide)

/-- Claim C28: for every byte sequence `d` and block size `b` from 1 to 255, `PKCS5Padding d b`
returns a sequence whose length is a multiple of `b` and greater than the length of `d`, and
`PKCS5UnPadding` of it returns `d`. -/
theorem C28_padding_round_trip (d : List Byte) (b : Int) (h1 : 1 ≤ b) (h2 : b ≤ 255) :
    ∃ p, PKCS5Padding d b = .ok p ∧ b ∣ (p.length : Int) ∧ d.length < p.length ∧
      PKCS5UnPadding p = .ok d := by
  obtain ⟨hp1, hp2, hdvd⟩ := padding_bounds d.length b h1
  refine ⟨_, PKCS5Padding_eq d b h1 h2, ?_, ?_, ?_⟩
  · simp only [List.length_append, List.length_replicate, Int.natCast_add]
    rw [Int.toNat_of_nonneg (by omega)]
    exact hdvd
  · simp only [List.length_append, List.length_replicate]
    omega
  · exact PKCS5UnPadding_append d _ _ (by omega) (byteOfInt_val _ (by omega) (by omega))

/-- Witness for C28: three bytes padded to blocks of four, and a full block of four padded with
a block of its own. -/
theorem C28_padding_round_trip_witness :
    (∃ p, PKCS5Padding [1, 2, 3] 4 = .ok p ∧ (4 : Int) ∣ (p.length : Int) ∧
      [1, 2, 3].length < p.length ∧ PKCS5UnPadding p = .ok [1, 2, 3]) ∧
    PKCS5Padding [1, 2, 3] 4 = .ok [1, 2, 3, 1] ∧
    PKCS5Padding [1, 2, 3, 4] 4 = .ok [1, 2, 3, 4, 4, 4, 4, 4] :=
  ⟨C28_padding_round_trip [1, 2, 3] 4 (by decide) (by decide), by decide, by decide⟩

/-- Claim C27: when `objectType` and all attributes are valid UTF-8 without U+0000 and
U+10FFFF, `CreateCompositeKey` returns a key with a nil error and `SplitCompositeKey` of that
key returns `objectType` and the attributes; `CreateCompositeKey` returns an error exactly when
`objectType` or some attribute is not allowed, and the key is then empty.  Slices are lists
here, so a nil slice of attributes and an empty one are the same. -/
theorem C27_composite_key_round_trip (objectType : List Byte) (attributes : List (List Byte)) :
    ((∀ s ∈ objectType :: attributes, attributeAllowed s) →
      ∃ ck, CreateCompositeKey objectType attributes = (ck, none) ∧
        SplitCompositeKey ck = .ok (objectType, attributes, none)) ∧
    ((CreateCompositeKey objectType attributes).2 ≠ none ↔
      ∃ s ∈ objectType :: attributes, ¬ attributeAllowed s) ∧
    ((CreateCompositeKey objectType attributes).2 ≠ none →
      (CreateCompositeKey objectType attributes).1 = []) := by
  have hok : (∀ s ∈ objectType :: attributes, attributeAllowed s) →
      CreateCompositeKey objectType attributes =
        (compositeKeyNamespace ++ joinComponents (objectType :: attributes), none) := by
    intro h
    have ho := (validate_none_iff objectType).mpr (h objectType (List.mem_cons_self _ _))
    simp only [CreateCompositeKey, ho]
    rw [createLoop_ok attributes _ (fun x hx => h x (List.mem_cons_of_mem _ hx))]
    simp [joinComponents]
  have hfail : (∃ s ∈ objectType :: attributes, ¬ attributeAllowed s) →
      ∃ e, CreateCompositeKey objectType attributes = ([], some e) := by
    intro h
    simp only [CreateCompositeKey]
    cases hv : validateCompositeKeyAttribute objectType with
    | some err => exact ⟨err, rfl⟩
    | none =>
      have hall := (validate_none_iff objectType).mp hv
      obtain ⟨x, hx, hnot⟩ := h
      rcases List.mem_cons.mp hx with rfl | hx
      · exact absurd hall hnot
      · exact createLoop_fail attributes _ ⟨x, hx, hnot⟩
  refine ⟨?_, ?_, ?_⟩
  · intro h
    refine ⟨_, hok h, ?_⟩
    unfold SplitCompositeKey
    rw [splitComponents_join _ (fun c hc => allowed_zero_free c (h c hc))]
  · constructor
    · intro hne
      by_contra hnone
      have hall : ∀ s ∈ objectType :: attributes, attributeAllowed s := by
        intro s hs
        by_contra hs2
        exact hnone ⟨s, hs, hs2⟩
      rw [hok hall] at hne
      exact hne rfl
    · intro h
      obtain ⟨e, he⟩ := hfail h
      rw [he]
      simp
  · intro hne
    by_cases hall : ∀ s ∈ objectType :: attributes, attributeAllowed s
    · rw [hok hall] at hne
      exact absurd rfl hne
    · have hex : ∃ s ∈ objectType :: attributes, ¬ attributeAllowed s := by
        by_contra hnone
        apply hall
        intro s hs
        by_contra hs2
        exact hnone ⟨s, hs, hs2⟩
      obtain ⟨e, he⟩ := hfail hex
      rw [he]

/-- Witness for C27: the object type "ab" with the attributes "c", the empty text and a rune
of three bytes makes a key that splits back into them. -/
theorem C27_composite_key_round_trip_witness :
    (∀ s ∈ ([97, 98] : List Byte) :: [[99], [], [0xE4, 0xB8, 0xAD]], attributeAllowed s) ∧
      (∃ ck, CreateCompositeKey [97, 98] [[99], [], [0xE4, 0xB8, 0xAD]] = (ck, none) ∧
        SplitCompositeKey ck = .ok ([97, 98], [[99], [], [0xE4, 0xB8, 0xAD]], none)) ∧
      CreateCompositeKey [97, 98] [[99], [], [0xE4, 0xB8, 0xAD]] =
        ([0, 97, 98, 0, 99, 0, 0, 0xE4, 0xB8, 0xAD, 0], none) ∧
      SplitCompositeKey (CreateCompositeKey [] []).1 = .ok ([], [], none) ∧
      (CreateCompositeKey [97] [[98, 0]]).1 = [] :=
  ⟨by decide,
    (C27_composite_key_round_trip [97, 98] [[99], [], [0xE4, 0xB8, 0xAD]]).1 (by decide),
    by decide, by decide,
    (C27_composite_key_round_trip [97] [[98, 0]]).2.2 (by decide)⟩

end Coral
